import Mathlib

/-!
Verification of arduinoWebSockets: server handshake, connection table and
Socket.IO client layer.

A shallow embedding of `src/WebSocketsServer.cpp` (network type ESP8266,
non-async) and of `src/SocketIOclient.cpp`, and the properties of the
handshake negotiator, the connection table, the event dispatch and the
Engine.IO / Socket.IO client layer.

Arduino `String` values are modelled as lists of characters.
-/

namespace WebSocketsServer

/-! ## Arduino String operations used by the server -/

/-- Contents of an Arduino `String`. -/
abbrev Str := List Char

/-- C `isspace` in the "C" locale: space, `\t`, `\n`, `\v`, `\f`, `\r`. -/
def isSpace (c : Char) : Bool :=
  c.toNat == 32 || (9 ≤ c.toNat && c.toNat ≤ 13)

/-- C `tolower` in the "C" locale. -/
def toLowerChar (c : Char) : Char :=
  if 65 ≤ c.toNat ∧ c.toNat ≤ 90 then Char.ofNat (c.toNat + 32) else c

/-- Embedding of `String::trim`: drops leading and trailing whitespace. -/
def trim (s : Str) : Str :=
  ((s.dropWhile isSpace).reverse.dropWhile isSpace).reverse

/-- Embedding of `String::toLowerCase`. -/
def toLowerCase (s : Str) : Str := s.map toLowerChar

/-- Embedding of `String::equalsIgnoreCase`: same length and equal after `tolower`. -/
def equalsIgnoreCase (a b : Str) : Bool :=
  a.length == b.length && toLowerCase a == toLowerCase b

/-- True when `p` is an initial segment of `s`. -/
def hasPrefixAt : Str → Str → Bool
  | [], _ => true
  | _ :: _, [] => false
  | a :: p, b :: s => a == b && hasPrefixAt p s

/-- Embedding of `String::startsWith(p)`. -/
def startsWith (s p : Str) : Bool := hasPrefixAt p s

/-- Position of the first occurrence of `c` in `s`, counted from `pos`. -/
def findChar (c : Char) : Str → Nat → Option Nat
  | [], _ => none
  | x :: xs, pos => if x = c then some pos else findChar c xs (pos + 1)

/-- Embedding of `String::indexOf(char, from)`: `-1` when absent or `from` is past the end. -/
def indexOfFrom (s : Str) (c : Char) (start : Nat) : Int :=
  match findChar c (s.drop start) start with
  | some i => (i : Int)
  | none => -1

/-- Embedding of `String::indexOf(char)`. -/
def indexOf (s : Str) (c : Char) : Int := indexOfFrom s c 0

/-- Position of the first occurrence of the string `p` in `s`, counted from `pos`. -/
def findStr (p : Str) : Str → Nat → Option Nat
  | [], pos => if p.isEmpty then some pos else none
  | x :: xs, pos => if hasPrefixAt p (x :: xs) then some pos else findStr p xs (pos + 1)

/-- Embedding of `String::indexOf(const String &)`. -/
def indexOfStr (s p : Str) : Int :=
  match findStr p s 0 with
  | some i => (i : Int)
  | none => -1

/-- Embedding of `String::substring(left, right)` with both bounds given as `unsigned int`:
a negative `right` (the `-1` of a failed `indexOf`) converts to a value past
the end; the bounds are swapped when `left > right` and `right` is clamped to
the length. -/
def substring (s : Str) (left : Nat) (right : Int) : Str :=
  let r : Nat := if right < 0 then s.length else right.toNat
  let lo := if left > r then r else left
  let hi := if left > r then left else r
  if lo ≥ s.length then [] else (s.take (min hi s.length)).drop lo

/-- Embedding of `String::substring(left)`: up to the end of the string. -/
def substringFrom (s : Str) (left : Nat) : Str := substring s left (s.length : Int)

/-- Embedding of `String::remove(index, count)`. -/
def remove (s : Str) (index count : Nat) : Str :=
  if index ≥ s.length then s else s.take index ++ s.drop (index + count)

/-- Value of a run of leading decimal digits, with the accumulator `acc`. -/
def digitsValue : Str → Nat → Nat
  | [], acc => acc
  | c :: cs, acc =>
    if 48 ≤ c.toNat ∧ c.toNat ≤ 57 then digitsValue cs (acc * 10 + (c.toNat - 48)) else acc

/-- Embedding of `String::toInt`, that is `atol`: leading whitespace, an optional sign and
decimal digits; the result saturates at the bounds of a 32-bit `long`. -/
def toInt (s : Str) : Int :=
  match s.dropWhile isSpace with
  | [] => 0
  | c :: cs =>
    if c = '-' then max (-(digitsValue cs 0 : Int)) (-2147483648)
    else if c = '+' then min (digitsValue cs 0 : Int) 2147483647
    else min (digitsValue (c :: cs) 0 : Int) 2147483647

/-! ## Data model (WebSockets.h is not part of the sources; the types below
follow the fields the server code reads and writes) -/

/-- Lifecycle status of a slot (`WSclientsStatus_t`). -/
inductive WSclientsStatus_t
  | WSC_NOT_CONNECTED
  | WSC_HEADER
  | WSC_CONNECTED
  deriving DecidableEq, Repr

/-- Event kinds handed to the event callback (`WStype_t`). -/
inductive WStype_t
  | WStype_ERROR
  | WStype_DISCONNECTED
  | WStype_CONNECTED
  | WStype_TEXT
  | WStype_BIN
  | WStype_FRAGMENT_TEXT_START
  | WStype_FRAGMENT_BIN_START
  | WStype_FRAGMENT
  | WStype_FRAGMENT_FIN
  | WStype_PING
  | WStype_PONG
  deriving DecidableEq, Repr

/-- Frame opcodes (`WSopcode_t`); `WSop_other` stands for any other 4-bit value. -/
inductive WSopcode_t
  | WSop_continuation
  | WSop_text
  | WSop_binary
  | WSop_close
  | WSop_ping
  | WSop_pong
  | WSop_other (code : Nat)
  deriving DecidableEq, Repr

/-- A transport handle (`WEBSOCKETS_NETWORK_CLASS *`): an identity and what
`connected()` currently reports. A `NULL` pointer is `none : Option Tcp`. -/
structure Tcp where
  id : Nat
  connected : Bool
  deriving DecidableEq, Repr

/-- One slot of the connection table (`WSclient_t`). -/
structure WSclient_t where
  num : Nat
  status : WSclientsStatus_t
  tcp : Option Tcp
  isSSL : Bool
  ssl : Option Tcp
  cUrl : Str
  cCode : Nat
  cIsUpgrade : Bool
  cIsWebsocket : Bool
  cKey : Str
  cProtocol : Str
  cExtensions : Str
  cVersion : Int
  cWsRXsize : Nat
  base64Authorization : Str
  cHttpHeadersValid : Bool
  cMandatoryHeadersCount : Nat
  deriving DecidableEq, Repr

/-- Observable actions of the server, in the order they happen. -/
inductive Effect
  /-- Call of `tcp->flush()` on a transport handle -/
  | tcpFlush (t : Tcp)
  /-- Call of `tcp->stop()` on a transport handle -/
  | tcpStop (t : Tcp)
  /-- Call of `WebSockets::write(client, bytes, length)` -/
  | write (num : Nat) (bytes : Str)
  /-- Call of `WebSockets::sendFrame(client, opcode, payload, length)` -/
  | sendFrame (num : Nat) (opcode : WSopcode_t) (payload : List Nat)
  /-- Call of `runCbEvent(num, type, payload, length)`; a `NULL` payload is `none` -/
  | cbEvent (num : Nat) (type : WStype_t) (payload : Option Str) (length : Nat)
  /-- Call of `execHttpHeaderValidation(headerName, headerValue)` -/
  | httpHeaderValidation (headerName headerValue : Str)
  /-- the rejection response written by `handleNonWebsocketConnection` -/
  | nonWebsocketResponse (num : Nat)
  /-- the unauthorized response written by `handleAuthorizationFailed` -/
  | authorizationFailedResponse (num : Nat)
  deriving DecidableEq, Repr

/-- The server object: the connection table `_clients` (its length is
`WEBSOCKETS_SERVER_CLIENT_MAX`, a macro of WebSockets.h; the loops over the
table index it with a `uint8_t`, so it has at most 255 slots), the
configuration fields, and the log of observable actions performed so far. -/
structure Server where
  clients : List WSclient_t
  origin : Str
  protocol : Str
  base64Authorization : Str
  httpHeaderValidationFunc : Option (Str → Str → Bool)
  mandatoryHttpHeaders : List Str
  runnning : Bool
  log : List Effect

/-- The field `_mandatoryHttpHeaderCount`: the number of entries of `_mandatoryHttpHeaders`. -/
def Server.mandatoryHttpHeaderCount (s : Server) : Nat := s.mandatoryHttpHeaders.length

/-- A slot as the constructor's `memset(&_clients[0], 0x00, ...)` leaves it. -/
def zeroClient : WSclient_t :=
  { num := 0, status := .WSC_NOT_CONNECTED, tcp := none, isSSL := false, ssl := none,
    cUrl := [], cCode := 0, cIsUpgrade := false, cIsWebsocket := false, cKey := [],
    cProtocol := [], cExtensions := [], cVersion := 0, cWsRXsize := 0,
    base64Authorization := [], cHttpHeadersValid := false, cMandatoryHeadersCount := 0 }

/-- The constructor `WebSocketsServer(port, origin, protocol)` for a table of `K` slots. -/
def construct (K : Nat) (origin protocol : Str) : Server :=
  { clients := List.replicate K zeroClient, origin := origin, protocol := protocol,
    base64Authorization := [], httpHeaderValidationFunc := none, mandatoryHttpHeaders := [],
    runnning := false, log := [] }

/-- The body of the loop of `begin` for slot `i`. -/
def beginClient (i : Nat) (client : WSclient_t) : WSclient_t :=
  { client with
    num := i, status := .WSC_NOT_CONNECTED, tcp := none, isSSL := false, ssl := none,
    cUrl := [], cCode := 0, cKey := [], cProtocol := [], cVersion := 0,
    cIsUpgrade := false, cIsWebsocket := false, base64Authorization := [], cWsRXsize := 0 }

/-- The loop of `begin` over the slots from index `i` on. -/
def beginFrom : Nat → List WSclient_t → List WSclient_t
  | _, [] => []
  | i, client :: rest => beginClient i client :: beginFrom (i + 1) rest

/-- Embedding of `WebSocketsServer::begin`. -/
def begin (s : Server) : Server :=
  { s with clients := beginFrom 0 s.clients, runnning := true }

/-- Embedding of `WebSocketsServer::setAuthorization(const char * auth)` with a non-null argument. -/
def setAuthorization (s : Server) (auth : Str) : Server :=
  { s with base64Authorization := auth }

/-- Embedding of `WebSocketsServer::onValidateHttpHeader`. -/
def onValidateHttpHeader (s : Server) (validationFunc : Option (Str → Str → Bool))
    (mandatoryHttpHeaders : List Str) : Server :=
  { s with httpHeaderValidationFunc := validationFunc, mandatoryHttpHeaders := mandatoryHttpHeaders }

/-! ## Teardown and liveness -/

/-- Embedding of `WebSocketsServer::clientDisconnect(WSclient_t *)`: closes and releases the
transport, resets the slot and fires the Disconnected event. -/
def clientDisconnect (client : WSclient_t) : WSclient_t × List Effect :=
  let e1 : List Effect :=
    match client.isSSL, client.ssl with
    | true, some t => if t.connected then [.tcpFlush t, .tcpStop t] else []
    | _, _ => []
  let client1 : WSclient_t :=
    match client.isSSL, client.ssl with
    | true, some _ => { client with ssl := none, tcp := none }
    | _, _ => client
  let e2 : List Effect :=
    match client1.tcp with
    | some t => if t.connected then [.tcpFlush t, .tcpStop t] else []
    | none => []
  let client2 : WSclient_t := { client1 with tcp := none }
  ({ client2 with
      cUrl := [], cKey := [], cProtocol := [], cVersion := 0,
      cIsUpgrade := false, cIsWebsocket := false, cWsRXsize := 0,
      status := .WSC_NOT_CONNECTED },
   e1 ++ e2 ++ [.cbEvent client.num .WStype_DISCONNECTED none 0])

/-- Embedding of `WebSocketsServer::clientIsConnected`: the result, the slot afterwards and
the actions performed. -/
def clientIsConnected (client : WSclient_t) : Bool × WSclient_t × List Effect :=
  match client.tcp with
  | none => (false, client, [])
  | some t =>
    if t.connected && client.status != .WSC_NOT_CONNECTED then (true, client, [])
    else
      -- client lost
      let r1 : WSclient_t × List Effect :=
        if !t.connected && client.status != .WSC_NOT_CONNECTED then clientDisconnect client
        else (client, [])
      -- client list cleanup
      let r2 : WSclient_t × List Effect :=
        if r1.1.tcp.isSome then clientDisconnect r1.1 else (r1.1, [])
      (false, r2.1, r1.2 ++ r2.2)

/-- Modelled from the spec: `WebSockets::clientDisconnect(client, code)` lives in
WebSockets.cpp, which is not part of the sources. Per the spec a protocol-level
close sends a close frame carrying the code (only after the upgrade completed,
since before it no WebSocket frame can be sent) and then tears the slot down
synchronously: transport closed, slot reset, callback fired. -/
def clientDisconnectCode (client : WSclient_t) (code : Nat) : WSclient_t × List Effect :=
  let e : List Effect :=
    if client.status = .WSC_CONNECTED ∧ code ≠ 0 then
      [.sendFrame client.num .WSop_close [(code / 256) % 256, code % 256]]
    else []
  ((clientDisconnect client).1, e ++ (clientDisconnect client).2)

/-- The body of `disconnect(num)` and of the loop of `disconnect()` for one slot. -/
def disconnectClient (client : WSclient_t) : WSclient_t × List Effect :=
  let r := clientIsConnected client
  if r.1 then
    ((clientDisconnectCode r.2.1 1000).1, r.2.2 ++ (clientDisconnectCode r.2.1 1000).2)
  else (r.2.1, r.2.2)

/-- Applies a per-slot operation to slot `i` of the table (`&_clients[i]`) and
appends its actions to the log; an index outside the table changes nothing. -/
def Server.onSlot (s : Server) (i : Nat) (f : WSclient_t → WSclient_t × List Effect) : Server :=
  match s.clients[i]? with
  | none => s
  | some client => { s with clients := s.clients.set i (f client).1, log := s.log ++ (f client).2 }

/-- Embedding of `WebSocketsServer::disconnect(uint8_t num)`. -/
def disconnectNum (s : Server) (num : Nat) : Server := s.onSlot num disconnectClient

/-- The loop of `disconnect()` over the slots. -/
def disconnectAll : List WSclient_t → List WSclient_t × List Effect
  | [] => ([], [])
  | client :: rest =>
    ((disconnectClient client).1 :: (disconnectAll rest).1,
     (disconnectClient client).2 ++ (disconnectAll rest).2)

/-- Embedding of `WebSocketsServer::disconnect(void)`. -/
def disconnect (s : Server) : Server :=
  { s with clients := (disconnectAll s.clients).1, log := s.log ++ (disconnectAll s.clients).2 }

/-! ## Accepting connections -/

/-- The loop of `newClient` over the slots: the result, the table afterwards
and the actions performed. The loop index is a `uint8_t`, so the table is
taken to have at most 255 slots. -/
def newClientFrom (TCPclient : Tcp) : List WSclient_t → Bool × List WSclient_t × List Effect
  | [] => (false, [], [])
  | client :: rest =>
    let r := clientIsConnected client
    if !r.1 then
      -- state is not connected or tcp connection is lost
      (true, { r.2.1 with tcp := some TCPclient, isSSL := false, status := .WSC_HEADER } :: rest, r.2.2)
    else
      let q := newClientFrom TCPclient rest
      (q.1, r.2.1 :: q.2.1, r.2.2 ++ q.2.2)

/-- Embedding of `WebSocketsServer::newClient`: true when the transport was bound to a slot. -/
def newClient (s : Server) (TCPclient : Tcp) : Bool × Server :=
  let r := newClientFrom TCPclient s.clients
  (r.1, { s with clients := r.2.1, log := s.log ++ r.2.2 })

/-- One round of the loop of `handleNewClients` for the pending connection `tcpClient`. -/
def handleNewClient (s : Server) (tcpClient : Tcp) : Server :=
  let r := newClient s tcpClient
  if !r.1 then
    -- no free space to handle client
    { r.2 with log := r.2.log ++ [.tcpStop tcpClient] }
  else r.2

/-- Embedding of `WebSocketsServer::handleNewClients`, given the connections the listening
socket has pending. -/
def handleNewClients (s : Server) (pending : List Tcp) : Server :=
  pending.foldl handleNewClient s

/-! ## Handshake -/

/-- Embedding of `WebSocketsServer::hasMandatoryHeader`. -/
def hasMandatoryHeader (s : Server) (headerName : Str) : Bool :=
  s.mandatoryHttpHeaders.any (fun h => equalsIgnoreCase h headerName)

/-- Modelled from the spec: `execHttpHeaderValidation` is declared in
WebSocketsServer.h, which is not part of the sources. The header validator is
a pluggable predicate; without a registered predicate every header passes. -/
def execHttpHeaderValidation (s : Server) (headerName headerValue : Str) : Bool :=
  match s.httpHeaderValidationFunc with
  | some f => f headerName headerValue
  | none => true

/-- Modelled from the spec: `handleNonWebsocketConnection` is declared in
WebSocketsServer.h, which is not part of the sources. On handshake failure a
non-websocket (plain rejection) response is written and the connection is
torn down. -/
def handleNonWebsocketConnection (client : WSclient_t) : WSclient_t × List Effect :=
  ((clientDisconnect client).1, [.nonWebsocketResponse client.num] ++ (clientDisconnect client).2)

/-- Modelled from the spec: `handleAuthorizationFailed` is declared in
WebSocketsServer.h, which is not part of the sources. On a credential mismatch
an unauthorized (401-style) response is written and the connection is closed. -/
def handleAuthorizationFailed (client : WSclient_t) : WSclient_t × List Effect :=
  ((clientDisconnect client).1,
   [.authorizationFailedResponse client.num] ++ (clientDisconnect client).2)

/-- Modelled from the spec: `WebSockets::headerDone` lives in WebSockets.cpp,
which is not part of the sources. The handshake phase ends and the slot starts
with no partial frame pending. -/
def headerDone (client : WSclient_t) : WSclient_t := { client with cWsRXsize := 0 }

/-- The line terminator `NEW_LINE`. -/
def NEW_LINE : Str := "\r\n".toList

/-- The part of `handleHeader` that splits a header line at its first colon:
the header name. -/
def headerNameOf (headerLine : Str) : Str :=
  substring headerLine 0 (indexOf headerLine ':')

/-- The part of `handleHeader` that splits a header line at its first colon:
the header value, with one leading space removed (RFC2616). -/
def headerValueOf (headerLine : Str) : Str :=
  let headerValue := substringFrom headerLine ((indexOf headerLine ':').toNat + 1)
  if headerValue.head? = some ' ' then remove headerValue 0 1 else headerValue

/-- The colon branch of `handleHeader`: dispatch on the header name. The
mandatory-header count is a `size_t` (32 bits on the ESP targets). -/
def handleHeaderField (s : Server) (client : WSclient_t) (headerName headerValue : Str) :
    WSclient_t × List Effect :=
  if equalsIgnoreCase headerName "Connection".toList then
    if indexOfStr (toLowerCase headerValue) "upgrade".toList ≥ 0 then
      ({ client with cIsUpgrade := true }, [])
    else (client, [])
  else if equalsIgnoreCase headerName "Upgrade".toList then
    if equalsIgnoreCase headerValue "websocket".toList then
      ({ client with cIsWebsocket := true }, [])
    else (client, [])
  else if equalsIgnoreCase headerName "Sec-WebSocket-Version".toList then
    ({ client with cVersion := toInt headerValue }, [])
  else if equalsIgnoreCase headerName "Sec-WebSocket-Key".toList then
    ({ client with cKey := trim headerValue }, [])
  else if equalsIgnoreCase headerName "Sec-WebSocket-Protocol".toList then
    ({ client with cProtocol := headerValue }, [])
  else if equalsIgnoreCase headerName "Sec-WebSocket-Extensions".toList then
    ({ client with cExtensions := headerValue }, [])
  else if equalsIgnoreCase headerName "Authorization".toList then
    ({ client with base64Authorization := headerValue }, [])
  else
    ({ client with
        cHttpHeadersValid :=
          client.cHttpHeadersValid && execHttpHeaderValidation s headerName headerValue,
        cMandatoryHeadersCount :=
          if s.mandatoryHttpHeaderCount > 0 ∧ hasMandatoryHeader s headerName = true then
            (client.cMandatoryHeadersCount + 1) % 4294967296
          else client.cMandatoryHeadersCount },
     [.httpHeaderValidation headerName headerValue])

/-- The flag `ok` of `handleHeader` as it stands after the block of checks. -/
def handshakeOk (s : Server) (client : WSclient_t) : Bool :=
  let ok := client.cIsUpgrade && client.cIsWebsocket
  if ok then
    let ok := if client.cUrl.length = 0 then false else ok
    let ok := if client.cKey.length = 0 then false else ok
    let ok := if client.cVersion ≠ 13 then false else ok
    let ok := if !client.cHttpHeadersValid then false else ok
    let ok := if client.cMandatoryHeadersCount ≠ s.mandatoryHttpHeaderCount then false else ok
    ok
  else ok

/-- The 101 response `handshake` that `handleHeader` builds; `sKey` is the
accept key. -/
def handshakeResponse (s : Server) (client : WSclient_t) (sKey : Str) : Str :=
  let handshake : Str :=
    ("HTTP/1.1 101 Switching Protocols\r\n" ++
     "Server: arduino-WebSocketsServer\r\n" ++
     "Upgrade: websocket\r\n" ++
     "Connection: Upgrade\r\n" ++
     "Sec-WebSocket-Version: 13\r\n" ++
     "Sec-WebSocket-Accept: ").toList
  let handshake := handshake ++ (sKey ++ NEW_LINE)
  let handshake :=
    if s.origin.length > 0 then
      handshake ++ "Access-Control-Allow-Origin: ".toList ++ (s.origin ++ NEW_LINE)
    else handshake
  let handshake :=
    if client.cProtocol.length > 0 then
      handshake ++ "Sec-WebSocket-Protocol: ".toList ++ (s.protocol ++ NEW_LINE)
    else handshake
  -- header end
  handshake ++ NEW_LINE

/-- The end-of-headers branch of `handleHeader`. `acceptKey` is
`WebSockets::acceptKey` (WebSockets.cpp, not part of the sources). -/
def handleHeaderEnd (acceptKey : Str → Str) (s : Server) (client : WSclient_t) :
    WSclient_t × List Effect :=
  let ok := handshakeOk s client
  if s.base64Authorization.length > 0 ∧
      "Basic ".toList ++ s.base64Authorization ≠ client.base64Authorization then
    handleAuthorizationFailed client
  else if ok then
    -- generate Sec-WebSocket-Accept key
    let sKey := acceptKey client.cKey
    let client1 : WSclient_t := { client with status := .WSC_CONNECTED }
    let handshake := handshakeResponse s client1 sKey
    let client2 := headerDone client1
    (client2,
     [.write client1.num handshake,
      -- send ping
      .sendFrame client2.num .WSop_ping [],
      .cbEvent client2.num .WStype_CONNECTED (some client2.cUrl) client2.cUrl.length])
  else
    handleNonWebsocketConnection client

/-- Embedding of `WebSocketsServer::handleHeader` on one slot. -/
def handleHeader (acceptKey : Str → Str) (s : Server) (client : WSclient_t) (headerLine : Str) :
    WSclient_t × List Effect :=
  let headerLine := trim headerLine -- remove \r
  if headerLine.length > 0 then
    -- websocket requests always start with GET see rfc6455
    if startsWith headerLine "GET ".toList then
      -- cut URL out; reset non-websocket http header validation state for this client
      ({ client with
          cUrl := substring headerLine 4 (indexOfFrom headerLine ' ' 4),
          cHttpHeadersValid := true,
          cMandatoryHeadersCount := 0 }, [])
    else if indexOf headerLine ':' ≥ 0 then
      handleHeaderField s client (headerNameOf headerLine) (headerValueOf headerLine)
    else (client, [])
  else handleHeaderEnd acceptKey s client

/-! ## Event dispatch and the service pass -/

/-- Embedding of `WebSocketsServer::messageReceived`: the event handed to the callback. -/
def messageReceived (client : WSclient_t) (opcode : WSopcode_t) (payload : Option Str)
    (length : Nat) (fin : Bool) : List Effect :=
  let type : WStype_t :=
    match opcode with
    | .WSop_text => if fin then .WStype_TEXT else .WStype_FRAGMENT_TEXT_START
    | .WSop_binary => if fin then .WStype_BIN else .WStype_FRAGMENT_BIN_START
    | .WSop_continuation => if fin then .WStype_FRAGMENT_FIN else .WStype_FRAGMENT
    | .WSop_ping => .WStype_PING
    | .WSop_pong => .WStype_PONG
    | _ => .WStype_ERROR
  [.cbEvent client.num type payload length]

/-- What the frame codec makes of the bytes a connected slot has available. -/
inductive FrameOutcome
  /-- fewer bytes than the frame declares: retry on a later tick -/
  | incomplete
  /-- a complete data or ping/pong frame -/
  | message (opcode : WSopcode_t) (payload : Str) (fin : Bool)
  /-- a close frame from the peer -/
  | close
  /-- a malformed frame -/
  | protocolError
  deriving DecidableEq, Repr

/-- Modelled from the spec: `WebSockets::handleWebsocket` lives in
WebSockets.cpp, which is not part of the sources. An incomplete frame changes
nothing; a decoded frame is handed to the event dispatcher; a close frame and
a protocol error tear the connection down with a close frame (codes 1000 and
1002). -/
def handleWebsocket (client : WSclient_t) (frame : FrameOutcome) : WSclient_t × List Effect :=
  match frame with
  | .incomplete => (client, [])
  | .message opcode payload fin =>
    (client, messageReceived client opcode (some payload) payload.length fin)
  | .close => clientDisconnectCode client 1000
  | .protocolError => clientDisconnectCode client 1002

/-- What the transport of one slot delivers during a service pass:
`tcp->available()`, the line `readStringUntil` returns, and what the frame
codec decodes. -/
structure Rx where
  available : Int
  headerLine : Str
  frame : FrameOutcome

/-- The body of the loop of `handleClientData` for one slot. -/
def handleClientDataSlot (acceptKey : Str → Str) (s : Server) (client : WSclient_t) (rx : Rx) :
    WSclient_t × List Effect :=
  let r := clientIsConnected client
  if r.1 then
    if rx.available > 0 then
      match r.2.1.status with
      | .WSC_HEADER =>
        ((handleHeader acceptKey s r.2.1 rx.headerLine).1,
         r.2.2 ++ (handleHeader acceptKey s r.2.1 rx.headerLine).2)
      | .WSC_CONNECTED =>
        ((handleWebsocket r.2.1 rx.frame).1, r.2.2 ++ (handleWebsocket r.2.1 rx.frame).2)
      | .WSC_NOT_CONNECTED =>
        ((clientDisconnectCode r.2.1 1002).1, r.2.2 ++ (clientDisconnectCode r.2.1 1002).2)
    else (r.2.1, r.2.2)
  else (r.2.1, r.2.2)

/-- The loop of `handleClientData` over the slots; `rx` gives, slot by slot,
what the transports deliver (a slot without an entry has nothing available). -/
def handleClientDataFrom (acceptKey : Str → Str) (s : Server) :
    List WSclient_t → List Rx → List WSclient_t × List Effect
  | [], _ => ([], [])
  | client :: rest, [] =>
    (((clientIsConnected client).2.1) :: (handleClientDataFrom acceptKey s rest []).1,
     (clientIsConnected client).2.2 ++ (handleClientDataFrom acceptKey s rest []).2)
  | client :: rest, rx :: rxs =>
    ((handleClientDataSlot acceptKey s client rx).1 :: (handleClientDataFrom acceptKey s rest rxs).1,
     (handleClientDataSlot acceptKey s client rx).2 ++ (handleClientDataFrom acceptKey s rest rxs).2)

/-- Embedding of `WebSocketsServer::handleClientData`. -/
def handleClientData (acceptKey : Str → Str) (s : Server) (rx : List Rx) : Server :=
  { s with
    clients := (handleClientDataFrom acceptKey s s.clients rx).1,
    log := s.log ++ (handleClientDataFrom acceptKey s s.clients rx).2 }

/-- The transport of a slot changes what `connected()` reports (the peer
closes the connection, for instance). -/
def transportReports (b : Bool) (client : WSclient_t) : WSclient_t × List Effect :=
  ({ client with tcp := client.tcp.map (fun t => { t with connected := b }) }, [])

/-- One operation on the server. `handleHeader` is a protected member and is
only called for a slot that holds a transport handle. -/
inductive Step (acceptKey : Str → Str) : Server → Server → Prop
  | newClient (s : Server) (t : Tcp) : Step acceptKey s (newClient s t).2
  | handleNewClients (s : Server) (pending : List Tcp) :
      Step acceptKey s (handleNewClients s pending)
  | handleHeader (s : Server) (i : Nat) (client : WSclient_t) (headerLine : Str) :
      s.clients[i]? = some client → client.tcp ≠ none →
      Step acceptKey s (s.onSlot i (fun c => handleHeader acceptKey s c headerLine))
  | clientIsConnected (s : Server) (i : Nat) :
      Step acceptKey s (s.onSlot i (fun c => (clientIsConnected c).2))
  | clientDisconnect (s : Server) (i : Nat) : Step acceptKey s (s.onSlot i clientDisconnect)
  | disconnectNum (s : Server) (num : Nat) : Step acceptKey s (disconnectNum s num)
  | disconnect (s : Server) : Step acceptKey s (disconnect s)
  | handleClientData (s : Server) (rx : List Rx) : Step acceptKey s (handleClientData acceptKey s rx)
  | transport (s : Server) (i : Nat) (b : Bool) : Step acceptKey s (s.onSlot i (transportReports b))
  | setAuthorization (s : Server) (auth : Str) : Step acceptKey s (setAuthorization s auth)
  | onValidateHttpHeader (s : Server) (f : Option (Str → Str → Bool)) (names : List Str) :
      Step acceptKey s (onValidateHttpHeader s f names)

/-- The states the server can be in: `begin()` on any server object, followed
by any sequence of operations. -/
inductive Reachable (acceptKey : Str → Str) : Server → Prop
  | begin (s : Server) : Reachable acceptKey (begin s)
  | step (s t : Server) : Reachable acceptKey s → Step acceptKey s t → Reachable acceptKey t

/-- Feeds a sequence of header lines to `handleHeader` on one slot, one line
at a time, collecting the actions. -/
def handleHeaders (acceptKey : Str → Str) (s : Server) :
    WSclient_t → List Str → WSclient_t × List Effect
  | client, [] => (client, [])
  | client, l :: ls =>
    ((handleHeaders acceptKey s (handleHeader acceptKey s client l).1 ls).1,
     (handleHeader acceptKey s client l).2 ++
       (handleHeaders acceptKey s (handleHeader acceptKey s client l).1 ls).2)

/-! ## Vocabulary of the properties -/

/-- The acceptance condition as the specification lists it: upgrade token
seen, websocket token seen, version 13, non-empty path, non-empty key, all
header validations passed, mandatory-header count equal to the configured one. -/
def acceptCondition (s : Server) (client : WSclient_t) : Prop :=
  client.cIsUpgrade = true ∧ client.cIsWebsocket = true ∧ client.cVersion = 13 ∧
  client.cUrl ≠ [] ∧ client.cKey ≠ [] ∧ client.cHttpHeadersValid = true ∧
  client.cMandatoryHeadersCount = s.mandatoryHttpHeaderCount

instance (s : Server) (client : WSclient_t) : Decidable (acceptCondition s client) := by
  unfold acceptCondition; infer_instance

/-- A write of bytes to the transport of a slot through `WebSockets::write`. -/
def Effect.isWrite : Effect → Bool
  | .write _ _ => true
  | _ => false

/-- A Connected event delivered to the event callback. -/
def Effect.isConnectedEvent : Effect → Bool
  | .cbEvent _ .WStype_CONNECTED _ _ => true
  | _ => false

/-- A Disconnected event delivered to the event callback for slot `i`. -/
def Effect.isDisconnectedEventOf (i : Nat) : Effect → Bool
  | .cbEvent num .WStype_DISCONNECTED _ _ => num == i
  | _ => false

/-- A sample accept-key function for the concrete instances below. -/
def sampleAcceptKey (key : Str) : Str := key ++ "=".toList

/-- A server with two slots after `begin()`. -/
def sampleServer : Server := begin (construct 2 [] "arduino".toList)

/-- A connected transport handle. -/
def sampleTcp : Tcp := { id := 1, connected := true }

/-- Slot 0 of `sampleServer` right after `newClient` bound `sampleTcp` to it. -/
def sampleClient : WSclient_t :=
  { beginClient 0 zeroClient with tcp := some sampleTcp, status := .WSC_HEADER }

/-- A well-formed upgrade request, line by line, without the final empty line. -/
def sampleRequest : List Str :=
  ["GET /chat HTTP/1.1\r".toList, "Host: example\r".toList,
   "Connection: keep-alive, Upgrade\r".toList, "Upgrade: websocket\r".toList,
   "Sec-WebSocket-Version: 13\r".toList, "Sec-WebSocket-Key: dGhlIHNhbXBsZQ==\r".toList,
   "Sec-WebSocket-Protocol: chat\r".toList]

/-- The slot `sampleClient` after the lines of `sampleRequest`. -/
def sampleReadyClient : WSclient_t :=
  (handleHeaders sampleAcceptKey sampleServer sampleClient sampleRequest).1

/-- The line is a request line: after trimming it starts with `GET `. -/
def isRequestLine (l : Str) : Bool := startsWith (trim l) "GET ".toList

/-- The request path `handleHeader` cuts out of a request line. -/
def requestPath (l : Str) : Str := substring (trim l) 4 (indexOfFrom (trim l) ' ' 4)

/-- The line is a header line (not a request line, with a colon) whose name is
`name`, compared case-insensitively. -/
def isHeaderLine (name l : Str) : Bool :=
  !startsWith (trim l) "GET ".toList && decide (indexOf (trim l) ':' ≥ 0) &&
    equalsIgnoreCase (headerNameOf (trim l)) name

/-- The value of a header line as `handleHeader` splits it off. -/
def headerValueOfLine (l : Str) : Str := headerValueOf (trim l)

/-- The handshake fields of a slot that both `begin()` and `clientDisconnect`
reset: path, key, sub-protocol, version and the upgrade-intent pair. -/
def handshakeFieldsReset (client : WSclient_t) : Prop :=
  client.cUrl = [] ∧ client.cKey = [] ∧ client.cProtocol = [] ∧ client.cVersion = 0 ∧
  client.cIsUpgrade = false ∧ client.cIsWebsocket = false

instance (client : WSclient_t) : Decidable (handshakeFieldsReset client) := by
  unfold handshakeFieldsReset; infer_instance

/-- The Disconnected events for slot `i` among a list of actions. -/
def discEvents (i : Nat) (l : List Effect) : List Effect :=
  l.filter (Effect.isDisconnectedEventOf i)

/-- Service passes of `handleClientData` on a one-slot server in which the
transport delivers the given lines, one per pass. -/
def serveLines (acceptKey : Str → Str) (s : Server) (lines : List Str) : Server :=
  lines.foldl
    (fun s l => handleClientData acceptKey s [{ available := 1, headerLine := l, frame := .incomplete }])
    s

/-- A one-slot server with the credential `dXNlcjpwYXNz` configured. -/
def authServer : Server :=
  setAuthorization (begin (construct 1 [] [])) "dXNlcjpwYXNz".toList

/-- A first session: it presents the credential and ends its headers at once. -/
def authSession : List Str :=
  ["Authorization: Basic dXNlcjpwYXNz\r".toList, "\r".toList]

/-- A second session: a complete upgrade request without any Authorization header. -/
def anonymousSession : List Str :=
  ["GET / HTTP/1.1\r".toList, "Connection: Upgrade\r".toList, "Upgrade: websocket\r".toList,
   "Sec-WebSocket-Version: 13\r".toList, "Sec-WebSocket-Key: dGhlIHNhbXBsZQ==\r".toList,
   "\r".toList]

/-- The server after the first session was accepted, served and rejected, and
the second session was accepted and served on the same slot. -/
def authServerAfterBoth : Server :=
  serveLines sampleAcceptKey
    (handleNewClients
      (serveLines sampleAcceptKey (handleNewClients authServer [{ id := 1, connected := true }])
        authSession)
      [{ id := 2, connected := true }])
    anonymousSession

/-- The slot holds a live session: a handle is bound, the transport reports
connected and the status is not NOT_CONNECTED. -/
def isLive (client : WSclient_t) : Bool :=
  match client.tcp with
  | some t => t.connected && client.status != .WSC_NOT_CONNECTED
  | none => false

/-- The sample server after `newClient` bound `sampleTcp` (to slot 0). -/
def sampleBoundServer : Server := (newClient sampleServer sampleTcp).2

/-- The sample server with both slots bound to connected transports. -/
def sampleFullServer : Server :=
  (newClient sampleBoundServer { id := 2, connected := true }).2

/-- The slot invariant: the status is NOT_CONNECTED exactly when no transport
handle is bound, and a slot without a handle has its path, key, sub-protocol,
version and upgrade-intent pair reset. -/
def slotInvariant (client : WSclient_t) : Prop :=
  (client.status = .WSC_NOT_CONNECTED ↔ client.tcp = none) ∧
  (client.tcp = none → handshakeFieldsReset client)

/-- Every accumulated handshake field of the slot at its zero/empty value:
path, sub-protocol, extensions, version, key, credential, the upgrade-intent
pair and the mandatory-header count. -/
def allHandshakeFieldsReset (client : WSclient_t) : Prop :=
  client.cUrl = [] ∧ client.cProtocol = [] ∧ client.cExtensions = [] ∧ client.cVersion = 0 ∧
  client.cKey = [] ∧ client.base64Authorization = [] ∧ client.cIsUpgrade = false ∧
  client.cIsWebsocket = false ∧ client.cMandatoryHeadersCount = 0

instance (client : WSclient_t) : Decidable (allHandshakeFieldsReset client) := by
  unfold allHandshakeFieldsReset; infer_instance

/-- The credential check of `handleHeader` passes: no credential is
configured, or the stored Authorization value is `Basic ` followed by it. -/
def authorizationPasses (s : Server) (client : WSclient_t) : Prop :=
  s.base64Authorization = [] ∨
    client.base64Authorization = "Basic ".toList ++ s.base64Authorization

instance (s : Server) (client : WSclient_t) : Decidable (authorizationPasses s client) := by
  unfold authorizationPasses; infer_instance

/-- The fixed head of the 101 response, up to the accept key. -/
def handshakeHead : Str :=
  ("HTTP/1.1 101 Switching Protocols\r\n" ++
   "Server: arduino-WebSocketsServer\r\n" ++
   "Upgrade: websocket\r\n" ++
   "Connection: Upgrade\r\n" ++
   "Sec-WebSocket-Version: 13\r\n" ++
   "Sec-WebSocket-Accept: ").toList

/-- The names `handleHeader` recognises itself. -/
def reservedHeaderNames : List Str :=
  ["Connection".toList, "Upgrade".toList, "Sec-WebSocket-Version".toList,
   "Sec-WebSocket-Key".toList, "Sec-WebSocket-Protocol".toList,
   "Sec-WebSocket-Extensions".toList, "Authorization".toList]

/-- The header name is one of the seven recognised names, ignoring case. -/
def isReservedName (name : Str) : Bool :=
  reservedHeaderNames.any (fun r => equalsIgnoreCase name r)

/-- The line is a header line (not a request line, with a colon) whose name is
none of the recognised names: a custom header. -/
def isCustomHeaderLine (l : Str) : Bool :=
  !isRequestLine l && decide (indexOf (trim l) ':' ≥ 0) &&
    !isReservedName (headerNameOf (trim l))

/-- A header value with at most one leading space removed. -/
def stripOneSpace : Str → Str
  | ' ' :: v => v
  | v => v

/-- The 101 response as it would read if the Sec-WebSocket-Protocol line
carried the sub-protocol recorded from the client's request. -/
def responseEchoingClientProtocol (s : Server) (client : WSclient_t) (sKey : Str) : Str :=
  handshakeHead ++ sKey ++ "\r\n".toList ++
    (if s.origin ≠ [] then
      "Access-Control-Allow-Origin: ".toList ++ s.origin ++ "\r\n".toList else []) ++
    (if client.cProtocol ≠ [] then
      "Sec-WebSocket-Protocol: ".toList ++ client.cProtocol ++ "\r\n".toList else []) ++
    "\r\n".toList

/-- A header validator that rejects every `X-Token` header. -/
def sampleValidator (headerName _headerValue : Str) : Bool :=
  !equalsIgnoreCase headerName "X-Token".toList

/-- The sample server with `sampleValidator` registered and no mandatory header. -/
def validatingServer : Server := onValidateHttpHeader sampleServer (some sampleValidator) []

/-- A request whose rejected `X-Token` header precedes the request line. -/
def tokenFirstRequest : List Str :=
  ["X-Token: bad\r".toList, "GET /chat HTTP/1.1\r".toList, "Connection: Upgrade\r".toList,
   "Upgrade: websocket\r".toList, "Sec-WebSocket-Version: 13\r".toList,
   "Sec-WebSocket-Key: dGhlIHNhbXBsZQ==\r".toList]

/-- The sample server with the mandatory headers `X-A` and `X-B` and no validator. -/
def mandatoryServer : Server :=
  onValidateHttpHeader sampleServer none ["X-A".toList, "X-B".toList]

/-- A request that sends the mandatory header `X-A` twice and `X-B` not at all. -/
def repeatedHeaderRequest : List Str :=
  ["GET /chat HTTP/1.1\r".toList, "X-A: 1\r".toList, "X-A: 2\r".toList,
   "Connection: Upgrade\r".toList, "Upgrade: websocket\r".toList,
   "Sec-WebSocket-Version: 13\r".toList, "Sec-WebSocket-Key: dGhlIHNhbXBsZQ==\r".toList]

/-! ## The Engine.IO / Socket.IO client layer (`src/SocketIOclient.cpp`) -/

/-- Modelled from the spec: the constants of `engineIOmessageType_t` are
declared in SocketIOclient.h, which is not part of the sources. Engine.IO
message byte 0: 0=open 1=close 2=ping 3=pong 4=message 5=upgrade 6=noop. -/
def eIOtype_OPEN : Nat := 0

/-- Modelled from the spec: Engine.IO message byte 0, 1=close. -/
def eIOtype_CLOSE : Nat := 1

/-- Modelled from the spec: Engine.IO message byte 0, 2=ping. -/
def eIOtype_PING : Nat := 2

/-- Modelled from the spec: Engine.IO message byte 0, 3=pong. -/
def eIOtype_PONG : Nat := 3

/-- Modelled from the spec: Engine.IO message byte 0, 4=message. -/
def eIOtype_MESSAGE : Nat := 4

/-- Modelled from the spec: Engine.IO message byte 0, 5=upgrade. -/
def eIOtype_UPGRADE : Nat := 5

/-- Modelled from the spec: Engine.IO message byte 0, 6=noop. -/
def eIOtype_NOOP : Nat := 6

/-- Modelled from the spec: the constants of `socketIOmessageType_t` are
declared in SocketIOclient.h, which is not part of the sources. Socket.IO
message byte: 0=connect 1=disconnect 2=event 3=ack 4=error 5=binary-event
6=binary-ack. -/
def sIOtype_CONNECT : Nat := 0

/-- Modelled from the spec: Socket.IO message byte, 1=disconnect. -/
def sIOtype_DISCONNECT : Nat := 1

/-- Modelled from the spec: Socket.IO message byte, 2=event. -/
def sIOtype_EVENT : Nat := 2

/-- Actions of the Socket.IO client on the underlying WebSocket client and on
the layer callback, in the order they happen. Byte buffers are lists of byte
values; a `NULL` pointer is `none`. -/
inductive ClientEffect
  /-- Call of `WebSocketsClient::sendFrameHeader(client, opcode, length, fin)` -/
  | sendFrameHeader (opcode : WSopcode_t) (length : Nat) (fin : Bool)
  /-- Call of `WebSocketsClient::write(client, buffer, n)`: the `n` bytes written -/
  | write (bytes : List Nat)
  /-- Call of `WebSocketsClient::sendTXT(payload, length, headerToPayload)` -/
  | sendTXT (payload : List Nat) (length : Nat) (headerToPayload : Bool)
  /-- Call of `WebSocketsClient::sendTXT(char)`: a text message of one byte -/
  | sendTXTchar (payload : Nat)
  /-- Call of `runIOCbEvent(type, payload, length)`, the layer callback -/
  | runIOCbEvent (type : Nat) (payload : Option (List Nat)) (length : Nat)
  deriving DecidableEq, Repr

/-- C `strlen` on a buffer: the number of bytes before the first zero byte.
For a `NULL` pointer (undefined in C) the model gives 0. -/
def strlen (payload : Option (List Nat)) : Nat :=
  match payload with
  | some bytes => (bytes.takeWhile (fun b => b != 0)).length
  | none => 0

/-- Embedding of `SocketIOclient::send(type, payload, length, headerToPayload)`:
the result and the transport calls made. `connected` is what
`clientIsConnected(&_client)` returns, and `tx k` is what the transport answers
to the call number `k` of this invocation, counted from 0 in the order the
calls are made (both belong to WebSocketsClient, which is not part of the
sources): the answer belongs to the call, not to the bytes handed over, so two
writes of the same bytes can fare differently. The frame header is call 0; the
two header bytes are written only after call 0 succeeded and are call 1; the
payload is written only after call 1 succeeded and is call 2. The length is
that of a buffer in memory, so `length + 2` does not wrap. -/
def SocketIOclient.send (connected : Bool) (tx : Nat → Bool) (type : Nat)
    (payload : Option (List Nat)) (length : Nat) (headerToPayload : Bool) :
    Bool × List ClientEffect :=
  let length := if length = 0 then strlen payload else length
  if connected then
    if !headerToPayload then
      -- webSocket Header
      let e1 : ClientEffect := .sendFrameHeader .WSop_text (length + 2) true
      let ret := tx 0
      -- Engine.IO / Socket.IO Header
      let e2 : ClientEffect := .write [eIOtype_MESSAGE, type]
      let r2 : Bool × List ClientEffect := if ret then (tx ([e1].length), [e2]) else (ret, [])
      let e3 : ClientEffect := .write ((payload.getD []).take length)
      let r3 : Bool × List ClientEffect :=
        if r2.1 && payload.isSome && decide (length > 0) then
          (tx (([e1] ++ r2.2).length), [e3])
        else (r2.1, [])
      (r3.1, [e1] ++ r2.2 ++ r3.2)
    else
      -- TODO implement
      (false, [])
  else (false, [])

/-- Embedding of `SocketIOclient::sendEVENT(payload, length, headerToPayload)`. -/
def SocketIOclient.sendEVENT (connected : Bool) (tx : Nat → Bool)
    (payload : Option (List Nat)) (length : Nat) (headerToPayload : Bool) :
    Bool × List ClientEffect :=
  SocketIOclient.send connected tx sIOtype_EVENT payload length headerToPayload

/-- Embedding of `SocketIOclient::handleCbEvent(type, payload, length)`: the
actions performed. Reading a byte outside the buffer (undefined in C) gives 0
in the model. -/
def SocketIOclient.handleCbEvent (type : WStype_t) (payload : Option (List Nat)) (length : Nat) :
    List ClientEffect :=
  match type with
  | .WStype_DISCONNECTED => [.runIOCbEvent sIOtype_DISCONNECT none 0]
  | .WStype_CONNECTED =>
    -- send message to server when Connected
    -- Engine.io upgrade confirmation message (required)
    [.sendTXTchar eIOtype_UPGRADE, .runIOCbEvent sIOtype_CONNECT payload length]
  | .WStype_TEXT =>
    if length < 1 then []
    else
      let buffer := payload.getD []
      let eType := buffer.getD 0 0
      if eType = eIOtype_PING then
        [.sendTXT (buffer.set 0 eIOtype_PONG) length false]
      else if eType = eIOtype_PONG then []
      else if eType = eIOtype_MESSAGE then
        if length < 2 then []
        else
          let ioType := buffer.getD 1 0
          [.runIOCbEvent ioType (some (buffer.drop 2)) (length - 2)]
      else []
  | _ => []

/-- Embedding of the heartbeat of `SocketIOclient::loop`: `t` is the value of
`millis()`, `last` the stored timestamp `_lastConnectionFail`; both are
`unsigned long` values of `w` bits, so `t - last` is taken modulo `2 ^ w`.
The result is the stored timestamp afterwards and the actions performed.
`EIO_HEARTBEAT_INTERVAL` is a macro of SocketIOclient.h, which is not part of
the sources, and is the parameter `interval`; the preceding call of
`WebSocketsClient::loop()` belongs to the underlying client and is left out. -/
def SocketIOclient.loop (w interval t last : Nat) : Nat × List ClientEffect :=
  if (((t : Int) - (last : Int)) % (2 : Int) ^ w).toNat > interval then
    (t, [.sendTXTchar eIOtype_PING])
  else (last, [])

/-! ## Vocabulary of the header properties, stated without the String operations -/

/-- The strings `a` and `b` are equal ignoring case: they agree character by
character once every upper-case letter is replaced by its lower-case one. -/
def sameIgnoringCase (a b : Str) : Prop := a.map toLowerChar = b.map toLowerChar

instance (a b : Str) : Decidable (sameIgnoringCase a b) := by
  unfold sameIgnoringCase; infer_instance

/-- The string `v` contains `p` as a contiguous part. -/
def containsStr (v p : Str) : Prop := ∃ pre post : Str, v = pre ++ p ++ post

/-- The string `t` is `v` without its leading and trailing whitespace: `v` is
`t` between two runs of whitespace and `t` neither starts nor ends with
whitespace. -/
def IsTrimOf (v t : Str) : Prop :=
  ∃ ws1 ws2 : Str, v = ws1 ++ t ++ ws2 ∧
    (∀ c ∈ ws1, isSpace c = true) ∧ (∀ c ∈ ws2, isSpace c = true) ∧
    (∀ c, t.head? = some c → isSpace c = false) ∧
    (∀ c, t.getLast? = some c → isSpace c = false)

/-- The character is a decimal digit, `0` to `9`. -/
def isDecimalDigit (c : Char) : Bool := decide (48 ≤ c.toNat ∧ c.toNat ≤ 57)

/-- The number a string of decimal digits denotes, most significant digit first. -/
def decimalValue (ds : Str) : Nat :=
  Nat.ofDigits 10 ((ds.map (fun c => c.toNat - 48)).reverse)

/-- The integer parse of a string, as the specification of C `atol` on a
32-bit `long` has it: whitespace is skipped, an optional sign is read, the
longest run of decimal digits that follows denotes the magnitude (zero when
there is none), and the result is cut off at the bounds of the type. -/
def integerParse (v : Str) : Int :=
  let body := v.dropWhile isSpace
  let negative : Bool := body.head? = some '-'
  let unsigned : Str := if body.head? = some '-' ∨ body.head? = some '+' then body.tail else body
  let magnitude : Int := (decimalValue (unsigned.takeWhile isDecimalDigit) : Nat)
  if negative then max (-magnitude) (-2147483648) else min magnitude 2147483647

/-- The lower-case spellings of the seven header names `handleHeader`
recognises itself. -/
def recognisedNames : List Str :=
  ["connection".toList, "upgrade".toList, "sec-websocket-version".toList,
   "sec-websocket-key".toList, "sec-websocket-protocol".toList,
   "sec-websocket-extensions".toList, "authorization".toList]

/-- The header name is one of the seven recognised names, ignoring case. -/
def isRecognisedName (name : Str) : Prop := name.map toLowerChar ∈ recognisedNames

instance (name : Str) : Decidable (isRecognisedName name) := by
  unfold isRecognisedName; infer_instance

/-- A slot that holds a connected transport handle although its status is
NOT_CONNECTED: the state the cleanup branch of `clientIsConnected` serves. -/
def sampleStaleClient : WSclient_t := { sampleReadyClient with status := .WSC_NOT_CONNECTED }

/-- A slot in the handshake phase whose transport no longer reports connected. -/
def sampleLostClient : WSclient_t :=
  { sampleReadyClient with tcp := some { id := 1, connected := false } }

/-- A session on the server with mandatory headers `X-A` and `X-B` that sends
a request line, requests an extension and sends the mandatory header `X-A`. -/
def extensionsSession : List Str :=
  ["GET /chat HTTP/1.1\r".toList, "Sec-WebSocket-Extensions: permessage-deflate\r".toList,
   "X-A: 1\r".toList]

/-- The slot `sampleClient` after the lines of `extensionsSession`. -/
def sampleExtensionsClient : WSclient_t :=
  (handleHeaders sampleAcceptKey mandatoryServer sampleClient extensionsSession).1

/-- The server with mandatory headers after a first transport was accepted on
slot 0 and served the lines of `extensionsSession`, that transport was lost,
and `newClient` bound a second transport (to slot 0 again, after tearing the
lost session down). -/
def extensionsServerRebound : Server :=
  (newClient
    ((serveLines sampleAcceptKey (handleNewClients mandatoryServer [sampleTcp])
        extensionsSession).onSlot 0 (transportReports false))
    { id := 2, connected := true }).2

/-- A server object whose only slot is free but holds a path. No execution
from `begin()` reaches such a state; it shows what `newClient` does by itself. -/
def staleTableServer : Server :=
  { sampleServer with clients := [{ beginClient 0 zeroClient with cUrl := "/stale".toList }] }

/-- The sample server after slot 0 was bound, received a request line and then
lost its transport. -/
def lostSessionServer : Server :=
  (sampleBoundServer.onSlot 0
    (fun c => handleHeader sampleAcceptKey sampleBoundServer c "GET /chat HTTP/1.1\r".toList)).onSlot
    0 (transportReports false)

/-! ## The slot operations on the connection table

The operations `clientDisconnect`, `clientIsConnected` and `handleHeader`
receive a pointer `client` into the table `_clients` of the server object.
Below they are embedded a second time, statement by statement, on the server
object itself, with the pointer `&_clients[i]` given by the index `i`: every
`client->field = value` is an assignment to the table and every call with
`client` passes the index on. -/

/-- An assignment through the pointer `&_clients[i]`: the record of slot `i`
becomes `g` of what it was. An index outside the table changes nothing. -/
def Server.assign (s : Server) (i : Nat) (g : WSclient_t → WSclient_t) : Server :=
  match s.clients[i]? with
  | none => s
  | some client => { s with clients := s.clients.set i (g client) }

/-- Observable actions are performed: they are appended to the log. -/
def Server.perform (s : Server) (es : List Effect) : Server :=
  { s with log := s.log ++ es }

/-- Embedding of `WebSocketsServer::clientDisconnect(&_clients[i])` on the server object. -/
def clientDisconnectAt (s : Server) (i : Nat) : Server :=
  match s.clients[i]? with
  | none => s
  | some client =>
    let s1 : Server :=
      match client.isSSL, client.ssl with
      | true, some t =>
        (s.perform (if t.connected then [.tcpFlush t, .tcpStop t] else [])).assign i
          (fun c => { c with ssl := none, tcp := none })
      | _, _ => s
    let s2 : Server :=
      match (s1.clients[i]?).bind (fun c => c.tcp) with
      | some t =>
        (s1.perform (if t.connected then [.tcpFlush t, .tcpStop t] else [])).assign i
          (fun c => { c with tcp := none })
      | none => s1
    let s3 : Server :=
      s2.assign i (fun c =>
        { c with
          cUrl := [], cKey := [], cProtocol := [], cVersion := 0,
          cIsUpgrade := false, cIsWebsocket := false, cWsRXsize := 0,
          status := .WSC_NOT_CONNECTED })
    match s3.clients[i]? with
    | none => s3
    | some client3 => s3.perform [.cbEvent client3.num .WStype_DISCONNECTED none 0]

/-- Embedding of `WebSocketsServer::clientIsConnected(&_clients[i])` on the
server object: the result and the server afterwards. -/
def clientIsConnectedAt (s : Server) (i : Nat) : Bool × Server :=
  match s.clients[i]? with
  | none => (false, s)
  | some client =>
    match client.tcp with
    | none => (false, s)
    | some t =>
      if t.connected && client.status != .WSC_NOT_CONNECTED then (true, s)
      else
        -- client lost
        let s1 : Server :=
          if !t.connected && client.status != .WSC_NOT_CONNECTED then clientDisconnectAt s i
          else s
        -- client list cleanup
        let s2 : Server :=
          if ((s1.clients[i]?).bind (fun c => c.tcp)).isSome then clientDisconnectAt s1 i else s1
        (false, s2)

/-- Modelled from the spec: `handleNonWebsocketConnection(&_clients[i])` on
the server object (see `handleNonWebsocketConnection`). -/
def handleNonWebsocketConnectionAt (s : Server) (i : Nat) : Server :=
  match s.clients[i]? with
  | none => s
  | some client => clientDisconnectAt (s.perform [.nonWebsocketResponse client.num]) i

/-- Modelled from the spec: `handleAuthorizationFailed(&_clients[i])` on the
server object (see `handleAuthorizationFailed`). -/
def handleAuthorizationFailedAt (s : Server) (i : Nat) : Server :=
  match s.clients[i]? with
  | none => s
  | some client => clientDisconnectAt (s.perform [.authorizationFailedResponse client.num]) i

/-- Modelled from the spec: `headerDone(&_clients[i])` on the server object
(see `headerDone`). -/
def headerDoneAt (s : Server) (i : Nat) : Server :=
  s.assign i (fun c => { c with cWsRXsize := 0 })

/-- The colon branch of `handleHeader(&_clients[i], ...)` on the server object. -/
def handleHeaderFieldAt (s : Server) (i : Nat) (headerName headerValue : Str) : Server :=
  if equalsIgnoreCase headerName "Connection".toList then
    if indexOfStr (toLowerCase headerValue) "upgrade".toList ≥ 0 then
      s.assign i (fun c => { c with cIsUpgrade := true })
    else s
  else if equalsIgnoreCase headerName "Upgrade".toList then
    if equalsIgnoreCase headerValue "websocket".toList then
      s.assign i (fun c => { c with cIsWebsocket := true })
    else s
  else if equalsIgnoreCase headerName "Sec-WebSocket-Version".toList then
    s.assign i (fun c => { c with cVersion := toInt headerValue })
  else if equalsIgnoreCase headerName "Sec-WebSocket-Key".toList then
    (s.assign i (fun c => { c with cKey := headerValue })).assign i
      (fun c => { c with cKey := trim c.cKey })
  else if equalsIgnoreCase headerName "Sec-WebSocket-Protocol".toList then
    s.assign i (fun c => { c with cProtocol := headerValue })
  else if equalsIgnoreCase headerName "Sec-WebSocket-Extensions".toList then
    s.assign i (fun c => { c with cExtensions := headerValue })
  else if equalsIgnoreCase headerName "Authorization".toList then
    s.assign i (fun c => { c with base64Authorization := headerValue })
  else
    let s1 : Server :=
      (s.perform [.httpHeaderValidation headerName headerValue]).assign i
        (fun c => { c with
          cHttpHeadersValid :=
            c.cHttpHeadersValid && execHttpHeaderValidation s headerName headerValue })
    if s.mandatoryHttpHeaderCount > 0 ∧ hasMandatoryHeader s headerName = true then
      s1.assign i (fun c =>
        { c with cMandatoryHeadersCount := (c.cMandatoryHeadersCount + 1) % 4294967296 })
    else s1

/-- The end-of-headers branch of `handleHeader(&_clients[i], ...)` on the server object. -/
def handleHeaderEndAt (acceptKey : Str → Str) (s : Server) (i : Nat) : Server :=
  match s.clients[i]? with
  | none => s
  | some client =>
    let ok := handshakeOk s client
    if s.base64Authorization.length > 0 ∧
        "Basic ".toList ++ s.base64Authorization ≠ client.base64Authorization then
      handleAuthorizationFailedAt s i
    else if ok then
      -- generate Sec-WebSocket-Accept key
      let sKey := acceptKey client.cKey
      let s1 : Server := s.assign i (fun c => { c with status := .WSC_CONNECTED })
      match s1.clients[i]? with
      | none => s1
      | some client1 =>
        let s2 : Server := s1.perform [.write client1.num (handshakeResponse s client1 sKey)]
        let s3 : Server := headerDoneAt s2 i
        match s3.clients[i]? with
        | none => s3
        | some client3 =>
          s3.perform
            [.sendFrame client3.num .WSop_ping [],
             .cbEvent client3.num .WStype_CONNECTED (some client3.cUrl) client3.cUrl.length]
    else handleNonWebsocketConnectionAt s i

/-- Embedding of `WebSocketsServer::handleHeader(&_clients[i], headerLine)` on
the server object. -/
def handleHeaderAt (acceptKey : Str → Str) (s : Server) (i : Nat) (headerLine : Str) : Server :=
  match s.clients[i]? with
  | none => s
  | some _ =>
    let headerLine := trim headerLine -- remove \r
    if headerLine.length > 0 then
      -- websocket requests always start with GET see rfc6455
      if startsWith headerLine "GET ".toList then
        -- cut URL out; reset non-websocket http header validation state for this client
        ((s.assign i (fun c =>
            { c with cUrl := substring headerLine 4 (indexOfFrom headerLine ' ' 4) })).assign i
          (fun c => { c with cHttpHeadersValid := true })).assign i
          (fun c => { c with cMandatoryHeadersCount := 0 })
      else if indexOf headerLine ':' ≥ 0 then
        handleHeaderFieldAt s i (headerNameOf headerLine) (headerValueOf headerLine)
      else s
    else handleHeaderEndAt acceptKey s i

/-! ## Properties of the handshake completion -/

theorem length_eq_zero_iff_nil (l : Str) : l.length = 0 ↔ l = [] := List.length_eq_zero

/-- The flag `ok` computed by `handleHeader` is the acceptance condition. -/
theorem handshakeOk_iff (s : Server) (client : WSclient_t) :
    handshakeOk s client = true ↔ acceptCondition s client := by
  unfold handshakeOk acceptCondition
  cases h1 : client.cIsUpgrade <;> cases h2 : client.cIsWebsocket <;>
    cases h3 : client.cHttpHeadersValid <;>
    by_cases h4 : client.cUrl = [] <;> by_cases h5 : client.cKey = [] <;>
    by_cases h6 : client.cVersion = 13 <;>
    by_cases h7 : client.cMandatoryHeadersCount = s.mandatoryHttpHeaderCount <;>
    simp [h4, h5, h6, h7]

/-- Teardown leaves the slot not connected and without a transport handle. -/
theorem clientDisconnect_status (client : WSclient_t) :
    (clientDisconnect client).1.status = .WSC_NOT_CONNECTED ∧
      (clientDisconnect client).1.tcp = none := by
  simp [clientDisconnect]

/-- The actions of a teardown: transport flush/stop actions followed by one
Disconnected event. -/
theorem clientDisconnect_effects (client : WSclient_t) (e : Effect)
    (he : e ∈ (clientDisconnect client).2) :
    (∃ t, e = .tcpFlush t) ∨ (∃ t, e = .tcpStop t) ∨
      e = .cbEvent client.num .WStype_DISCONNECTED none 0 := by
  simp only [clientDisconnect, List.mem_append, List.mem_singleton] at he
  rcases he with (he | he) | he
  · split at he
    · split at he <;> simp at he
      rcases he with he | he
      · exact Or.inl ⟨_, he⟩
      · exact Or.inr (Or.inl ⟨_, he⟩)
    · simp at he
  · split at he
    · split at he <;> simp at he
      rcases he with he | he
      · exact Or.inl ⟨_, he⟩
      · exact Or.inr (Or.inl ⟨_, he⟩)
    · simp at he
  · exact Or.inr (Or.inr he)

/-- C1: on an empty (after trimming) header line with no server credential
configured, `handleHeader` sets the status to CONNECTED, writes the 101
response and fires the Connected event exactly when the acceptance condition
holds (with equality of the mandatory-header count); otherwise it is
`handleNonWebsocketConnection`, writes no 101 response, fires no Connected
event and does not leave the status CONNECTED. -/
theorem C1_accept_iff (acceptKey : Str → Str) (s : Server) (client : WSclient_t)
    (headerLine : Str) (hline : trim headerLine = []) (hauth : s.base64Authorization = []) :
    ((handleHeader acceptKey s client headerLine).1.status = .WSC_CONNECTED ↔
        acceptCondition s client) ∧
    (acceptCondition s client →
      (handleHeader acceptKey s client headerLine).2 =
        [.write client.num
            (handshakeResponse s { client with status := .WSC_CONNECTED } (acceptKey client.cKey)),
         .sendFrame client.num .WSop_ping [],
         .cbEvent client.num .WStype_CONNECTED (some client.cUrl) client.cUrl.length]) ∧
    (¬ acceptCondition s client →
      handleHeader acceptKey s client headerLine = handleNonWebsocketConnection client ∧
      (∀ e ∈ (handleHeader acceptKey s client headerLine).2,
        e.isWrite = false ∧ e.isConnectedEvent = false)) := by
  have hok := handshakeOk_iff s client
  by_cases hc : acceptCondition s client
  · have hk : handshakeOk s client = true := hok.mpr hc
    simp [handleHeader, hline, handleHeaderEnd, hauth, hk, hc, headerDone]
  · have hk : handshakeOk s client = false := by
      cases h : handshakeOk s client
      · rfl
      · exact absurd (hok.mp h) hc
    have hres : handleHeader acceptKey s client headerLine = handleNonWebsocketConnection client := by
      simp [handleHeader, hline, handleHeaderEnd, hauth, hk]
    refine ⟨?_, fun h => absurd h hc, fun _ => ⟨hres, ?_⟩⟩
    · rw [hres]
      simp [handleNonWebsocketConnection, (clientDisconnect_status client).1, hc]
    · rw [hres]
      intro e he
      simp only [handleNonWebsocketConnection, List.mem_append, List.mem_singleton] at he
      rcases he with he | he
      · subst he; exact ⟨rfl, rfl⟩
      · rcases clientDisconnect_effects client e he with ⟨t, rfl⟩ | ⟨t, rfl⟩ | rfl <;>
          exact ⟨rfl, rfl⟩

/-- C1 at a concrete request: the sample request satisfies the acceptance
condition and the empty line leaves the slot CONNECTED. -/
theorem C1_accept_iff_witness :
    trim "\r".toList = [] ∧ sampleServer.base64Authorization = [] ∧
    acceptCondition sampleServer sampleReadyClient ∧
    (handleHeader sampleAcceptKey sampleServer sampleReadyClient "\r".toList).1.status
        = .WSC_CONNECTED :=
  ⟨by decide, by decide, by decide,
    (C1_accept_iff sampleAcceptKey sampleServer sampleReadyClient "\r".toList
      (by decide) (by decide)).1.mpr (by decide)⟩

/-- Feeding a sequence of lines and then one more line. -/
theorem handleHeaders_append (acceptKey : Str → Str) (s : Server) (ls : List Str) (e : Str) :
    ∀ client : WSclient_t,
      (handleHeaders acceptKey s client (ls ++ [e])).1 =
        (handleHeader acceptKey s (handleHeaders acceptKey s client ls).1 e).1 := by
  induction ls with
  | nil => intro client; simp [handleHeaders]
  | cons l ls ih => intro client; simp [handleHeaders, ih]

/-- A property of the slot that a single line can only establish when the
line satisfies `Q` is, after a sequence of lines, either inherited from the
start or established by one of the lines. -/
theorem handleHeaders_carried (acceptKey : Str → Str) (s : Server)
    (P : WSclient_t → Prop) (Q : Str → Prop)
    (hstep : ∀ (client : WSclient_t) (l : Str),
      P (handleHeader acceptKey s client l).1 → P client ∨ Q l)
    (ls : List Str) :
    ∀ client : WSclient_t,
      P (handleHeaders acceptKey s client ls).1 → P client ∨ ∃ l ∈ ls, Q l := by
  induction ls with
  | nil => intro client h; exact Or.inl h
  | cons l ls ih =>
    intro client h
    rcases ih _ h with h1 | ⟨l', hl', hq⟩
    · rcases hstep client l h1 with h2 | h2
      · exact Or.inl h2
      · exact Or.inr ⟨l, List.mem_cons_self _ _, h2⟩
    · exact Or.inr ⟨l', List.mem_cons_of_mem _ hl', hq⟩

/-- The end-of-headers branch keeps or resets the handshake fields; it never
sets one. -/
theorem handleHeaderEnd_fields (acceptKey : Str → Str) (s : Server) (client : WSclient_t) :
    ((handleHeaderEnd acceptKey s client).1.cUrl = client.cUrl ∨
        (handleHeaderEnd acceptKey s client).1.cUrl = []) ∧
    ((handleHeaderEnd acceptKey s client).1.cKey = client.cKey ∨
        (handleHeaderEnd acceptKey s client).1.cKey = []) ∧
    ((handleHeaderEnd acceptKey s client).1.cVersion = client.cVersion ∨
        (handleHeaderEnd acceptKey s client).1.cVersion = 0) ∧
    ((handleHeaderEnd acceptKey s client).1.cIsUpgrade = client.cIsUpgrade ∨
        (handleHeaderEnd acceptKey s client).1.cIsUpgrade = false) ∧
    ((handleHeaderEnd acceptKey s client).1.cIsWebsocket = client.cIsWebsocket ∨
        (handleHeaderEnd acceptKey s client).1.cIsWebsocket = false) := by
  unfold handleHeaderEnd
  simp only []
  split_ifs <;>
    simp [handleAuthorizationFailed, handleNonWebsocketConnection, clientDisconnect, headerDone]

/-- A line leaves the path set only if it was set before or the line is a
request line with a non-empty path. -/
theorem step_cUrl (acceptKey : Str → Str) (s : Server) (client : WSclient_t) (l : Str)
    (h : (handleHeader acceptKey s client l).1.cUrl ≠ []) :
    client.cUrl ≠ [] ∨ (isRequestLine l = true ∧ requestPath l ≠ []) := by
  unfold handleHeader at h
  simp only [] at h
  split_ifs at h with h1 h2 h3
  · exact Or.inr ⟨h2, h⟩
  · unfold handleHeaderField at h
    split_ifs at h <;> exact Or.inl h
  · exact Or.inl h
  · rcases (handleHeaderEnd_fields acceptKey s client).1 with h' | h'
    · rw [h'] at h; exact Or.inl h
    · exact absurd h' h

/-- How a line is recognised as a header line with a given name. -/
theorem isHeaderLine_intro (name l : Str) (h2 : ¬ startsWith (trim l) "GET ".toList = true)
    (h3 : indexOf (trim l) ':' ≥ 0) (g : equalsIgnoreCase (headerNameOf (trim l)) name = true) :
    isHeaderLine name l = true := by
  unfold isHeaderLine
  rw [Bool.not_eq_true] at h2
  rw [h2, g]
  simp [h3]

/-- A line leaves the upgrade flag set only if it was set before or the line
is a Connection header whose lower-cased value contains `upgrade`. -/
theorem step_cIsUpgrade (acceptKey : Str → Str) (s : Server) (client : WSclient_t) (l : Str)
    (h : (handleHeader acceptKey s client l).1.cIsUpgrade = true) :
    client.cIsUpgrade = true ∨
      (isHeaderLine "Connection".toList l = true ∧
        indexOfStr (toLowerCase (headerValueOfLine l)) "upgrade".toList ≥ 0) := by
  unfold handleHeader at h
  simp only [] at h
  split_ifs at h with h1 h2 h3
  · exact Or.inl h
  · unfold handleHeaderField at h
    split_ifs at h
    all_goals first
      | exact Or.inl h
      | exact Or.inr ⟨isHeaderLine_intro _ _ h2 h3 (by assumption), by assumption⟩
  · exact Or.inl h
  · rcases (handleHeaderEnd_fields acceptKey s client).2.2.2.1 with h' | h'
    · rw [h'] at h; exact Or.inl h
    · rw [h'] at h; exact absurd h (by simp)

/-- A line leaves the websocket flag set only if it was set before or the
line is an Upgrade header whose value equals `websocket` ignoring case. -/
theorem step_cIsWebsocket (acceptKey : Str → Str) (s : Server) (client : WSclient_t) (l : Str)
    (h : (handleHeader acceptKey s client l).1.cIsWebsocket = true) :
    client.cIsWebsocket = true ∨
      (isHeaderLine "Upgrade".toList l = true ∧
        equalsIgnoreCase (headerValueOfLine l) "websocket".toList = true) := by
  unfold handleHeader at h
  simp only [] at h
  split_ifs at h with h1 h2 h3
  · exact Or.inl h
  · unfold handleHeaderField at h
    split_ifs at h
    all_goals first
      | exact Or.inl h
      | exact Or.inr ⟨isHeaderLine_intro _ _ h2 h3 (by assumption), by assumption⟩
  · exact Or.inl h
  · rcases (handleHeaderEnd_fields acceptKey s client).2.2.2.2 with h' | h'
    · rw [h'] at h; exact Or.inl h
    · rw [h'] at h; exact absurd h (by simp)

/-- A line leaves the version at 13 only if it was 13 before or the line is a
Sec-WebSocket-Version header whose value parses to 13. -/
theorem step_cVersion (acceptKey : Str → Str) (s : Server) (client : WSclient_t) (l : Str)
    (h : (handleHeader acceptKey s client l).1.cVersion = 13) :
    client.cVersion = 13 ∨
      (isHeaderLine "Sec-WebSocket-Version".toList l = true ∧
        toInt (headerValueOfLine l) = 13) := by
  unfold handleHeader at h
  simp only [] at h
  split_ifs at h with h1 h2 h3
  · exact Or.inl h
  · unfold handleHeaderField at h
    split_ifs at h
    all_goals first
      | exact Or.inl h
      | exact Or.inr ⟨isHeaderLine_intro _ _ h2 h3 (by assumption), h⟩
  · exact Or.inl h
  · rcases (handleHeaderEnd_fields acceptKey s client).2.2.1 with h' | h'
    · rw [h'] at h; exact Or.inl h
    · rw [h'] at h; exact absurd h (by decide)

/-- Trimming the empty string gives the empty string. -/
theorem trim_nil : trim [] = [] := rfl

/-- A line leaves the key set only if it was set before or the line is a
Sec-WebSocket-Key header with a non-empty value. -/
theorem step_cKey (acceptKey : Str → Str) (s : Server) (client : WSclient_t) (l : Str)
    (h : (handleHeader acceptKey s client l).1.cKey ≠ []) :
    client.cKey ≠ [] ∨
      (isHeaderLine "Sec-WebSocket-Key".toList l = true ∧ headerValueOfLine l ≠ []) := by
  unfold handleHeader at h
  simp only [] at h
  split_ifs at h with h1 h2 h3
  · exact Or.inl h
  · unfold handleHeaderField at h
    split_ifs at h
    all_goals first
      | exact Or.inl h
      | exact Or.inr ⟨isHeaderLine_intro _ _ h2 h3 (by assumption),
          fun hv => h (by show trim (headerValueOf (trim l)) = []
                          rw [show headerValueOf (trim l) = [] from hv]; rfl)⟩
  · exact Or.inl h
  · rcases (handleHeaderEnd_fields acceptKey s client).2.1 with h' | h'
    · rw [h'] at h; exact Or.inl h
    · exact absurd h' h

/-- With no credential configured, an empty line leaves the slot CONNECTED
exactly when the acceptance condition holds. -/
theorem connected_after_end_iff (acceptKey : Str → Str) (s : Server) (client : WSclient_t)
    (e : Str) (he : trim e = []) (hauth : s.base64Authorization = []) :
    (handleHeader acceptKey s client e).1.status = .WSC_CONNECTED ↔ acceptCondition s client := by
  have hok := handshakeOk_iff s client
  by_cases hc : acceptCondition s client
  · have hk : handshakeOk s client = true := hok.mpr hc
    simp [handleHeader, he, handleHeaderEnd, hauth, hk, hc, headerDone]
  · have hk : handshakeOk s client = false := by
      cases h : handshakeOk s client
      · rfl
      · exact absurd (hok.mp h) hc
    simp [handleHeader, he, handleHeaderEnd, hauth, hk, handleNonWebsocketConnection,
      (clientDisconnect_status client).1, hc]

/-- C2: on a slot whose handshake fields are in their initial state and with
no credential configured, if feeding a sequence of header lines followed by
an empty line leaves the slot CONNECTED, then the sequence contained a request
line with a non-empty path, a Connection header containing `upgrade`
(ignoring case), an Upgrade header equal to `websocket` (ignoring case), a
Sec-WebSocket-Version header with value 13, a Sec-WebSocket-Key header with a
non-empty value, and the mandatory-header tally at the empty line equals the
configured count. By contraposition, a sequence that lacks any one of these is
rejected. -/
theorem C2_connected_requires (acceptKey : Str → Str) (s : Server) (client : WSclient_t)
    (lines : List Str) (e : Str)
    (hfresh : client.cUrl = [] ∧ client.cKey = [] ∧ client.cVersion = 0 ∧
      client.cIsUpgrade = false ∧ client.cIsWebsocket = false)
    (he : trim e = []) (hauth : s.base64Authorization = [])
    (hconn : (handleHeaders acceptKey s client (lines ++ [e])).1.status = .WSC_CONNECTED) :
    (∃ l ∈ lines, isRequestLine l = true ∧ requestPath l ≠ []) ∧
    (∃ l ∈ lines, isHeaderLine "Connection".toList l = true ∧
      indexOfStr (toLowerCase (headerValueOfLine l)) "upgrade".toList ≥ 0) ∧
    (∃ l ∈ lines, isHeaderLine "Upgrade".toList l = true ∧
      equalsIgnoreCase (headerValueOfLine l) "websocket".toList = true) ∧
    (∃ l ∈ lines, isHeaderLine "Sec-WebSocket-Version".toList l = true ∧
      toInt (headerValueOfLine l) = 13) ∧
    (∃ l ∈ lines, isHeaderLine "Sec-WebSocket-Key".toList l = true ∧
      headerValueOfLine l ≠ []) ∧
    (handleHeaders acceptKey s client lines).1.cMandatoryHeadersCount
      = s.mandatoryHttpHeaderCount := by
  rw [handleHeaders_append] at hconn
  obtain ⟨c1, c2, c3, c4, c5, _, c7⟩ :=
    (connected_after_end_iff acceptKey s _ e he hauth).mp hconn
  obtain ⟨f1, f2, f3, f4, f5⟩ := hfresh
  refine ⟨?_, ?_, ?_, ?_, ?_, c7⟩
  · rcases handleHeaders_carried acceptKey s (fun c => c.cUrl ≠ []) _
        (step_cUrl acceptKey s) lines client c4 with h | h
    · exact absurd f1 h
    · exact h
  · rcases handleHeaders_carried acceptKey s (fun c => c.cIsUpgrade = true) _
        (step_cIsUpgrade acceptKey s) lines client c1 with h | h
    · rw [f4] at h; exact absurd h (by simp)
    · exact h
  · rcases handleHeaders_carried acceptKey s (fun c => c.cIsWebsocket = true) _
        (step_cIsWebsocket acceptKey s) lines client c2 with h | h
    · rw [f5] at h; exact absurd h (by simp)
    · exact h
  · rcases handleHeaders_carried acceptKey s (fun c => c.cVersion = 13) _
        (step_cVersion acceptKey s) lines client c3 with h | h
    · rw [f3] at h; exact absurd h (by decide)
    · exact h
  · rcases handleHeaders_carried acceptKey s (fun c => c.cKey ≠ []) _
        (step_cKey acceptKey s) lines client c5 with h | h
    · exact absurd f2 h
    · exact h

/-- C2 at a concrete request: the sample request followed by an empty line
leaves the slot CONNECTED, so it contains a request line with a path. -/
theorem C2_connected_requires_witness :
    (handleHeaders sampleAcceptKey sampleServer sampleClient
        (sampleRequest ++ ["\r".toList])).1.status = .WSC_CONNECTED ∧
    ∃ l ∈ sampleRequest, isRequestLine l = true ∧ requestPath l ≠ [] :=
  ⟨by decide,
    (C2_connected_requires sampleAcceptKey sampleServer sampleClient sampleRequest "\r".toList
      (by decide) (by decide) (by decide) (by decide)).1⟩

/-- C3: with a non-empty credential configured and a stored Authorization
value different from `Basic ` followed by the credential, the end of headers
is `handleAuthorizationFailed`, whatever the other handshake fields hold: the
status is not CONNECTED, no 101 response is written, no Connected event fires
and the non-websocket rejection is not produced. -/
theorem C3_auth_failure_first (acceptKey : Str → Str) (s : Server) (client : WSclient_t)
    (e : Str) (he : trim e = []) (hcred : s.base64Authorization ≠ [])
    (hne : client.base64Authorization ≠ "Basic ".toList ++ s.base64Authorization) :
    handleHeader acceptKey s client e = handleAuthorizationFailed client ∧
    (handleHeader acceptKey s client e).1.status ≠ .WSC_CONNECTED ∧
    (∀ x ∈ (handleHeader acceptKey s client e).2,
      x.isWrite = false ∧ x.isConnectedEvent = false ∧ ∀ n, x ≠ .nonWebsocketResponse n) := by
  have hlen : s.base64Authorization.length > 0 := List.length_pos.mpr hcred
  have hres : handleHeader acceptKey s client e = handleAuthorizationFailed client := by
    unfold handleHeader handleHeaderEnd
    simp only [he, List.length_nil, gt_iff_lt, lt_self_iff_false, if_false]
    rw [if_pos ⟨hlen, fun h => hne h.symm⟩]
  refine ⟨hres, ?_, ?_⟩
  · rw [hres]
    simp [handleAuthorizationFailed, (clientDisconnect_status client).1]
  · rw [hres]
    intro x hx
    simp only [handleAuthorizationFailed, List.mem_append, List.mem_singleton] at hx
    rcases hx with hx | hx
    · subst hx; exact ⟨rfl, rfl, fun n h => by cases h⟩
    · rcases clientDisconnect_effects client x hx with ⟨t, rfl⟩ | ⟨t, rfl⟩ | rfl <;>
        exact ⟨rfl, rfl, fun n h => by cases h⟩

/-- C3 at a concrete request: an otherwise valid request without credential
is answered by the authorization failure. -/
theorem C3_auth_failure_first_witness :
    handleHeader sampleAcceptKey authServer sampleReadyClient "\r".toList
      = handleAuthorizationFailed sampleReadyClient :=
  (C3_auth_failure_first sampleAcceptKey authServer sampleReadyClient "\r".toList
    (by decide) (by decide) (by decide)).1

/-- C4 (the code at the failing input): on a one-slot server with a credential
configured, a session that presents the credential and is torn down leaves its
Authorization value in the slot; the next session on the slot sends no
Authorization header at all and still reaches CONNECTED. -/
theorem C4_stale_authorization_accepted :
    (∀ l ∈ anonymousSession, isHeaderLine "Authorization".toList l = false) ∧
    authServerAfterBoth.clients.map (fun c => c.status) = [.WSC_CONNECTED] ∧
    (serveLines sampleAcceptKey (handleNewClients authServer [{ id := 1, connected := true }])
        authSession).clients.map (fun c => (c.status, c.tcp, c.base64Authorization))
      = [(.WSC_NOT_CONNECTED, none, "Basic dXNlcjpwYXNz".toList)] := by
  refine ⟨by decide, by decide, by decide⟩

/-! ## Teardown events -/

/-- The Disconnected events of a teardown: one, tagged with the slot's number. -/
theorem discEvents_clientDisconnect (i : Nat) (client : WSclient_t) :
    discEvents i (clientDisconnect client).2 =
      if client.num = i then [.cbEvent client.num .WStype_DISCONNECTED none 0] else [] := by
  unfold discEvents clientDisconnect
  simp only [List.filter_append]
  have h1 : ∀ (o : Option Tcp),
      List.filter (Effect.isDisconnectedEventOf i)
        (match o with
          | some t => if t.connected = true then [Effect.tcpFlush t, Effect.tcpStop t] else []
          | none => []) = [] := by
    intro o
    cases o with
    | none => rfl
    | some t => by_cases h : t.connected = true <;> simp [h, Effect.isDisconnectedEventOf]
  have h2 : List.filter (Effect.isDisconnectedEventOf i)
        (match client.isSSL, client.ssl with
          | true, some t => if t.connected = true then [Effect.tcpFlush t, Effect.tcpStop t] else []
          | _, _ => []) = [] := by
    split
    · split <;> simp [Effect.isDisconnectedEventOf]
    · rfl
  rw [h1, h2]
  by_cases h : client.num = i <;> simp [Effect.isDisconnectedEventOf, h]

/-- A slot without a transport handle is reported not connected and is left alone. -/
theorem clientIsConnected_of_none (client : WSclient_t) (h : client.tcp = none) :
    clientIsConnected client = (false, client, []) := by
  unfold clientIsConnected
  rw [h]

/-- Liveness check of a slot that holds a session: nothing happens while the
transport is connected, and a lost transport is torn down once. -/
theorem clientIsConnected_of_session (client : WSclient_t) (t : Tcp)
    (htcp : client.tcp = some t) (hst : client.status ≠ .WSC_NOT_CONNECTED) :
    clientIsConnected client =
      if t.connected = true then (true, client, [])
      else (false, (clientDisconnect client).1, (clientDisconnect client).2) := by
  unfold clientIsConnected
  rw [htcp]
  by_cases hc : t.connected = true
  · simp [hc, hst]
  · simp [hc, hst, (clientDisconnect_status client).2]

/-- The teardown with a close code reports the Disconnected events of the teardown. -/
theorem discEvents_clientDisconnectCode (i : Nat) (client : WSclient_t) (code : Nat) :
    discEvents i (clientDisconnectCode client code).2 = discEvents i (clientDisconnect client).2 := by
  unfold clientDisconnectCode discEvents
  simp only [List.filter_append]
  split_ifs <;> simp [Effect.isDisconnectedEventOf]

/-- Teardown does not change the slot number. -/
theorem clientDisconnect_num (client : WSclient_t) : (clientDisconnect client).1.num = client.num := by
  unfold clientDisconnect
  simp only []
  split <;> rfl

/-- An explicit disconnect of a slot that holds a session fires one
Disconnected event and releases the handle. -/
theorem disconnectClient_of_session (client : WSclient_t) (t : Tcp)
    (htcp : client.tcp = some t) (hst : client.status ≠ .WSC_NOT_CONNECTED) :
    discEvents client.num (disconnectClient client).2
        = [.cbEvent client.num .WStype_DISCONNECTED none 0] ∧
      (disconnectClient client).1.tcp = none := by
  unfold disconnectClient
  simp only [clientIsConnected_of_session client t htcp hst]
  by_cases hc : t.connected = true
  · simp only [hc, if_true]
    refine ⟨?_, ?_⟩
    · rw [List.nil_append, discEvents_clientDisconnectCode, discEvents_clientDisconnect,
        if_pos rfl]
    · exact (clientDisconnect_status client).2
  · simp [hc, (clientDisconnect_status client).2, discEvents_clientDisconnect]

/-- An explicit disconnect of a slot without a transport handle does nothing. -/
theorem disconnectClient_of_none (client : WSclient_t) (h : client.tcp = none) :
    disconnectClient client = (client, []) := by
  unfold disconnectClient
  rw [clientIsConnected_of_none client h]
  rfl

/-- Every Disconnected event a liveness check fires carries the slot's number. -/
theorem discEvents_clientIsConnected_other (i : Nat) (client : WSclient_t) (h : client.num ≠ i) :
    discEvents i (clientIsConnected client).2.2 = [] := by
  have key : discEvents i (clientDisconnect client).2 = [] := by
    rw [discEvents_clientDisconnect, if_neg h]
  cases htcp : client.tcp with
  | none => rw [clientIsConnected_of_none client htcp]; rfl
  | some t =>
    by_cases hst : client.status = .WSC_NOT_CONNECTED
    · unfold clientIsConnected
      rw [htcp]
      simp [hst, htcp, key]
    · rw [clientIsConnected_of_session client t htcp hst]
      split_ifs
      · rfl
      · exact key

/-- A liveness check does not change the slot number. -/
theorem clientIsConnected_num (client : WSclient_t) :
    (clientIsConnected client).2.1.num = client.num := by
  cases htcp : client.tcp with
  | none => rw [clientIsConnected_of_none client htcp]
  | some t =>
    by_cases hst : client.status = .WSC_NOT_CONNECTED
    · unfold clientIsConnected
      rw [htcp]
      simp [hst, htcp, clientDisconnect_num]
    · rw [clientIsConnected_of_session client t htcp hst]
      split_ifs
      · rfl
      · exact clientDisconnect_num client

/-- Every Disconnected event an explicit disconnect fires carries the slot's number. -/
theorem discEvents_disconnectClient_other (i : Nat) (client : WSclient_t) (h : client.num ≠ i) :
    discEvents i (disconnectClient client).2 = [] := by
  unfold disconnectClient
  simp only []
  split_ifs
  · show discEvents i ((clientIsConnected client).2.2 ++ _) = []
    unfold discEvents
    rw [List.filter_append]
    have h1 := discEvents_clientIsConnected_other i client h
    have h2 := discEvents_clientDisconnectCode i (clientIsConnected client).2.1 1000
    have h3 := discEvents_clientDisconnect i (clientIsConnected client).2.1
    rw [clientIsConnected_num, if_neg h] at h3
    unfold discEvents at h1 h2 h3
    rw [h1, h2, h3]
    rfl
  · exact discEvents_clientIsConnected_other i client h

/-- The actions of `disconnect()` on a table split at a slot. -/
theorem disconnectAll_append (l1 l2 : List WSclient_t) :
    disconnectAll (l1 ++ l2) =
      ((disconnectAll l1).1 ++ (disconnectAll l2).1, (disconnectAll l1).2 ++ (disconnectAll l2).2) := by
  induction l1 with
  | nil => simp [disconnectAll]
  | cons c l ih => simp [disconnectAll, ih]

/-- Slots with other numbers contribute no Disconnected event for slot `i`. -/
theorem discEvents_disconnectAll_other (i : Nat) (l : List WSclient_t)
    (h : ∀ c ∈ l, c.num ≠ i) : discEvents i (disconnectAll l).2 = [] := by
  induction l with
  | nil => rfl
  | cons c l ih =>
    have h1 := discEvents_disconnectClient_other i c (h c (List.mem_cons_self _ _))
    have h2 := ih (fun c' hc' => h c' (List.mem_cons_of_mem _ hc'))
    unfold discEvents at h1 h2 ⊢
    simp only [disconnectAll, List.filter_append, h1, h2, List.append_nil]

/-- Writing back the value a slot already holds leaves the table unchanged. -/
theorem set_same {α : Type} (l : List α) (i : Nat) (a : α) (h : l[i]? = some a) :
    l.set i a = l := by
  induction l generalizing i with
  | nil => rfl
  | cons x xs ih =>
    cases i with
    | zero => simp at h; simp [h]
    | succ n => simp at h; simp [ih n h]

/-- A table splits at any of its slots. -/
theorem split_at_slot {α : Type} (l : List α) (i : Nat) (a : α) (h : l[i]? = some a) :
    l = l.take i ++ a :: l.drop (i + 1) ∧ (l.take i).length = i := by
  induction l generalizing i with
  | nil => simp at h
  | cons x xs ih =>
    cases i with
    | zero => simp at h; simp [h]
    | succ n =>
      simp at h
      have := ih n h
      refine ⟨?_, ?_⟩
      · simp only [List.take_succ_cons, List.drop_succ_cons, List.cons_append]
        rw [← this.1]
      · simp only [List.take_succ_cons, List.length_cons, this.2]

/-- In a table whose slots carry their index as number, the slots before
slot `i` have another number. -/
theorem nums_take (l : List WSclient_t) (i : Nat)
    (hnum : ∀ (j : Nat) (c : WSclient_t), l[j]? = some c → c.num = j) :
    ∀ c ∈ l.take i, c.num ≠ i := by
  intro c hc
  obtain ⟨n, hn⟩ := List.mem_iff_getElem?.mp hc
  rw [List.getElem?_take] at hn
  split_ifs at hn with h
  rw [hnum n c hn]; omega

/-- In a table whose slots carry their index as number, the slots after slot
`i` have another number. -/
theorem nums_drop (l : List WSclient_t) (i : Nat)
    (hnum : ∀ (j : Nat) (c : WSclient_t), l[j]? = some c → c.num = j) :
    ∀ c ∈ l.drop (i + 1), c.num ≠ i := by
  intro c hc
  obtain ⟨n, hn⟩ := List.mem_iff_getElem?.mp hc
  rw [List.getElem?_drop] at hn
  rw [hnum _ c hn]; omega

/-- The table after `disconnect()`: every slot explicitly disconnected. -/
theorem disconnectAll_clients (l : List WSclient_t) :
    (disconnectAll l).1 = l.map (fun c => (disconnectClient c).1) := by
  induction l with
  | nil => rfl
  | cons c l ih => simp [disconnectAll, ih]

/-- A per-slot operation that changes nothing on the slot changes nothing on
the server. -/
theorem onSlot_noop (s : Server) (i : Nat) (f : WSclient_t → WSclient_t × List Effect)
    (h : ∀ c, s.clients[i]? = some c → f c = (c, [])) : s.onSlot i f = s := by
  unfold Server.onSlot
  cases hc : s.clients[i]? with
  | none => rfl
  | some c =>
    simp only [h c hc, List.append_nil, set_same s.clients i c hc]

/-- The log after a per-slot operation on an existing slot. -/
theorem onSlot_log (s : Server) (i : Nat) (f : WSclient_t → WSclient_t × List Effect)
    (c : WSclient_t) (h : s.clients[i]? = some c) :
    (s.onSlot i f).log = s.log ++ (f c).2 ∧ (s.onSlot i f).clients[i]? = some (f c).1 := by
  unfold Server.onSlot
  rw [h]
  refine ⟨rfl, ?_⟩
  simp only [List.getElem?_set]
  have hlt : i < s.clients.length := (List.getElem?_eq_some.mp h).1
  simp [hlt]

/-- C5: for a slot holding a session (handle bound, status not
NOT_CONNECTED) in a table whose slots carry their index as number, each
teardown handled by the server - `disconnect(num)`, `disconnect()`, or the
liveness check finding the transport lost - fires exactly one Disconnected
event for the slot, tagged with its index and with a NULL payload of length
0; afterwards a further `disconnect(num)` or liveness check on the slot
changes nothing and so fires no further event. -/
theorem C5_one_disconnected_event (s : Server) (i : Nat) (client : WSclient_t) (t : Tcp)
    (hslot : s.clients[i]? = some client)
    (hnum : ∀ (j : Nat) (c : WSclient_t), s.clients[j]? = some c → c.num = j)
    (htcp : client.tcp = some t) (hst : client.status ≠ .WSC_NOT_CONNECTED) :
    discEvents i ((disconnectNum s i).log.drop s.log.length)
      = [.cbEvent i .WStype_DISCONNECTED none 0] ∧
    discEvents i ((disconnect s).log.drop s.log.length)
      = [.cbEvent i .WStype_DISCONNECTED none 0] ∧
    (t.connected = false →
      discEvents i ((s.onSlot i (fun c => (clientIsConnected c).2)).log.drop s.log.length)
        = [.cbEvent i .WStype_DISCONNECTED none 0]) ∧
    (∀ s' : Server,
      (s' = disconnectNum s i ∨ s' = disconnect s ∨
        (t.connected = false ∧ s' = s.onSlot i (fun c => (clientIsConnected c).2))) →
      disconnectNum s' i = s' ∧ s'.onSlot i (fun c => (clientIsConnected c).2) = s') := by
  have hn : client.num = i := hnum i client hslot
  have hd := disconnectClient_of_session client t htcp hst
  rw [hn] at hd
  have hsplit := split_at_slot s.clients i client hslot
  have hci := clientIsConnected_of_session client t htcp hst
  -- a slot without a handle is left alone by both operations
  have quiet : ∀ s' : Server, (∃ c, s'.clients[i]? = some c ∧ c.tcp = none) →
      disconnectNum s' i = s' ∧ s'.onSlot i (fun c => (clientIsConnected c).2) = s' := by
    intro s' ⟨c, hc, hct⟩
    refine ⟨onSlot_noop s' i _ ?_, onSlot_noop s' i _ ?_⟩
    · intro c' hc'
      rw [hc] at hc'; cases hc'
      exact disconnectClient_of_none c hct
    · intro c' hc'
      rw [hc] at hc'; cases hc'
      rw [clientIsConnected_of_none c hct]
  refine ⟨?_, ?_, ?_, ?_⟩
  · unfold disconnectNum
    rw [(onSlot_log s i disconnectClient client hslot).1, List.drop_left]
    exact hd.1
  · unfold disconnect
    simp only [List.drop_left]
    rw [hsplit.1, disconnectAll_append]
    unfold discEvents
    simp only [disconnectAll, List.filter_append]
    have h1 := discEvents_disconnectAll_other i _ (nums_take s.clients i hnum)
    have h2 := discEvents_disconnectAll_other i _ (nums_drop s.clients i hnum)
    have h3 := hd.1
    unfold discEvents at h1 h2 h3
    rw [h1, h2, h3]
    rfl
  · intro hc
    rw [(onSlot_log s i _ client hslot).1, List.drop_left, hci]
    simp only [hc, Bool.false_eq_true, if_false]
    rw [discEvents_clientDisconnect, if_pos hn, hn]
  · rintro s' (rfl | rfl | ⟨hc, rfl⟩)
    · exact quiet _ ⟨_, (onSlot_log s i disconnectClient client hslot).2, hd.2⟩
    · refine quiet _ ⟨(disconnectClient client).1, ?_, hd.2⟩
      unfold disconnect
      simp only [disconnectAll_clients, List.getElem?_map, hslot, Option.map_some']
    · refine quiet _ ⟨_, (onSlot_log s i _ client hslot).2, ?_⟩
      rw [hci]
      simp only [hc, Bool.false_eq_true, if_false]
      exact (clientDisconnect_status client).2

/-- C5 at a concrete table: disconnecting the bound slot 0 of the sample
server fires exactly one Disconnected event for slot 0. -/
theorem C5_one_disconnected_event_witness :
    discEvents 0 ((disconnectNum sampleBoundServer 0).log.drop sampleBoundServer.log.length)
      = [.cbEvent 0 .WStype_DISCONNECTED none 0] :=
  (C5_one_disconnected_event sampleBoundServer 0 sampleClient sampleTcp (by decide)
    (by
      intro j c h
      rcases j with _ | _ | j
      · have : c = sampleClient := by
          have h' : sampleBoundServer.clients[0]? = some sampleClient := by decide
          rw [h'] at h; cases h; rfl
        rw [this]; rfl
      · have h' : sampleBoundServer.clients[1]? = some (beginClient 1 zeroClient) := by decide
        rw [h'] at h; cases h; rfl
      · have h' : sampleBoundServer.clients[j + 2]? = none := by
          apply List.getElem?_eq_none
          have : sampleBoundServer.clients.length = 2 := by decide
          omega
        rw [h'] at h; cases h)
    (by decide) (by decide)).1

/-! ## Capacity -/

/-- A live slot passes the liveness check unchanged. -/
theorem clientIsConnected_of_live (client : WSclient_t) (h : isLive client = true) :
    clientIsConnected client = (true, client, []) := by
  unfold isLive at h
  unfold clientIsConnected
  cases htcp : client.tcp with
  | none => rw [htcp] at h; cases h
  | some t => rw [htcp] at h; simp only [] at h ⊢; rw [if_pos h]

/-- With every slot live, `newClient` finds no slot and changes nothing. -/
theorem newClientFrom_all_live (t : Tcp) (l : List WSclient_t)
    (h : ∀ c ∈ l, isLive c = true) : newClientFrom t l = (false, l, []) := by
  induction l with
  | nil => rfl
  | cons c l ih =>
    have hc := clientIsConnected_of_live c (h c (List.mem_cons_self _ _))
    have hl := ih (fun c' hc' => h c' (List.mem_cons_of_mem _ hc'))
    simp [newClientFrom, hc, hl]

/-- With every slot before slot `i` live and slot `i` without a handle,
`newClient` binds the transport to slot `i`. -/
theorem newClientFrom_first_free (t : Tcp) (l : List WSclient_t) (i : Nat) (c : WSclient_t)
    (hslot : l[i]? = some c) (hfree : c.tcp = none)
    (hlive : ∀ (j : Nat) (x : WSclient_t), j < i → l[j]? = some x → isLive x = true) :
    newClientFrom t l =
      (true, l.set i { c with tcp := some t, isSSL := false, status := .WSC_HEADER }, []) := by
  induction l generalizing i with
  | nil => simp at hslot
  | cons x xs ih =>
    cases i with
    | zero =>
      simp at hslot
      subst hslot
      simp [newClientFrom, clientIsConnected_of_none x hfree]
    | succ n =>
      simp at hslot
      have hx := clientIsConnected_of_live x (hlive 0 x (Nat.succ_pos n) (by simp))
      have hrest := ih n hslot (fun j y hj hy => hlive (j + 1) y (by omega) (by simpa using hy))
      simp [newClientFrom, hx, hrest]

/-- C6: in a table of at most 255 slots (the index is a `uint8_t`) whose slots
all hold live sessions, `newClient` returns false and changes nothing, and
`handleNewClients` stops the new transport; after `disconnect(num)` of one
slot the next `newClient` returns true and binds the (connected) transport
into that slot, leaving every other slot as it was, and the `newClient` after
it is refused again. -/
theorem C6_capacity (s : Server) (t1 t2 t3 : Tcp) (num : Nat)
    (_hK : s.clients.length ≤ 255)
    (hlive : ∀ c ∈ s.clients, isLive c = true)
    (hnum : num < s.clients.length) (ht2 : t2.connected = true) :
    newClient s t1 = (false, s) ∧
    handleNewClients s [t1] = { s with log := s.log ++ [.tcpStop t1] } ∧
    (newClient (disconnectNum s num) t2).1 = true ∧
    (∃ c, (newClient (disconnectNum s num) t2).2.clients[num]? = some c ∧
      c.tcp = some t2 ∧ c.status = .WSC_HEADER) ∧
    (∀ j, j ≠ num → (newClient (disconnectNum s num) t2).2.clients[j]? = s.clients[j]?) ∧
    (newClient (newClient (disconnectNum s num) t2).2 t3).1 = false := by
  have h1 : newClient s t1 = (false, s) := by
    unfold newClient
    simp [newClientFrom_all_live t1 s.clients hlive]
  obtain ⟨c, hc⟩ : ∃ c, s.clients[num]? = some c :=
    ⟨s.clients[num], List.getElem?_eq_getElem hnum⟩
  have hclive : isLive c = true := hlive c (List.mem_iff_getElem?.mpr ⟨num, hc⟩)
  -- the slot after disconnect(num)
  have hfree : (disconnectClient c).1.tcp = none := by
    unfold disconnectClient
    simp [clientIsConnected_of_live c hclive, clientDisconnectCode,
      (clientDisconnect_status c).2]
  have hs1 := onSlot_log s num disconnectClient c hc
  have hs1c : (disconnectNum s num).clients = s.clients.set num (disconnectClient c).1 := by
    unfold disconnectNum Server.onSlot
    rw [hc]
  have hbind := newClientFrom_first_free t2 (disconnectNum s num).clients num
    (disconnectClient c).1 hs1.2 hfree (by
      intro j x hj hx
      rw [hs1c, List.getElem?_set_ne (by omega)] at hx
      exact hlive x (List.mem_iff_getElem?.mpr ⟨j, hx⟩))
  have htab : (newClient (disconnectNum s num) t2).2.clients =
      s.clients.set num
        { (disconnectClient c).1 with tcp := some t2, isSSL := false, status := .WSC_HEADER } := by
    show (newClientFrom t2 (disconnectNum s num).clients).2.1 = _
    rw [hbind, hs1c, List.set_set]
  refine ⟨h1, ?_, ?_, ?_, ?_, ?_⟩
  · simp [handleNewClients, handleNewClient, h1]
  · unfold newClient
    simp only [hbind]
  · refine ⟨{ (disconnectClient c).1 with
        tcp := some t2, isSSL := false, status := .WSC_HEADER }, ?_, rfl, rfl⟩
    rw [htab, List.getElem?_set]
    simp [hnum]
  · intro j hj
    rw [htab, List.getElem?_set_ne (Ne.symm hj)]
  · show (newClientFrom t3 (newClient (disconnectNum s num) t2).2.clients).1 = false
    rw [htab, newClientFrom_all_live]
    intro x hx
    rcases List.mem_or_eq_of_mem_set hx with hx | hx
    · exact hlive x hx
    · subst hx
      simp [isLive, ht2]

/-- C6 at a concrete table: with both slots of the sample server live, a third
connection is refused. -/
theorem C6_capacity_witness :
    newClient sampleFullServer { id := 3, connected := true } = (false, sampleFullServer) :=
  (C6_capacity sampleFullServer { id := 3, connected := true } { id := 4, connected := true }
    { id := 5, connected := true } 0 (by decide) (by decide) (by decide) (by decide)).1

/-! ## The slot invariant -/

/-- Teardown resets the path, key, sub-protocol, version and upgrade-intent pair. -/
theorem clientDisconnect_reset (client : WSclient_t) :
    handshakeFieldsReset (clientDisconnect client).1 := by
  simp [handshakeFieldsReset, clientDisconnect]

/-- Teardown establishes the slot invariant. -/
theorem slotInvariant_clientDisconnect (client : WSclient_t) :
    slotInvariant (clientDisconnect client).1 :=
  ⟨⟨fun _ => (clientDisconnect_status client).2, fun _ => (clientDisconnect_status client).1⟩,
    fun _ => clientDisconnect_reset client⟩

/-- The liveness check leaves the slot as it is or as a teardown leaves it. -/
theorem clientIsConnected_slot (client : WSclient_t) :
    (clientIsConnected client).2.1 = client ∨
      ∃ c, (clientIsConnected client).2.1 = (clientDisconnect c).1 := by
  cases htcp : client.tcp with
  | none => rw [clientIsConnected_of_none client htcp]; exact Or.inl rfl
  | some t =>
    by_cases hst : client.status = .WSC_NOT_CONNECTED
    · refine Or.inr ⟨client, ?_⟩
      unfold clientIsConnected
      rw [htcp]
      simp [hst, htcp]
    · rw [clientIsConnected_of_session client t htcp hst]
      split_ifs
      · exact Or.inl rfl
      · exact Or.inr ⟨client, rfl⟩

/-- A slot reported connected is unchanged and holds a handle. -/
theorem clientIsConnected_true (client : WSclient_t) (h : (clientIsConnected client).1 = true) :
    (clientIsConnected client).2.1 = client ∧ client.tcp ≠ none := by
  cases htcp : client.tcp with
  | none => rw [clientIsConnected_of_none client htcp] at h; cases h
  | some t =>
    by_cases hst : client.status = .WSC_NOT_CONNECTED
    · unfold clientIsConnected at h
      rw [htcp] at h
      simp [hst] at h
    · rw [clientIsConnected_of_session client t htcp hst] at h ⊢
      split_ifs at h ⊢
      exact ⟨rfl, by simp⟩

/-- The liveness check preserves the slot invariant. -/
theorem slotInvariant_clientIsConnected (client : WSclient_t) (h : slotInvariant client) :
    slotInvariant (clientIsConnected client).2.1 := by
  rcases clientIsConnected_slot client with h' | ⟨c, h'⟩
  · rw [h']; exact h
  · rw [h']; exact slotInvariant_clientDisconnect c

/-- An explicit disconnect preserves the slot invariant. -/
theorem slotInvariant_disconnectClient (client : WSclient_t) (h : slotInvariant client) :
    slotInvariant (disconnectClient client).1 := by
  unfold disconnectClient
  simp only []
  split_ifs
  · exact slotInvariant_clientDisconnect _
  · exact slotInvariant_clientIsConnected client h

/-- A slot that was just bound to a transport satisfies the slot invariant. -/
theorem slotInvariant_bound (client : WSclient_t) (t : Tcp) :
    slotInvariant { client with tcp := some t, isSSL := false, status := .WSC_HEADER } := by
  simp [slotInvariant]

/-- On a slot that holds a handle, `handleHeader` preserves the slot invariant. -/
theorem slotInvariant_handleHeader (acceptKey : Str → Str) (s : Server) (client : WSclient_t)
    (l : Str) (h : slotInvariant client) (htcp : client.tcp ≠ none) :
    slotInvariant (handleHeader acceptKey s client l).1 := by
  have hst : client.status ≠ .WSC_NOT_CONNECTED := fun hs => htcp (h.1.mp hs)
  unfold handleHeader
  simp only []
  split_ifs
  · simp [slotInvariant, htcp, hst]
  · unfold handleHeaderField
    split_ifs <;> first | exact h | simp [slotInvariant, htcp, hst]
  · exact h
  · unfold handleHeaderEnd
    simp only []
    split_ifs
    · exact slotInvariant_clientDisconnect client
    · simp [slotInvariant, headerDone, htcp]
    · exact slotInvariant_clientDisconnect client

/-- The frame handler preserves the slot invariant. -/
theorem slotInvariant_handleWebsocket (client : WSclient_t) (frame : FrameOutcome)
    (h : slotInvariant client) : slotInvariant (handleWebsocket client frame).1 := by
  cases frame with
  | incomplete => exact h
  | message opcode payload fin => exact h
  | close => exact slotInvariant_clientDisconnect client
  | protocolError => exact slotInvariant_clientDisconnect client

/-- The service of one slot preserves the slot invariant. -/
theorem slotInvariant_handleClientDataSlot (acceptKey : Str → Str) (s : Server)
    (client : WSclient_t) (rx : Rx) (h : slotInvariant client) :
    slotInvariant (handleClientDataSlot acceptKey s client rx).1 := by
  unfold handleClientDataSlot
  simp only []
  split_ifs with h1 h2
  · have hc := clientIsConnected_true client h1
    rw [hc.1]
    split
    · exact slotInvariant_handleHeader acceptKey s client _ h hc.2
    · exact slotInvariant_handleWebsocket client _ h
    · exact slotInvariant_clientDisconnect client
  · exact slotInvariant_clientIsConnected client h
  · exact slotInvariant_clientIsConnected client h

/-- A change of what the transport reports preserves the slot invariant. -/
theorem slotInvariant_transportReports (b : Bool) (client : WSclient_t)
    (h : slotInvariant client) : slotInvariant (transportReports b client).1 := by
  unfold transportReports slotInvariant at *
  cases htcp : client.tcp with
  | none => rw [htcp] at h; simpa [handshakeFieldsReset] using h
  | some t => rw [htcp] at h; simpa using h

/-- The operation `begin()` establishes the slot invariant in every slot. -/
theorem slotInvariant_beginFrom (l : List WSclient_t) :
    ∀ i : Nat, ∀ c ∈ beginFrom i l, slotInvariant c := by
  induction l with
  | nil => intro i c hc; simp [beginFrom] at hc
  | cons x xs ih =>
    intro i c hc
    simp only [beginFrom, List.mem_cons] at hc
    rcases hc with rfl | hc
    · simp [slotInvariant, beginClient, handshakeFieldsReset]
    · exact ih (i + 1) c hc

/-- A per-slot operation that preserves the slot invariant preserves it on the table. -/
theorem slotInvariant_onSlot (s : Server) (i : Nat) (f : WSclient_t → WSclient_t × List Effect)
    (hf : ∀ c, s.clients[i]? = some c → slotInvariant c → slotInvariant (f c).1)
    (h : ∀ c ∈ s.clients, slotInvariant c) : ∀ c ∈ (s.onSlot i f).clients, slotInvariant c := by
  unfold Server.onSlot
  cases hc : s.clients[i]? with
  | none => exact h
  | some c0 =>
    intro c hmem
    rcases List.mem_or_eq_of_mem_set hmem with hmem | rfl
    · exact h c hmem
    · exact hf c0 hc (h c0 (List.mem_iff_getElem?.mpr ⟨i, hc⟩))

/-- The operation `newClient` preserves the slot invariant on the table. -/
theorem slotInvariant_newClientFrom (t : Tcp) (l : List WSclient_t)
    (h : ∀ c ∈ l, slotInvariant c) : ∀ c ∈ (newClientFrom t l).2.1, slotInvariant c := by
  induction l with
  | nil => intro c hc; simp [newClientFrom] at hc
  | cons x xs ih =>
    have hx := h x (List.mem_cons_self _ _)
    have hxs : ∀ c ∈ xs, slotInvariant c := fun c hc => h c (List.mem_cons_of_mem _ hc)
    intro c hc
    unfold newClientFrom at hc
    simp only [] at hc
    split_ifs at hc
    · simp only [List.mem_cons] at hc
      rcases hc with rfl | hc
      · exact slotInvariant_bound _ t
      · exact hxs c hc
    · simp only [List.mem_cons] at hc
      rcases hc with rfl | hc
      · exact slotInvariant_clientIsConnected x hx
      · exact ih hxs c hc

/-- The operation `handleNewClients` preserves the slot invariant on the table. -/
theorem slotInvariant_handleNewClients (pending : List Tcp) :
    ∀ s : Server, (∀ c ∈ s.clients, slotInvariant c) →
      ∀ c ∈ (handleNewClients s pending).clients, slotInvariant c := by
  induction pending with
  | nil => intro s h; exact h
  | cons t ts ih =>
    intro s h
    unfold handleNewClients
    rw [List.foldl_cons]
    apply ih
    unfold handleNewClient
    simp only []
    split_ifs <;> exact slotInvariant_newClientFrom t s.clients h

/-- The operation `disconnect()` preserves the slot invariant on the table. -/
theorem slotInvariant_disconnectAll (l : List WSclient_t) (h : ∀ c ∈ l, slotInvariant c) :
    ∀ c ∈ (disconnectAll l).1, slotInvariant c := by
  rw [disconnectAll_clients]
  intro c hc
  obtain ⟨x, hx, rfl⟩ := List.mem_map.mp hc
  exact slotInvariant_disconnectClient x (h x hx)

/-- The operation `handleClientData` preserves the slot invariant on the table. -/
theorem slotInvariant_handleClientDataFrom (acceptKey : Str → Str) (s : Server)
    (l : List WSclient_t) :
    ∀ rx : List Rx, (∀ c ∈ l, slotInvariant c) →
      ∀ c ∈ (handleClientDataFrom acceptKey s l rx).1, slotInvariant c := by
  induction l with
  | nil => intro rx _ c hc; simp [handleClientDataFrom] at hc
  | cons x xs ih =>
    intro rx h c hc
    have hx := h x (List.mem_cons_self _ _)
    have hxs : ∀ c ∈ xs, slotInvariant c := fun c hc => h c (List.mem_cons_of_mem _ hc)
    cases rx with
    | nil =>
      simp only [handleClientDataFrom, List.mem_cons] at hc
      rcases hc with rfl | hc
      · exact slotInvariant_clientIsConnected x hx
      · exact ih [] hxs c hc
    | cons r rs =>
      simp only [handleClientDataFrom, List.mem_cons] at hc
      rcases hc with rfl | hc
      · exact slotInvariant_handleClientDataSlot acceptKey s x r hx
      · exact ih rs hxs c hc

/-- Every operation of the server preserves the slot invariant on the table. -/
theorem slotInvariant_step (acceptKey : Str → Str) (s t : Server) (hstep : Step acceptKey s t)
    (h : ∀ c ∈ s.clients, slotInvariant c) : ∀ c ∈ t.clients, slotInvariant c := by
  cases hstep with
  | newClient tcp => exact slotInvariant_newClientFrom tcp s.clients h
  | handleNewClients pending => exact slotInvariant_handleNewClients pending s h
  | handleHeader i client headerLine hslot htcp =>
    apply slotInvariant_onSlot s i _ _ h
    intro c hc hinv
    rw [hslot] at hc; cases hc
    exact slotInvariant_handleHeader acceptKey s client headerLine hinv htcp
  | clientIsConnected i =>
    exact slotInvariant_onSlot s i _ (fun c _ hc => slotInvariant_clientIsConnected c hc) h
  | clientDisconnect i =>
    exact slotInvariant_onSlot s i _ (fun c _ _ => slotInvariant_clientDisconnect c) h
  | disconnectNum num =>
    exact slotInvariant_onSlot s num _ (fun c _ hc => slotInvariant_disconnectClient c hc) h
  | disconnect => exact slotInvariant_disconnectAll s.clients h
  | handleClientData rx => exact slotInvariant_handleClientDataFrom acceptKey s s.clients rx h
  | transport i b =>
    exact slotInvariant_onSlot s i _ (fun c _ hc => slotInvariant_transportReports b c hc) h
  | setAuthorization auth => exact h
  | onValidateHttpHeader f names => exact h

/-- Every slot of a reachable state satisfies the slot invariant. -/
theorem slotInvariant_reachable (acceptKey : Str → Str) (s : Server)
    (h : Reachable acceptKey s) : ∀ c ∈ s.clients, slotInvariant c := by
  induction h with
  | begin s0 => exact slotInvariant_beginFrom s0.clients 0
  | step s t _ hstep ih => exact slotInvariant_step acceptKey s t hstep ih

/-- C7: in every state reachable from `begin()` through `newClient`,
`handleNewClients`, `handleHeader` (on a slot holding a handle),
`clientIsConnected`, `clientDisconnect`, `disconnect` and `handleClientData`,
every slot has status NOT_CONNECTED exactly when its transport handle is
absent: no slot is CONNECTED or awaiting headers without a handle, and no slot
holds a handle while NOT_CONNECTED. -/
theorem C7_slot_invariant (acceptKey : Str → Str) (s : Server)
    (h : Reachable acceptKey s) :
    ∀ c ∈ s.clients,
      (c.status = .WSC_NOT_CONNECTED ↔ c.tcp = none) ∧
      ((c.status = .WSC_CONNECTED ∨ c.status = .WSC_HEADER) → c.tcp ≠ none) ∧
      (c.tcp ≠ none → c.status ≠ .WSC_NOT_CONNECTED) := by
  intro c hc
  have hinv := (slotInvariant_reachable acceptKey s h c hc).1
  refine ⟨hinv, ?_, ?_⟩
  · intro hs ht
    have := hinv.mpr ht
    rcases hs with hs | hs <;> rw [hs] at this <;> cases this
  · intro ht hs
    exact ht (hinv.mp hs)

/-- C7 at a concrete state: slot 0 of the sample server after `begin()` and
one accepted connection holds a handle and awaits headers. -/
theorem C7_slot_invariant_witness :
    sampleClient ∈ sampleBoundServer.clients ∧
    (sampleClient.status = .WSC_NOT_CONNECTED ↔ sampleClient.tcp = none) ∧
    ((sampleClient.status = .WSC_CONNECTED ∨ sampleClient.status = .WSC_HEADER) →
      sampleClient.tcp ≠ none) ∧
    (sampleClient.tcp ≠ none → sampleClient.status ≠ .WSC_NOT_CONNECTED) :=
  ⟨by decide,
    C7_slot_invariant sampleAcceptKey sampleBoundServer
      (Reachable.step _ _ (Reachable.begin (construct 2 [] "arduino".toList))
        (Step.newClient _ sampleTcp))
      sampleClient (by decide)⟩

/-! ## Slots reported not connected -/

/-- A slot reported not connected has no transport handle afterwards. -/
theorem clientIsConnected_false (client : WSclient_t) (h : (clientIsConnected client).1 = false) :
    (clientIsConnected client).2.1.tcp = none := by
  cases htcp : client.tcp with
  | none => rw [clientIsConnected_of_none client htcp]; exact htcp
  | some t =>
    by_cases hst : client.status = .WSC_NOT_CONNECTED
    · unfold clientIsConnected
      rw [htcp]
      simp [hst, htcp, (clientDisconnect_status client).2]
    · rw [clientIsConnected_of_session client t htcp hst] at h ⊢
      split_ifs at h ⊢
      exact (clientDisconnect_status client).2

/-! ## The accepted handshake -/

/-- The accepted handshake: the slot afterwards and the actions, in order. -/
theorem handleHeader_accepted (acceptKey : Str → Str) (s : Server) (client : WSclient_t)
    (e : Str) (he : trim e = []) (hauth : authorizationPasses s client)
    (hc : acceptCondition s client) :
    handleHeader acceptKey s client e =
      ({ client with status := .WSC_CONNECTED, cWsRXsize := 0 },
       [.write client.num
          (handshakeResponse s { client with status := .WSC_CONNECTED } (acceptKey client.cKey)),
        .sendFrame client.num .WSop_ping [],
        .cbEvent client.num .WStype_CONNECTED (some client.cUrl) client.cUrl.length]) := by
  have hk : handshakeOk s client = true := (handshakeOk_iff s client).mpr hc
  have hno : ¬ (s.base64Authorization.length > 0 ∧
      "Basic ".toList ++ s.base64Authorization ≠ client.base64Authorization) := by
    rintro ⟨h1, h2⟩
    rcases hauth with h | h
    · rw [h] at h1; simp at h1
    · exact h2 h.symm
  unfold handleHeader handleHeaderEnd
  simp only [he, List.length_nil, gt_iff_lt, lt_self_iff_false, if_false]
  rw [if_neg hno, if_pos hk]
  rfl

/-- C9 (as stated, refuted): on the accepted sample handshake the Connected
event does not come before the ping frame; the ping frame is sent first. -/
theorem C9_ping_precedes_connected_event :
    ¬ ((handleHeader sampleAcceptKey sampleServer sampleReadyClient "\r".toList).2.indexOf
          (.cbEvent 0 .WStype_CONNECTED (some "/chat".toList) 5)
        < (handleHeader sampleAcceptKey sampleServer sampleReadyClient "\r".toList).2.indexOf
          (.sendFrame 0 .WSop_ping [])) ∧
    (handleHeader sampleAcceptKey sampleServer sampleReadyClient "\r".toList).2.drop 1
      = [.sendFrame 0 .WSop_ping [], .cbEvent 0 .WStype_CONNECTED (some "/chat".toList) 5] := by
  refine ⟨by decide, by decide⟩

/-- C9 (amended): on a successful handshake the status is set to CONNECTED and
the observable actions of `handleHeader` are, in this order: the 101 response
written, the unsolicited ping frame sent, and only then the Connected event
fired with the request path (bytes and length) as payload. -/
theorem C9_accept_order (acceptKey : Str → Str) (s : Server) (client : WSclient_t)
    (e : Str) (he : trim e = []) (hauth : authorizationPasses s client)
    (hc : acceptCondition s client) :
    (handleHeader acceptKey s client e).1.status = .WSC_CONNECTED ∧
    (handleHeader acceptKey s client e).2 =
      [.write client.num
          (handshakeResponse s { client with status := .WSC_CONNECTED } (acceptKey client.cKey)),
        .sendFrame client.num .WSop_ping [],
        .cbEvent client.num .WStype_CONNECTED (some client.cUrl) client.cUrl.length] := by
  rw [handleHeader_accepted acceptKey s client e he hauth hc]
  exact ⟨rfl, rfl⟩

/-- C9 (amended) at the sample handshake. -/
theorem C9_accept_order_witness :
    (handleHeader sampleAcceptKey sampleServer sampleReadyClient "\r".toList).1.status
      = .WSC_CONNECTED :=
  (C9_accept_order sampleAcceptKey sampleServer sampleReadyClient "\r".toList
    (by decide) (by decide) (by decide)).1

/-- C10: on a successful handshake `handleHeader` writes to the transport
exactly once, and the bytes are the fixed head, the accept key of the client
key and a line end, then the Access-Control-Allow-Origin line exactly when the
configured origin is non-empty, then one Sec-WebSocket-Protocol line (carrying
the server's configured protocol name) exactly when the client's recorded
Sec-WebSocket-Protocol value is non-empty, then a final line end. -/
theorem C10_response_bytes (acceptKey : Str → Str) (s : Server) (client : WSclient_t)
    (e : Str) (he : trim e = []) (hauth : authorizationPasses s client)
    (hc : acceptCondition s client) :
    (handleHeader acceptKey s client e).2.filter Effect.isWrite =
      [.write client.num
        (handshakeHead ++ acceptKey client.cKey ++ "\r\n".toList ++
          (if s.origin ≠ [] then
            "Access-Control-Allow-Origin: ".toList ++ s.origin ++ "\r\n".toList else []) ++
          (if client.cProtocol ≠ [] then
            "Sec-WebSocket-Protocol: ".toList ++ s.protocol ++ "\r\n".toList else []) ++
          "\r\n".toList)] := by
  rw [handleHeader_accepted acceptKey s client e he hauth hc]
  have hresp : handshakeResponse s { client with status := .WSC_CONNECTED } (acceptKey client.cKey)
      = handshakeHead ++ acceptKey client.cKey ++ "\r\n".toList ++
          (if s.origin ≠ [] then
            "Access-Control-Allow-Origin: ".toList ++ s.origin ++ "\r\n".toList else []) ++
          (if client.cProtocol ≠ [] then
            "Sec-WebSocket-Protocol: ".toList ++ s.protocol ++ "\r\n".toList else []) ++
          "\r\n".toList := by
    unfold handshakeResponse NEW_LINE handshakeHead
    generalize ("HTTP/1.1 101 Switching Protocols\r\n" ++
        "Server: arduino-WebSocketsServer\r\n" ++
        "Upgrade: websocket\r\n" ++
        "Connection: Upgrade\r\n" ++
        "Sec-WebSocket-Version: 13\r\n" ++
        "Sec-WebSocket-Accept: ").toList = head
    generalize "\r\n".toList = nl
    generalize "Access-Control-Allow-Origin: ".toList = o
    generalize "Sec-WebSocket-Protocol: ".toList = q
    by_cases h1 : s.origin = [] <;> by_cases h2 : client.cProtocol = [] <;>
      simp [h1, h2, List.length_pos]
  rw [hresp]
  rfl

/-- C10 at the sample handshake (no origin configured, a sub-protocol requested). -/
theorem C10_response_bytes_witness :
    (handleHeader sampleAcceptKey sampleServer sampleReadyClient "\r".toList).2.filter
        Effect.isWrite =
      [.write sampleReadyClient.num
        (handshakeHead ++ sampleAcceptKey sampleReadyClient.cKey ++ "\r\n".toList ++
          (if sampleServer.origin ≠ [] then
            "Access-Control-Allow-Origin: ".toList ++ sampleServer.origin ++ "\r\n".toList
           else []) ++
          (if sampleReadyClient.cProtocol ≠ [] then
            "Sec-WebSocket-Protocol: ".toList ++ sampleServer.protocol ++ "\r\n".toList
           else []) ++
          "\r\n".toList)] :=
  C10_response_bytes sampleAcceptKey sampleServer sampleReadyClient "\r".toList
    (by decide) (by decide) (by decide)

/-! ## The announced sub-protocol -/

/-- C11 (as stated, refuted): the sample client requested the sub-protocol
`chat`; the 101 response written on acceptance does not carry it on its
Sec-WebSocket-Protocol line but the server's configured name `arduino`. -/
theorem C11_response_names_server_protocol :
    sampleReadyClient.cProtocol = "chat".toList ∧
    (handleHeader sampleAcceptKey sampleServer sampleReadyClient "\r".toList).2.filter
        Effect.isWrite ≠
      [.write 0 (responseEchoingClientProtocol sampleServer sampleReadyClient
        (sampleAcceptKey sampleReadyClient.cKey))] ∧
    (handleHeader sampleAcceptKey sampleServer sampleReadyClient "\r".toList).2.filter
        Effect.isWrite =
      [.write 0 (handshakeHead ++ sampleAcceptKey sampleReadyClient.cKey ++
        "\r\nSec-WebSocket-Protocol: arduino\r\n\r\n".toList)] := by
  have h := handleHeader_accepted sampleAcceptKey sampleServer sampleReadyClient "\r".toList
    (by decide) (by decide) (by decide)
  have hw : (handleHeader sampleAcceptKey sampleServer sampleReadyClient "\r".toList).2.filter
        Effect.isWrite =
      [.write 0 (handshakeHead ++ sampleAcceptKey sampleReadyClient.cKey ++
        "\r\nSec-WebSocket-Protocol: arduino\r\n\r\n".toList)] := by
    rw [h]
    have hp : sampleReadyClient.cProtocol.length > 0 := by decide
    have ho : ¬ sampleServer.origin.length > 0 := by decide
    have hn : sampleReadyClient.num = 0 := by decide
    have hs : sampleServer.protocol = "arduino".toList := rfl
    simp only [List.filter, Effect.isWrite, handshakeResponse, NEW_LINE, hp, ho, if_true,
      if_false, hn, hs]
    unfold handshakeHead
    simp only [List.append_assoc]
    rfl
  refine ⟨by decide, ?_, hw⟩
  rw [hw]
  intro hEq
  have h1 := List.cons.inj hEq
  have h2 := Effect.write.inj h1.1
  unfold responseEchoingClientProtocol at h2
  have hp : sampleReadyClient.cProtocol = "chat".toList := by decide
  have ho : sampleServer.origin = [] := rfl
  rw [hp, ho] at h2
  simp only [ne_eq, not_true_eq_false, if_false, List.append_assoc, List.append_nil] at h2
  have h3 := List.append_cancel_left h2.2
  have h4 := List.append_cancel_left h3
  revert h4
  decide

/-- The 101 response spelled out: head, accept key, optional origin line,
optional sub-protocol line carrying the server's configured name, end. -/
theorem handshakeResponse_spelled (s : Server) (client : WSclient_t) (sKey : Str) :
    handshakeResponse s client sKey =
      handshakeHead ++ sKey ++ "\r\n".toList ++
        (if s.origin ≠ [] then
          "Access-Control-Allow-Origin: ".toList ++ s.origin ++ "\r\n".toList else []) ++
        (if client.cProtocol ≠ [] then
          "Sec-WebSocket-Protocol: ".toList ++ s.protocol ++ "\r\n".toList else []) ++
        "\r\n".toList := by
  unfold handshakeResponse NEW_LINE handshakeHead
  generalize ("HTTP/1.1 101 Switching Protocols\r\n" ++
      "Server: arduino-WebSocketsServer\r\n" ++
      "Upgrade: websocket\r\n" ++
      "Connection: Upgrade\r\n" ++
      "Sec-WebSocket-Version: 13\r\n" ++
      "Sec-WebSocket-Accept: ").toList = head
  generalize "\r\n".toList = nl
  generalize "Access-Control-Allow-Origin: ".toList = o
  generalize "Sec-WebSocket-Protocol: ".toList = q
  by_cases h1 : s.origin = [] <;> by_cases h2 : client.cProtocol = [] <;>
    simp [h1, h2, List.length_pos]

/-- C11 (amended): on a successful handshake of a client whose recorded
Sec-WebSocket-Protocol value is non-empty, the 101 response ends with one
Sec-WebSocket-Protocol line whose value is the server's configured protocol
name (`_protocol`, set by the constructor), whatever the client requested;
when the recorded value is empty the response has no such line. -/
theorem C11_announced_protocol (acceptKey : Str → Str) (s : Server) (client : WSclient_t)
    (e : Str) (he : trim e = []) (hauth : authorizationPasses s client)
    (hc : acceptCondition s client) :
    (client.cProtocol ≠ [] →
      (handleHeader acceptKey s client e).2.filter Effect.isWrite =
        [.write client.num
          (handshakeHead ++ acceptKey client.cKey ++ "\r\n".toList ++
            (if s.origin ≠ [] then
              "Access-Control-Allow-Origin: ".toList ++ s.origin ++ "\r\n".toList else []) ++
            ("Sec-WebSocket-Protocol: ".toList ++ s.protocol ++ "\r\n".toList) ++
            "\r\n".toList)]) ∧
    (client.cProtocol = [] →
      (handleHeader acceptKey s client e).2.filter Effect.isWrite =
        [.write client.num
          (handshakeHead ++ acceptKey client.cKey ++ "\r\n".toList ++
            (if s.origin ≠ [] then
              "Access-Control-Allow-Origin: ".toList ++ s.origin ++ "\r\n".toList else []) ++
            "\r\n".toList)]) := by
  rw [handleHeader_accepted acceptKey s client e he hauth hc, handshakeResponse_spelled]
  constructor
  · intro hp
    simp only [List.filter, Effect.isWrite, if_pos hp]
  · intro hp
    simp only [List.filter, Effect.isWrite, hp, ne_eq, not_true_eq_false, if_false,
      List.append_nil]

/-- C11 (amended) at the sample handshake: the client asked for `chat`, the
response names the server's `arduino`. -/
theorem C11_announced_protocol_witness :
    (handleHeader sampleAcceptKey sampleServer sampleReadyClient "\r".toList).2.filter
        Effect.isWrite =
      [.write sampleReadyClient.num
        (handshakeHead ++ sampleAcceptKey sampleReadyClient.cKey ++ "\r\n".toList ++
          (if sampleServer.origin ≠ [] then
            "Access-Control-Allow-Origin: ".toList ++ sampleServer.origin ++ "\r\n".toList
           else []) ++
          ("Sec-WebSocket-Protocol: ".toList ++ sampleServer.protocol ++ "\r\n".toList) ++
          "\r\n".toList)] :=
  (C11_announced_protocol sampleAcceptKey sampleServer sampleReadyClient "\r".toList
    (by decide) (by decide) (by decide)).1 (by decide)

/-! ## Event kinds -/

/-- C17: `messageReceived` hands exactly one event to the callback, tagged with
the slot number and with payload and length unchanged; the kind is TEXT or
FRAGMENT_TEXT_START for a text frame (fin set or not), BIN or
FRAGMENT_BIN_START for a binary frame, FRAGMENT_FIN or FRAGMENT for a
continuation frame, PING and PONG for ping and pong whatever fin is, and ERROR
for a close frame and for any other opcode. -/
theorem C17_event_kinds (client : WSclient_t) (payload : Option Str) (length : Nat) :
    messageReceived client .WSop_text payload length true
      = [.cbEvent client.num .WStype_TEXT payload length] ∧
    messageReceived client .WSop_text payload length false
      = [.cbEvent client.num .WStype_FRAGMENT_TEXT_START payload length] ∧
    messageReceived client .WSop_binary payload length true
      = [.cbEvent client.num .WStype_BIN payload length] ∧
    messageReceived client .WSop_binary payload length false
      = [.cbEvent client.num .WStype_FRAGMENT_BIN_START payload length] ∧
    messageReceived client .WSop_continuation payload length true
      = [.cbEvent client.num .WStype_FRAGMENT_FIN payload length] ∧
    messageReceived client .WSop_continuation payload length false
      = [.cbEvent client.num .WStype_FRAGMENT payload length] ∧
    (∀ fin, messageReceived client .WSop_ping payload length fin
      = [.cbEvent client.num .WStype_PING payload length]) ∧
    (∀ fin, messageReceived client .WSop_pong payload length fin
      = [.cbEvent client.num .WStype_PONG payload length]) ∧
    (∀ fin, messageReceived client .WSop_close payload length fin
      = [.cbEvent client.num .WStype_ERROR payload length]) ∧
    (∀ fin code, messageReceived client (.WSop_other code) payload length fin
      = [.cbEvent client.num .WStype_ERROR payload length]) := by
  refine ⟨rfl, rfl, rfl, rfl, rfl, rfl, fun _ => rfl, fun _ => rfl, fun _ => rfl,
    fun _ _ => rfl⟩

/-! ## Slot selection -/

/-- A slot reported connected is live: its check changes nothing and does nothing. -/
theorem clientIsConnected_true_eq (client : WSclient_t)
    (h : (clientIsConnected client).1 = true) : clientIsConnected client = (true, client, []) := by
  cases htcp : client.tcp with
  | none => rw [clientIsConnected_of_none client htcp] at h; cases h
  | some t =>
    by_cases hst : client.status = .WSC_NOT_CONNECTED
    · unfold clientIsConnected at h
      rw [htcp] at h
      simp [hst] at h
    · rw [clientIsConnected_of_session client t htcp hst] at h ⊢
      split_ifs at h ⊢
      rfl

/-- The loop of `newClient` stops at the first slot that is not connected. -/
theorem newClientFrom_lowest (t : Tcp) (l : List WSclient_t) (i : Nat) (c : WSclient_t)
    (hslot : l[i]? = some c) (hfree : (clientIsConnected c).1 = false)
    (hlow : ∀ (j : Nat) (x : WSclient_t), j < i → l[j]? = some x →
      (clientIsConnected x).1 = true) :
    newClientFrom t l =
      (true,
       l.set i { (clientIsConnected c).2.1 with
                  tcp := some t, isSSL := false, status := .WSC_HEADER },
       (clientIsConnected c).2.2) := by
  induction l generalizing i with
  | nil => simp at hslot
  | cons x xs ih =>
    cases i with
    | zero =>
      simp at hslot
      subst hslot
      simp [newClientFrom, hfree]
    | succ n =>
      simp at hslot
      have hx := clientIsConnected_true_eq x (hlow 0 x (Nat.succ_pos n) (by simp))
      have hrest := ih n hslot (fun j y hj hy => hlow (j + 1) y (by omega) (by simpa using hy))
      simp [newClientFrom, hx, hrest]

/-- C18: when slot `i` is the lowest-index slot that `clientIsConnected`
reports not connected, `newClient` returns true and binds the transport to
slot `i` with status WSC_HEADER; the only actions are those of the liveness
check of slot `i`, and every other slot - the connected ones below and all
those above, which are not probed - is exactly as before. -/
theorem C18_lowest_free_slot (s : Server) (t : Tcp) (i : Nat) (c : WSclient_t)
    (hslot : s.clients[i]? = some c) (hfree : (clientIsConnected c).1 = false)
    (hlow : ∀ (j : Nat) (x : WSclient_t), j < i → s.clients[j]? = some x →
      (clientIsConnected x).1 = true) :
    (newClient s t).1 = true ∧
    (newClient s t).2.clients[i]? =
      some { (clientIsConnected c).2.1 with
              tcp := some t, isSSL := false, status := .WSC_HEADER } ∧
    (∀ j, j ≠ i → (newClient s t).2.clients[j]? = s.clients[j]?) ∧
    (newClient s t).2.log = s.log ++ (clientIsConnected c).2.2 := by
  have h := newClientFrom_lowest t s.clients i c hslot hfree hlow
  have hlt : i < s.clients.length := (List.getElem?_eq_some.mp hslot).1
  unfold newClient
  simp only [h]
  refine ⟨trivial, ?_, ?_, trivial⟩
  · rw [List.getElem?_set]
    simp [hlt]
  · intro j hj
    rw [List.getElem?_set_ne (Ne.symm hj)]

/-- C18 at a concrete table: slot 0 of the sample server is live, slot 1 is
free, so the transport is bound to slot 1. -/
theorem C18_lowest_free_slot_witness :
    (newClient sampleBoundServer { id := 2, connected := true }).1 = true ∧
    (newClient sampleBoundServer { id := 2, connected := true }).2.clients[1]? =
      some { (clientIsConnected (beginClient 1 zeroClient)).2.1 with
              tcp := some { id := 2, connected := true }, isSSL := false,
              status := .WSC_HEADER } :=
  ⟨(C18_lowest_free_slot sampleBoundServer { id := 2, connected := true } 1
      (beginClient 1 zeroClient) (by decide) (by decide)
      (by
        intro j x hj hx
        have hj0 : j = 0 := by omega
        subst hj0
        have h' : sampleBoundServer.clients[0]? = some sampleClient := by decide
        rw [h'] at hx; cases hx
        decide)).1,
   (C18_lowest_free_slot sampleBoundServer { id := 2, connected := true } 1
      (beginClient 1 zeroClient) (by decide) (by decide)
      (by
        intro j x hj hx
        have hj0 : j = 0 := by omega
        subst hj0
        have h' : sampleBoundServer.clients[0]? = some sampleClient := by decide
        rw [h'] at hx; cases hx
        decide)).2.1⟩

/-! ## Reset of the handshake fields on teardown and on binding -/

/-- When `newClient` succeeds there is a lowest slot that the liveness check
reports not connected. -/
theorem newClientFrom_true_lowest (t : Tcp) (l : List WSclient_t)
    (h : (newClientFrom t l).1 = true) :
    ∃ (i : Nat) (c0 : WSclient_t), l[i]? = some c0 ∧ (clientIsConnected c0).1 = false ∧
      ∀ (j : Nat) (x : WSclient_t), j < i → l[j]? = some x → (clientIsConnected x).1 = true := by
  induction l with
  | nil => simp [newClientFrom] at h
  | cons x xs ih =>
    by_cases hx : (clientIsConnected x).1 = true
    · have h2 : (newClientFrom t xs).1 = true := by
        unfold newClientFrom at h
        simpa [hx] using h
      obtain ⟨i, c0, h1, hfree, hlow⟩ := ih h2
      refine ⟨i + 1, c0, by simpa using h1, hfree, ?_⟩
      intro j y hj hy
      cases j with
      | zero =>
        simp at hy
        subst hy
        exact hx
      | succ k => exact hlow k y (by omega) (by simpa using hy)
    · refine ⟨0, x, by simp, by simpa using hx, ?_⟩
      intro j y hj
      omega

/-- C8 (as stated, refuted): after `clientDisconnect` on a slot that received
a Sec-WebSocket-Extensions header and a mandatory header, and never an
Authorization header, the requested extensions and the mandatory-header count
still hold what the session left, so not every accumulated handshake field is
at its zero/empty value; and when the transport of that session is lost and
`newClient` binds a new transport to the slot, the slot still holds both.
Binding resets nothing by itself: on a table whose free slot holds a path,
which no execution from `begin()` produces, the bound slot keeps the path. -/
theorem C8_extensions_and_count_survive :
    ¬ allHandshakeFieldsReset (clientDisconnect sampleExtensionsClient).1 ∧
    (clientDisconnect sampleExtensionsClient).1.cExtensions = "permessage-deflate".toList ∧
    (clientDisconnect sampleExtensionsClient).1.cMandatoryHeadersCount = 1 ∧
    (clientDisconnect sampleExtensionsClient).1.base64Authorization = [] ∧
    (extensionsServerRebound.clients[0]?).map
        (fun c => (c.tcp, c.status, c.cExtensions, c.cMandatoryHeadersCount, c.base64Authorization))
      = some (some { id := 2, connected := true }, .WSC_HEADER, "permessage-deflate".toList, 1, []) ∧
    ((newClient staleTableServer sampleTcp).2.clients[0]?).map
        (fun c => (c.tcp, c.status, c.cUrl))
      = some (some sampleTcp, .WSC_HEADER, "/stale".toList) := by
  refine ⟨by decide, by decide, by decide, by decide, by decide, by decide⟩

/-- C8 (amended): after `clientDisconnect` the path, sub-protocol, version,
key and upgrade-intent pair of the slot hold their zero/empty value; and in
every reachable state, when `newClient` binds a transport, the slot it binds -
the lowest slot the liveness check reports not connected, which becomes that
slot after its liveness check with the handle set and status WSC_HEADER, every
other slot staying as it was - holds these fields at their zero/empty value. -/
theorem C8_reset_fields (acceptKey : Str → Str) (client : WSclient_t) (s : Server) (t : Tcp)
    (hreach : Reachable acceptKey s) (hbind : (newClient s t).1 = true) :
    handshakeFieldsReset (clientDisconnect client).1 ∧
    ∃ (i : Nat) (c0 : WSclient_t),
      s.clients[i]? = some c0 ∧ (clientIsConnected c0).1 = false ∧
      (∀ (j : Nat) (x : WSclient_t), j < i → s.clients[j]? = some x →
        (clientIsConnected x).1 = true) ∧
      (newClient s t).2.clients[i]? =
        some { (clientIsConnected c0).2.1 with
                tcp := some t, isSSL := false, status := .WSC_HEADER } ∧
      (∀ j, j ≠ i → (newClient s t).2.clients[j]? = s.clients[j]?) ∧
      handshakeFieldsReset
        { (clientIsConnected c0).2.1 with tcp := some t, isSSL := false, status := .WSC_HEADER } := by
  refine ⟨clientDisconnect_reset client, ?_⟩
  obtain ⟨i, c0, h1, hfree, hlow⟩ := newClientFrom_true_lowest t s.clients hbind
  have h := newClientFrom_lowest t s.clients i c0 h1 hfree hlow
  have hlt : i < s.clients.length := (List.getElem?_eq_some.mp h1).1
  have hinv := slotInvariant_clientIsConnected c0
    (slotInvariant_reachable acceptKey s hreach c0 (List.mem_iff_getElem?.mpr ⟨i, h1⟩))
  refine ⟨i, c0, h1, hfree, hlow, ?_, ?_, hinv.2 (clientIsConnected_false c0 hfree)⟩
  · unfold newClient
    simp only [h]
    rw [List.getElem?_set_self hlt]
  · intro j hj
    unfold newClient
    simp only [h]
    rw [List.getElem?_set_ne (Ne.symm hj)]

/-- The state `lostSessionServer` is reachable. -/
theorem lostSessionServer_reachable : Reachable sampleAcceptKey lostSessionServer :=
  Reachable.step _ _
    (Reachable.step _ _
      (Reachable.step _ _ (Reachable.begin (construct 2 [] "arduino".toList))
        (Step.newClient _ sampleTcp))
      (Step.handleHeader sampleBoundServer 0 sampleClient "GET /chat HTTP/1.1\r".toList
        (by decide) (by decide)))
    (Step.transport _ 0 false)

/-- C8 (amended) at a concrete state: slot 0 of the sample server received a
request line and lost its transport; `newClient` binds the new transport to
slot 0, whose path is empty again. -/
theorem C8_reset_fields_witness :
    (newClient lostSessionServer { id := 2, connected := true }).1 = true ∧
    ((lostSessionServer.clients[0]?).map (fun c => c.cUrl) = some "/chat".toList) ∧
    (((newClient lostSessionServer { id := 2, connected := true }).2.clients[0]?).map
      (fun c => (c.tcp, c.status, c.cUrl))
        = some (some { id := 2, connected := true }, .WSC_HEADER, [])) ∧
    (handshakeFieldsReset (clientDisconnect sampleReadyClient).1 ∧
      ∃ (i : Nat) (c0 : WSclient_t),
        lostSessionServer.clients[i]? = some c0 ∧ (clientIsConnected c0).1 = false ∧
        (∀ (j : Nat) (x : WSclient_t), j < i → lostSessionServer.clients[j]? = some x →
          (clientIsConnected x).1 = true) ∧
        (newClient lostSessionServer { id := 2, connected := true }).2.clients[i]? =
          some { (clientIsConnected c0).2.1 with
                  tcp := some { id := 2, connected := true }, isSSL := false,
                  status := .WSC_HEADER } ∧
        (∀ j, j ≠ i →
          (newClient lostSessionServer { id := 2, connected := true }).2.clients[j]?
            = lostSessionServer.clients[j]?) ∧
        handshakeFieldsReset
          { (clientIsConnected c0).2.1 with
            tcp := some { id := 2, connected := true }, isSSL := false,
            status := .WSC_HEADER }) :=
  ⟨by decide, by decide, by decide,
    C8_reset_fields sampleAcceptKey sampleReadyClient lostSessionServer
      { id := 2, connected := true } lostSessionServer_reachable (by decide)⟩

/-! ## Splitting header lines -/

/-- Searching a character that first occurs right after the segment `a`. -/
theorem findChar_append_found (c : Char) (a rest : Str) (h : c ∉ a) :
    ∀ k : Nat, findChar c (a ++ c :: rest) k = some (k + a.length) := by
  induction a with
  | nil => intro k; simp [findChar]
  | cons x xs ih =>
    intro k
    have hx : x ≠ c := fun hxc => h (by rw [hxc]; exact List.mem_cons_self _ _)
    have hxs : c ∉ xs := fun hm => h (List.mem_cons_of_mem _ hm)
    have hrec := ih hxs (k + 1)
    show findChar c (x :: (xs ++ c :: rest)) k = some (k + (x :: xs).length)
    simp only [findChar, if_neg hx, hrec, List.length_cons, Option.some.injEq]
    omega

/-- Searching a character that does not occur. -/
theorem findChar_absent (c : Char) (a : Str) (h : c ∉ a) : ∀ k : Nat, findChar c a k = none := by
  induction a with
  | nil => intro k; rfl
  | cons x xs ih =>
    intro k
    have hx : x ≠ c := fun hxc => h (by rw [hxc]; exact List.mem_cons_self _ _)
    have hxs : c ∉ xs := fun hm => h (List.mem_cons_of_mem _ hm)
    simp only [findChar, if_neg hx, ih hxs]

/-- Cutting the middle segment out of a string by its bounds. -/
theorem substring_mid (a b c : Str) :
    substring (a ++ b ++ c) a.length ((a.length + b.length : Nat) : Int) = b := by
  unfold substring
  have h1 : ¬ (((a.length + b.length : Nat) : Int) < 0) := by omega
  simp only [h1, if_false, Int.toNat_ofNat]
  have h2 : ¬ (a.length > a.length + b.length) := by omega
  simp only [h2, if_false]
  split_ifs with h3
  · simp only [List.length_append] at h3
    have : b.length = 0 := by omega
    exact (List.length_eq_zero.mp this).symm
  · have h4 : min (a.length + b.length) (a ++ b ++ c).length = (a ++ b).length := by
      simp only [List.length_append]; omega
    rw [h4, List.take_left, List.drop_left]

/-- The name of a header line is what stands before its first colon. -/
theorem headerNameOf_split (name rest : Str) (h : ':' ∉ name) :
    headerNameOf (name ++ ':' :: rest) = name := by
  unfold headerNameOf indexOf indexOfFrom
  simp only [List.drop_zero, findChar_append_found ':' name rest h 0, Nat.zero_add]
  have := substring_mid [] name (':' :: rest)
  simpa using this

/-- The value of a header line is what stands after its first colon, less one
leading space. -/
theorem headerValueOf_split (name rest : Str) (h : ':' ∉ name) :
    headerValueOf (name ++ ':' :: rest) = stripOneSpace rest := by
  have hsub : substringFrom (name ++ ':' :: rest) (name.length + 1) = rest := by
    unfold substringFrom
    have := substring_mid (name ++ [':']) rest []
    simp only [List.append_nil, List.length_append, List.length_singleton,
      List.append_assoc, List.singleton_append] at this
    rw [show (name ++ ':' :: rest).length = name.length + 1 + rest.length from by
      simp only [List.length_append, List.length_cons]; omega]
    exact this
  unfold headerValueOf indexOf indexOfFrom
  simp only [List.drop_zero, findChar_append_found ':' name rest h 0, Nat.zero_add,
    Int.toNat_ofNat, hsub]
  cases rest with
  | nil => rfl
  | cons x xs =>
    by_cases hx : x = ' '
    · subst hx
      simp [stripOneSpace, remove]
    · have : stripOneSpace (x :: xs) = x :: xs := by
        unfold stripOneSpace
        split
        · rename_i heq; cases heq; exact absurd rfl hx
        · rfl
      simp [this, hx]

/-- A line with a colon is found to have one. -/
theorem indexOf_split (name rest : Str) (h : ':' ∉ name) :
    indexOf (name ++ ':' :: rest) ':' ≥ 0 := by
  unfold indexOf indexOfFrom
  simp only [List.drop_zero, findChar_append_found ':' name rest h 0]
  omega

/-- A header line that is not a request line goes to the dispatch on its name
with the name before the first colon and the value after it, less one leading
space. -/
theorem handleHeader_split (acceptKey : Str → Str) (s : Server) (client : WSclient_t)
    (l name rest : Str) (hl : trim l = name ++ ':' :: rest) (hname : ':' ∉ name)
    (hreq : startsWith (trim l) "GET ".toList = false) :
    handleHeader acceptKey s client l = handleHeaderField s client name (stripOneSpace rest) := by
  unfold handleHeader
  simp only []
  have hlen : (trim l).length > 0 := by rw [hl]; simp
  rw [if_pos hlen, hreq]
  simp only [Bool.false_eq_true, if_false]
  rw [hl, if_pos (indexOf_split name rest hname), headerNameOf_split name rest hname,
    headerValueOf_split name rest hname]

/-- Two strings equal to a third one ignoring case compare alike with any other. -/
theorem equalsIgnoreCase_congr (a b c : Str) (h : equalsIgnoreCase a b = true) :
    equalsIgnoreCase a c = equalsIgnoreCase b c := by
  unfold equalsIgnoreCase at h ⊢
  simp only [Bool.and_eq_true, beq_iff_eq] at h
  rw [h.1, h.2]

/-- The dispatch on a name equal to `Connection` ignoring case. -/
theorem handleHeaderField_Connection (s : Server) (client : WSclient_t) (name value : Str)
    (h : equalsIgnoreCase name "Connection".toList = true) :
    handleHeaderField s client name value =
      if indexOfStr (toLowerCase value) "upgrade".toList ≥ 0 then
        ({ client with cIsUpgrade := true }, [])
      else (client, []) := by
  unfold handleHeaderField
  rw [if_pos h]

/-- The dispatch on a name equal to `Upgrade` ignoring case. -/
theorem handleHeaderField_Upgrade (s : Server) (client : WSclient_t) (name value : Str)
    (h : equalsIgnoreCase name "Upgrade".toList = true) :
    handleHeaderField s client name value =
      if equalsIgnoreCase value "websocket".toList = true then
        ({ client with cIsWebsocket := true }, [])
      else (client, []) := by
  have k := equalsIgnoreCase_congr name "Upgrade".toList
  unfold handleHeaderField
  rw [k "Connection".toList h, k "Upgrade".toList h]
  rfl

/-- The dispatch on a name equal to `Sec-WebSocket-Version` ignoring case. -/
theorem handleHeaderField_Version (s : Server) (client : WSclient_t) (name value : Str)
    (h : equalsIgnoreCase name "Sec-WebSocket-Version".toList = true) :
    handleHeaderField s client name value = ({ client with cVersion := toInt value }, []) := by
  have k := equalsIgnoreCase_congr name "Sec-WebSocket-Version".toList
  unfold handleHeaderField
  rw [k "Connection".toList h, k "Upgrade".toList h, k "Sec-WebSocket-Version".toList h]
  rfl

/-- The dispatch on a name equal to `Sec-WebSocket-Key` ignoring case. -/
theorem handleHeaderField_Key (s : Server) (client : WSclient_t) (name value : Str)
    (h : equalsIgnoreCase name "Sec-WebSocket-Key".toList = true) :
    handleHeaderField s client name value = ({ client with cKey := trim value }, []) := by
  have k := equalsIgnoreCase_congr name "Sec-WebSocket-Key".toList
  unfold handleHeaderField
  rw [k "Connection".toList h, k "Upgrade".toList h, k "Sec-WebSocket-Version".toList h,
    k "Sec-WebSocket-Key".toList h]
  rfl

/-- The dispatch on a name equal to `Sec-WebSocket-Protocol` ignoring case. -/
theorem handleHeaderField_Protocol (s : Server) (client : WSclient_t) (name value : Str)
    (h : equalsIgnoreCase name "Sec-WebSocket-Protocol".toList = true) :
    handleHeaderField s client name value = ({ client with cProtocol := value }, []) := by
  have k := equalsIgnoreCase_congr name "Sec-WebSocket-Protocol".toList
  unfold handleHeaderField
  rw [k "Connection".toList h, k "Upgrade".toList h, k "Sec-WebSocket-Version".toList h,
    k "Sec-WebSocket-Key".toList h, k "Sec-WebSocket-Protocol".toList h]
  rfl

/-- The dispatch on a name equal to `Sec-WebSocket-Extensions` ignoring case. -/
theorem handleHeaderField_Extensions (s : Server) (client : WSclient_t) (name value : Str)
    (h : equalsIgnoreCase name "Sec-WebSocket-Extensions".toList = true) :
    handleHeaderField s client name value = ({ client with cExtensions := value }, []) := by
  have k := equalsIgnoreCase_congr name "Sec-WebSocket-Extensions".toList
  unfold handleHeaderField
  rw [k "Connection".toList h, k "Upgrade".toList h, k "Sec-WebSocket-Version".toList h,
    k "Sec-WebSocket-Key".toList h, k "Sec-WebSocket-Protocol".toList h,
    k "Sec-WebSocket-Extensions".toList h]
  rfl

/-- The dispatch on a name equal to `Authorization` ignoring case. -/
theorem handleHeaderField_Authorization (s : Server) (client : WSclient_t) (name value : Str)
    (h : equalsIgnoreCase name "Authorization".toList = true) :
    handleHeaderField s client name value =
      ({ client with base64Authorization := value }, []) := by
  have k := equalsIgnoreCase_congr name "Authorization".toList
  unfold handleHeaderField
  rw [k "Connection".toList h, k "Upgrade".toList h, k "Sec-WebSocket-Version".toList h,
    k "Sec-WebSocket-Key".toList h, k "Sec-WebSocket-Protocol".toList h,
    k "Sec-WebSocket-Extensions".toList h, k "Authorization".toList h]
  rfl

/-- The dispatch on a name that is none of the recognised names. -/
theorem handleHeaderField_custom (s : Server) (client : WSclient_t) (name value : Str)
    (h : isReservedName name = false) :
    handleHeaderField s client name value =
      ({ client with
          cHttpHeadersValid :=
            client.cHttpHeadersValid && execHttpHeaderValidation s name value,
          cMandatoryHeadersCount :=
            if s.mandatoryHttpHeaderCount > 0 ∧ hasMandatoryHeader s name = true then
              (client.cMandatoryHeadersCount + 1) % 4294967296
            else client.cMandatoryHeadersCount },
       [.httpHeaderValidation name value]) := by
  unfold isReservedName reservedHeaderNames at h
  simp only [List.any_cons, List.any_nil, Bool.or_false, Bool.or_eq_false_iff] at h
  obtain ⟨h1, h2, h3, h4, h5, h6, h7⟩ := h
  unfold handleHeaderField
  rw [h1, h2, h3, h4, h5, h6, h7]
  rfl

/-! ## The String operations against their specification -/

/-- The comparison of `String::equalsIgnoreCase` is equality ignoring case. -/
theorem equalsIgnoreCase_iff (a b : Str) :
    equalsIgnoreCase a b = true ↔ sameIgnoringCase a b := by
  unfold equalsIgnoreCase sameIgnoringCase toLowerCase
  constructor
  · intro h
    simp only [Bool.and_eq_true, beq_iff_eq] at h
    exact h.2
  · intro h
    simp only [Bool.and_eq_true, beq_iff_eq]
    refine ⟨?_, h⟩
    have := congrArg List.length h
    simpa using this

/-- An initial segment is found exactly when the string continues it. -/
theorem hasPrefixAt_iff (p s : Str) : hasPrefixAt p s = true ↔ ∃ post : Str, s = p ++ post := by
  induction p generalizing s with
  | nil => simp [hasPrefixAt]
  | cons a p ih =>
    cases s with
    | nil => simp [hasPrefixAt]
    | cons b s =>
      simp only [hasPrefixAt, Bool.and_eq_true, beq_iff_eq, ih, List.cons_append, List.cons.injEq]
      constructor
      · rintro ⟨h1, post, h2⟩
        exact ⟨post, h1.symm, h2⟩
      · rintro ⟨post, h1, h2⟩
        exact ⟨h1.symm, post, h2⟩

/-- The search for a string succeeds exactly when the string is contained. -/
theorem findStr_isSome_iff (p s : Str) (pos : Nat) :
    (∃ k, findStr p s pos = some k) ↔ containsStr s p := by
  induction s generalizing pos with
  | nil =>
    unfold containsStr
    cases p with
    | nil => simp [findStr]
    | cons a p => simp [findStr]
  | cons x xs ih =>
    unfold findStr
    by_cases hp : hasPrefixAt p (x :: xs) = true
    · rw [if_pos hp]
      obtain ⟨post, hpost⟩ := (hasPrefixAt_iff p (x :: xs)).mp hp
      exact ⟨fun _ => ⟨[], post, by simpa using hpost⟩, fun _ => ⟨pos, rfl⟩⟩
    · rw [if_neg hp, ih (pos + 1)]
      unfold containsStr
      constructor
      · rintro ⟨pre, post, h⟩
        exact ⟨x :: pre, post, by simp [h]⟩
      · rintro ⟨pre, post, h⟩
        cases pre with
        | nil =>
          exfalso
          exact hp ((hasPrefixAt_iff p (x :: xs)).mpr ⟨post, by simpa using h⟩)
        | cons y pre =>
          simp only [List.cons_append, List.cons.injEq] at h
          exact ⟨pre, post, h.2⟩

/-- The result of `String::indexOf(const String &)` is not negative exactly
when the string is contained. -/
theorem indexOfStr_nonneg_iff (v p : Str) : indexOfStr v p ≥ 0 ↔ containsStr v p := by
  rw [← findStr_isSome_iff p v 0]
  unfold indexOfStr
  cases h : findStr p v 0 with
  | none => simp
  | some k => simp

/-- The loop of `hasMandatoryHeader` finds a name exactly when the mandatory
list holds an entry equal to it ignoring case. -/
theorem hasMandatoryHeader_iff (s : Server) (name : Str) :
    hasMandatoryHeader s name = true ↔
      ∃ h ∈ s.mandatoryHttpHeaders, sameIgnoringCase h name := by
  unfold hasMandatoryHeader
  simp only [List.any_eq_true, equalsIgnoreCase_iff]

/-- Dropping a run of characters that all satisfy the test. -/
theorem dropWhile_run (p : Char → Bool) (ws rest : Str) (h : ∀ c ∈ ws, p c = true) :
    (ws ++ rest).dropWhile p = rest.dropWhile p := by
  induction ws with
  | nil => rfl
  | cons x xs ih =>
    have hx : p x = true := h x (List.mem_cons_self x xs)
    simp only [List.cons_append, List.dropWhile_cons, hx, if_true]
    exact ih (fun c hc => h c (List.mem_cons_of_mem x hc))

/-- Nothing is dropped from a string whose first character fails the test. -/
theorem dropWhile_stop (p : Char → Bool) (l : Str) (h : ∀ c, l.head? = some c → p c = false) :
    l.dropWhile p = l := by
  cases l with
  | nil => rfl
  | cons x xs =>
    have hx : p x = false := h x rfl
    simp [List.dropWhile_cons, hx]

/-- What is left after dropping does not start with a character that passes the test. -/
theorem head_dropWhile (p : Char → Bool) (l : Str) :
    ∀ c, (l.dropWhile p).head? = some c → p c = false := by
  induction l with
  | nil => intro c h; simp at h
  | cons x xs ih =>
    intro c h
    by_cases hx : p x = true
    · simp only [List.dropWhile_cons, hx, if_true] at h
      exact ih c h
    · simp only [List.dropWhile_cons, hx] at h
      simp only [Bool.false_eq_true, if_false, List.head?_cons, Option.some.injEq] at h
      subst h
      simpa using hx

/-- The operation `String::trim` gives the string without its leading and trailing
whitespace, and nothing else does. -/
theorem isTrimOf_iff (v t : Str) : IsTrimOf v t ↔ t = trim v := by
  constructor
  · rintro ⟨ws1, ws2, hv, h1, h2, hhead, hlast⟩
    subst hv
    unfold trim
    rw [List.append_assoc, dropWhile_run isSpace ws1 _ h1]
    cases t with
    | nil =>
      have : ([] ++ ws2 : Str).dropWhile isSpace = [] := by
        have := dropWhile_run isSpace ws2 [] h2
        simpa using this
      rw [this]
      rfl
    | cons a t =>
      have e1 : (a :: t ++ ws2).dropWhile isSpace = a :: t ++ ws2 :=
        dropWhile_stop isSpace _ (fun c hc => hhead c (by simpa using hc))
      have e2 : ((a :: t ++ ws2).reverse).dropWhile isSpace = (a :: t).reverse := by
        rw [List.reverse_append,
          dropWhile_run isSpace ws2.reverse _ (fun c hc => h2 c (List.mem_reverse.mp hc))]
        exact dropWhile_stop isSpace _ (fun c hc => hlast c (by
          rw [List.head?_reverse] at hc
          exact hc))
      rw [e1, e2, List.reverse_reverse]
  · intro h
    subst h
    refine ⟨v.takeWhile isSpace,
      (((v.dropWhile isSpace).reverse).takeWhile isSpace).reverse, ?_, ?_, ?_, ?_, ?_⟩
    · unfold trim
      rw [List.append_assoc, ← List.reverse_append, List.takeWhile_append_dropWhile,
        List.reverse_reverse, List.takeWhile_append_dropWhile]
    · intro c hc
      exact (List.mem_takeWhile_imp hc)
    · intro c hc
      exact (List.mem_takeWhile_imp (List.mem_reverse.mp hc))
    · intro c hc
      have hb : (v.dropWhile isSpace) =
          trim v ++ (((v.dropWhile isSpace).reverse).takeWhile isSpace).reverse := by
        unfold trim
        rw [← List.reverse_append, List.takeWhile_append_dropWhile, List.reverse_reverse]
      apply head_dropWhile isSpace v c
      rw [hb]
      cases htv : trim v with
      | nil => rw [htv] at hc; simp at hc
      | cons a t =>
        rw [htv] at hc
        simpa using hc
    · intro c hc
      unfold trim at hc
      rw [List.getLast?_reverse] at hc
      exact head_dropWhile isSpace _ c hc

/-- The number denoted by a digit followed by further digits. -/
theorem decimalValue_cons (c : Char) (ds : Str) :
    decimalValue (c :: ds) = (c.toNat - 48) * 10 ^ ds.length + decimalValue ds := by
  unfold decimalValue
  simp only [List.map_cons, List.reverse_cons, Nat.ofDigits_append, List.length_reverse,
    List.length_map, Nat.ofDigits_singleton]
  ring

/-- The digit loop of `atol` computes the number denoted by the leading run
of digits, shifted in behind the accumulator. -/
theorem digitsValue_eq (cs : Str) (acc : Nat) :
    digitsValue cs acc =
      acc * 10 ^ (cs.takeWhile isDecimalDigit).length
        + decimalValue (cs.takeWhile isDecimalDigit) := by
  induction cs generalizing acc with
  | nil => simp [digitsValue, decimalValue]
  | cons c cs ih =>
    unfold digitsValue
    by_cases hc : 48 ≤ c.toNat ∧ c.toNat ≤ 57
    · have hd : isDecimalDigit c = true := by simp [isDecimalDigit, hc]
      rw [if_pos hc, ih, List.takeWhile_cons, hd]
      simp only [if_true, List.length_cons, decimalValue_cons]
      ring
    · have hd : isDecimalDigit c = false := by simp only [isDecimalDigit, hc, decide_False]
      rw [if_neg hc, List.takeWhile_cons, hd]
      simp [decimalValue]

/-- The operation `String::toInt` computes the integer parse. -/
theorem toInt_eq_integerParse (v : Str) : toInt v = integerParse v := by
  unfold toInt integerParse
  cases h : v.dropWhile isSpace with
  | nil => simp [decimalValue]
  | cons c cs =>
    simp only [List.head?_cons, Option.some.injEq, List.tail_cons]
    by_cases h1 : c = '-'
    · subst h1
      simp [digitsValue_eq]
    · by_cases h2 : c = '+'
      · subst h2
        simp [digitsValue_eq]
      · simp [h1, h2, digitsValue_eq]

/-- A trimmed line that does not read `GET ` followed by anything is not
taken for a request line. -/
theorem startsWith_GET_false (line : Str) (h : ∀ r : Str, line ≠ "GET ".toList ++ r) :
    startsWith line "GET ".toList = false := by
  unfold startsWith
  cases hp : hasPrefixAt "GET ".toList line with
  | false => rfl
  | true =>
    obtain ⟨post, hpost⟩ := (hasPrefixAt_iff _ _).mp hp
    exact absurd hpost (h post)

/-- The recognised names, compared through `String::equalsIgnoreCase`. -/
theorem isReservedName_iff (name : Str) : isReservedName name = true ↔ isRecognisedName name := by
  unfold isReservedName reservedHeaderNames isRecognisedName recognisedNames
  simp only [List.any_cons, List.any_nil, Bool.or_false, Bool.or_eq_true, equalsIgnoreCase_iff,
    sameIgnoringCase, List.mem_cons, List.mem_singleton]
  have e1 : "Connection".toList.map toLowerChar = "connection".toList := by decide
  have e2 : "Upgrade".toList.map toLowerChar = "upgrade".toList := by decide
  have e3 : "Sec-WebSocket-Version".toList.map toLowerChar = "sec-websocket-version".toList := by
    decide
  have e4 : "Sec-WebSocket-Key".toList.map toLowerChar = "sec-websocket-key".toList := by decide
  have e5 : "Sec-WebSocket-Protocol".toList.map toLowerChar = "sec-websocket-protocol".toList := by
    decide
  have e6 : "Sec-WebSocket-Extensions".toList.map toLowerChar
      = "sec-websocket-extensions".toList := by decide
  have e7 : "Authorization".toList.map toLowerChar = "authorization".toList := by decide
  rw [e1, e2, e3, e4, e5, e6, e7]
  simp only [List.not_mem_nil, or_false]

/-! ## Recognised and custom headers -/

/-- C14: a header line that is not a request line - its content between the
leading and trailing whitespace is `name`, a colon and `rest`, with no colon
in `name`, and does not read `GET ` followed by anything - is split at its
first colon into `name` and a value, which is `rest` less at most one leading
space. For a name equal ignoring case to a recognised name `handleHeader` sets
exactly the corresponding field and invokes no validator: Sec-WebSocket-Key
sets cKey to the value without its leading and trailing whitespace;
Sec-WebSocket-Protocol, Sec-WebSocket-Extensions and Authorization set
cProtocol, cExtensions and base64Authorization to the value;
Sec-WebSocket-Version sets cVersion to the integer the value parses to;
Connection sets cIsUpgrade when the lower-cased value contains `upgrade` as a
contiguous part and changes nothing otherwise; Upgrade sets cIsWebsocket when
the value equals `websocket` ignoring case and changes nothing otherwise. -/
theorem C14_recognised_headers (acceptKey : Str → Str) (s : Server) (client : WSclient_t)
    (l name rest : Str) (hl : IsTrimOf l (name ++ ':' :: rest)) (hname : ':' ∉ name)
    (hreq : ∀ r : Str, name ++ ':' :: rest ≠ "GET ".toList ++ r) :
    (sameIgnoringCase name "Sec-WebSocket-Key".toList →
      ∀ k : Str, IsTrimOf (stripOneSpace rest) k →
        handleHeader acceptKey s client l = ({ client with cKey := k }, [])) ∧
    (sameIgnoringCase name "Sec-WebSocket-Protocol".toList →
      handleHeader acceptKey s client l =
        ({ client with cProtocol := stripOneSpace rest }, [])) ∧
    (sameIgnoringCase name "Sec-WebSocket-Extensions".toList →
      handleHeader acceptKey s client l =
        ({ client with cExtensions := stripOneSpace rest }, [])) ∧
    (sameIgnoringCase name "Authorization".toList →
      handleHeader acceptKey s client l =
        ({ client with base64Authorization := stripOneSpace rest }, [])) ∧
    (sameIgnoringCase name "Sec-WebSocket-Version".toList →
      handleHeader acceptKey s client l =
        ({ client with cVersion := integerParse (stripOneSpace rest) }, [])) ∧
    (sameIgnoringCase name "Connection".toList →
      (containsStr ((stripOneSpace rest).map toLowerChar) "upgrade".toList →
        handleHeader acceptKey s client l = ({ client with cIsUpgrade := true }, [])) ∧
      (¬ containsStr ((stripOneSpace rest).map toLowerChar) "upgrade".toList →
        handleHeader acceptKey s client l = (client, []))) ∧
    (sameIgnoringCase name "Upgrade".toList →
      (sameIgnoringCase (stripOneSpace rest) "websocket".toList →
        handleHeader acceptKey s client l = ({ client with cIsWebsocket := true }, [])) ∧
      (¬ sameIgnoringCase (stripOneSpace rest) "websocket".toList →
        handleHeader acceptKey s client l = (client, []))) := by
  have hl2 : trim l = name ++ ':' :: rest := ((isTrimOf_iff _ _).mp hl).symm
  have hreq2 : startsWith (trim l) "GET ".toList = false := by
    rw [hl2]; exact startsWith_GET_false _ hreq
  rw [handleHeader_split acceptKey s client l name rest hl2 hname hreq2]
  refine ⟨?_, ?_, ?_, ?_, ?_, ?_, ?_⟩
  · intro h k hk
    rw [handleHeaderField_Key s client name _ ((equalsIgnoreCase_iff _ _).mpr h),
      (isTrimOf_iff _ _).mp hk]
  · intro h
    exact handleHeaderField_Protocol s client name _ ((equalsIgnoreCase_iff _ _).mpr h)
  · intro h
    exact handleHeaderField_Extensions s client name _ ((equalsIgnoreCase_iff _ _).mpr h)
  · intro h
    exact handleHeaderField_Authorization s client name _ ((equalsIgnoreCase_iff _ _).mpr h)
  · intro h
    rw [handleHeaderField_Version s client name _ ((equalsIgnoreCase_iff _ _).mpr h),
      toInt_eq_integerParse]
  · intro h
    rw [handleHeaderField_Connection s client name _ ((equalsIgnoreCase_iff _ _).mpr h)]
    have hlow : toLowerCase (stripOneSpace rest) = (stripOneSpace rest).map toLowerChar := rfl
    rw [hlow]
    constructor
    · intro hc
      rw [if_pos ((indexOfStr_nonneg_iff _ _).mpr hc)]
    · intro hc
      rw [if_neg (fun hx => hc ((indexOfStr_nonneg_iff _ _).mp hx))]
  · intro h
    rw [handleHeaderField_Upgrade s client name _ ((equalsIgnoreCase_iff _ _).mpr h)]
    constructor
    · intro hc
      rw [if_pos ((equalsIgnoreCase_iff _ _).mpr hc)]
    · intro hc
      rw [if_neg (fun hx => hc ((equalsIgnoreCase_iff _ _).mp hx))]

/-- C14 at concrete lines: a version header in mixed case sets the version to
the number 13 that its digits denote, and a Connection header naming `Upgrade`
among other tokens sets the upgrade flag. -/
theorem C14_recognised_headers_witness :
    handleHeader sampleAcceptKey sampleServer sampleClient
        "sec-websocket-VERSION: 13\r".toList = ({ sampleClient with cVersion := 13 }, []) ∧
    handleHeader sampleAcceptKey sampleServer sampleClient
        " Connection:keep-alive, Upgrade\r".toList = ({ sampleClient with cIsUpgrade := true }, []) :=
  ⟨(C14_recognised_headers sampleAcceptKey sampleServer sampleClient
      "sec-websocket-VERSION: 13\r".toList "sec-websocket-VERSION".toList " 13".toList
      ⟨[], "\r".toList, by decide, by decide, by decide, by decide, by decide⟩ (by decide)
      (by intro r h; simp at h)).2.2.2.2.1 (by decide),
   ((C14_recognised_headers sampleAcceptKey sampleServer sampleClient
      " Connection:keep-alive, Upgrade\r".toList "Connection".toList
      "keep-alive, Upgrade".toList
      ⟨" ".toList, "\r".toList, by decide, by decide, by decide, by decide, by decide⟩
      (by decide) (by intro r h; simp at h)).2.2.2.2.2.1 (by decide)).1
    ⟨"keep-alive, ".toList, [], by decide⟩⟩

/-- C15: for a header line that is not a request line (as in C14: its content
between the leading and trailing whitespace is `name`, a colon and `rest`)
whose name is none of the seven recognised names ignoring case, `handleHeader`
invokes the header validator exactly once, with the name and the value, and
sets cHttpHeadersValid to its previous value AND the validator result (the
answer of the registered predicate; true when none is registered); it
increments cMandatoryHeadersCount by one (as a `size_t`; plainly by one below
the maximum) when the mandatory list is non-empty and holds an entry equal to
the name ignoring case, and leaves the count as it is otherwise. For a
recognised name the validator is not invoked and neither cHttpHeadersValid nor
the count changes. -/
theorem C15_custom_headers (acceptKey : Str → Str) (s : Server) (client : WSclient_t)
    (l name rest : Str) (hl : IsTrimOf l (name ++ ':' :: rest)) (hname : ':' ∉ name)
    (hreq : ∀ r : Str, name ++ ':' :: rest ≠ "GET ".toList ++ r) :
    (¬ isRecognisedName name →
      (handleHeader acceptKey s client l).2
        = [.httpHeaderValidation name (stripOneSpace rest)] ∧
      (handleHeader acceptKey s client l).1.cHttpHeadersValid
        = (client.cHttpHeadersValid && execHttpHeaderValidation s name (stripOneSpace rest)) ∧
      (∀ f : Str → Str → Bool, s.httpHeaderValidationFunc = some f →
        (handleHeader acceptKey s client l).1.cHttpHeadersValid
          = (client.cHttpHeadersValid && f name (stripOneSpace rest))) ∧
      (s.httpHeaderValidationFunc = none →
        (handleHeader acceptKey s client l).1.cHttpHeadersValid = client.cHttpHeadersValid) ∧
      ((s.mandatoryHttpHeaders ≠ [] ∧ ∃ h ∈ s.mandatoryHttpHeaders, sameIgnoringCase h name) →
        (handleHeader acceptKey s client l).1.cMandatoryHeadersCount
            = (client.cMandatoryHeadersCount + 1) % 4294967296 ∧
        (client.cMandatoryHeadersCount + 1 < 4294967296 →
          (handleHeader acceptKey s client l).1.cMandatoryHeadersCount
            = client.cMandatoryHeadersCount + 1)) ∧
      (¬ (s.mandatoryHttpHeaders ≠ [] ∧ ∃ h ∈ s.mandatoryHttpHeaders, sameIgnoringCase h name) →
        (handleHeader acceptKey s client l).1.cMandatoryHeadersCount
          = client.cMandatoryHeadersCount)) ∧
    (isRecognisedName name →
      (handleHeader acceptKey s client l).2 = [] ∧
      (handleHeader acceptKey s client l).1.cHttpHeadersValid = client.cHttpHeadersValid ∧
      (handleHeader acceptKey s client l).1.cMandatoryHeadersCount
        = client.cMandatoryHeadersCount) := by
  have hl2 : trim l = name ++ ':' :: rest := ((isTrimOf_iff _ _).mp hl).symm
  have hreq2 : startsWith (trim l) "GET ".toList = false := by
    rw [hl2]; exact startsWith_GET_false _ hreq
  rw [handleHeader_split acceptKey s client l name rest hl2 hname hreq2]
  have hcnt : s.mandatoryHttpHeaderCount > 0 ↔ s.mandatoryHttpHeaders ≠ [] := by
    unfold Server.mandatoryHttpHeaderCount
    exact List.length_pos
  constructor
  · intro h
    have hres : isReservedName name = false := by
      cases hr : isReservedName name with
      | false => rfl
      | true => exact absurd ((isReservedName_iff name).mp hr) h
    rw [handleHeaderField_custom s client name _ hres]
    refine ⟨rfl, rfl, ?_, ?_, ?_, ?_⟩
    · intro f hf
      simp only [execHttpHeaderValidation, hf]
    · intro hf
      simp only [execHttpHeaderValidation, hf, Bool.and_true]
    · intro hm
      have hm2 : s.mandatoryHttpHeaderCount > 0 ∧ hasMandatoryHeader s name = true :=
        ⟨hcnt.mpr hm.1, (hasMandatoryHeader_iff s name).mpr hm.2⟩
      simp only [if_pos hm2]
      exact ⟨trivial, fun hfit => Nat.mod_eq_of_lt hfit⟩
    · intro hm
      have hm2 : ¬ (s.mandatoryHttpHeaderCount > 0 ∧ hasMandatoryHeader s name = true) :=
        fun hx => hm ⟨hcnt.mp hx.1, (hasMandatoryHeader_iff s name).mp hx.2⟩
      simp only [if_neg hm2]
  · intro h
    have h := (isReservedName_iff name).mpr h
    unfold isReservedName reservedHeaderNames at h
    simp only [List.any_cons, List.any_nil, Bool.or_false, Bool.or_eq_true] at h
    rcases h with h | h | h | h | h | h | h
    · rw [handleHeaderField_Connection s client name _ h]
      split_ifs <;> exact ⟨rfl, rfl, rfl⟩
    · rw [handleHeaderField_Upgrade s client name _ h]
      split_ifs <;> exact ⟨rfl, rfl, rfl⟩
    · rw [handleHeaderField_Version s client name _ h]; exact ⟨rfl, rfl, rfl⟩
    · rw [handleHeaderField_Key s client name _ h]; exact ⟨rfl, rfl, rfl⟩
    · rw [handleHeaderField_Protocol s client name _ h]; exact ⟨rfl, rfl, rfl⟩
    · rw [handleHeaderField_Extensions s client name _ h]; exact ⟨rfl, rfl, rfl⟩
    · rw [handleHeaderField_Authorization s client name _ h]; exact ⟨rfl, rfl, rfl⟩

/-- C15 at concrete lines on the server with mandatory headers `X-A` and
`X-B`: the header `x-a` is validated once and counted, the header `X-C` is
validated once and not counted. -/
theorem C15_custom_headers_witness :
    ((handleHeader sampleAcceptKey mandatoryServer sampleClient "x-a: 1\r".toList).2
        = [.httpHeaderValidation "x-a".toList (stripOneSpace " 1".toList)] ∧
      (handleHeader sampleAcceptKey mandatoryServer sampleClient
          "x-a: 1\r".toList).1.cMandatoryHeadersCount
        = sampleClient.cMandatoryHeadersCount + 1) ∧
    ((handleHeader sampleAcceptKey mandatoryServer sampleClient "X-C: 1\r".toList).2
        = [.httpHeaderValidation "X-C".toList (stripOneSpace " 1".toList)] ∧
      (handleHeader sampleAcceptKey mandatoryServer sampleClient
          "X-C: 1\r".toList).1.cMandatoryHeadersCount
        = sampleClient.cMandatoryHeadersCount) :=
  ⟨⟨((C15_custom_headers sampleAcceptKey mandatoryServer sampleClient "x-a: 1\r".toList
        "x-a".toList " 1".toList
        ⟨[], "\r".toList, by decide, by decide, by decide, by decide, by decide⟩ (by decide)
        (by intro r h; simp at h)).1 (by decide)).1,
    (((C15_custom_headers sampleAcceptKey mandatoryServer sampleClient "x-a: 1\r".toList
        "x-a".toList " 1".toList
        ⟨[], "\r".toList, by decide, by decide, by decide, by decide, by decide⟩ (by decide)
        (by intro r h; simp at h)).1 (by decide)).2.2.2.2.1
        ⟨by decide, "X-A".toList, by decide, by decide⟩).2 (by decide)⟩,
   ⟨((C15_custom_headers sampleAcceptKey mandatoryServer sampleClient "X-C: 1\r".toList
        "X-C".toList " 1".toList
        ⟨[], "\r".toList, by decide, by decide, by decide, by decide, by decide⟩ (by decide)
        (by intro r h; simp at h)).1 (by decide)).1,
    ((C15_custom_headers sampleAcceptKey mandatoryServer sampleClient "X-C: 1\r".toList
        "X-C".toList " 1".toList
        ⟨[], "\r".toList, by decide, by decide, by decide, by decide, by decide⟩ (by decide)
        (by intro r h; simp at h)).1 (by decide)).2.2.2.2.2
        (by
          rintro ⟨_, h, hmem, hsame⟩
          have hmem2 : h = "X-A".toList ∨ h = "X-B".toList := by
            simpa [mandatoryServer, onValidateHttpHeader] using hmem
          rcases hmem2 with e | e <;> subst e <;> exact absurd hsame (by decide))⟩⟩

/-! ## Header validation over a request -/

/-- Feeding one sequence of lines after another. -/
theorem handleHeaders_concat (acceptKey : Str → Str) (s : Server) (l1 l2 : List Str) :
    ∀ client : WSclient_t,
      (handleHeaders acceptKey s client (l1 ++ l2)).1 =
        (handleHeaders acceptKey s (handleHeaders acceptKey s client l1).1 l2).1 := by
  induction l1 with
  | nil => intro client; rfl
  | cons l ls ih => intro client; simp [handleHeaders, ih]

/-- Teardown does not touch the validity flag. -/
theorem clientDisconnect_valid (client : WSclient_t) :
    (clientDisconnect client).1.cHttpHeadersValid = client.cHttpHeadersValid := by
  unfold clientDisconnect
  simp only []
  split <;> rfl

/-- The end-of-headers branch does not touch the validity flag. -/
theorem handleHeaderEnd_valid (acceptKey : Str → Str) (s : Server) (client : WSclient_t) :
    (handleHeaderEnd acceptKey s client).1.cHttpHeadersValid = client.cHttpHeadersValid := by
  unfold handleHeaderEnd
  simp only []
  split_ifs
  · exact clientDisconnect_valid client
  · rfl
  · exact clientDisconnect_valid client

/-- A line that is not a request line cannot restore a lost validity flag. -/
theorem invalid_stays (acceptKey : Str → Str) (s : Server) (client : WSclient_t) (m : Str)
    (hm : isRequestLine m = false) (hv : client.cHttpHeadersValid = false) :
    (handleHeader acceptKey s client m).1.cHttpHeadersValid = false := by
  unfold isRequestLine at hm
  unfold handleHeader
  simp only [hm, Bool.false_eq_true, if_false]
  split_ifs
  · unfold handleHeaderField
    split_ifs <;> simp [hv]
  · exact hv
  · rw [handleHeaderEnd_valid]; exact hv

/-- Lines that are not request lines cannot restore a lost validity flag. -/
theorem invalid_stays_list (acceptKey : Str → Str) (s : Server) (ms : List Str) :
    ∀ client : WSclient_t, (∀ m ∈ ms, isRequestLine m = false) →
      client.cHttpHeadersValid = false →
      (handleHeaders acceptKey s client ms).1.cHttpHeadersValid = false := by
  induction ms with
  | nil => intro client _ hv; exact hv
  | cons m ms ih =>
    intro client hms hv
    exact ih _ (fun m' hm' => hms m' (List.mem_cons_of_mem _ hm'))
      (invalid_stays acceptKey s client m (hms m (List.mem_cons_self _ _)) hv)

/-- A custom header that fails validation clears the validity flag. -/
theorem custom_failure_invalidates (acceptKey : Str → Str) (s : Server) (client : WSclient_t)
    (bad : Str) (hbad : isCustomHeaderLine bad = true)
    (hfail : execHttpHeaderValidation s (headerNameOf (trim bad)) (headerValueOfLine bad) = false) :
    (handleHeader acceptKey s client bad).1.cHttpHeadersValid = false := by
  unfold isCustomHeaderLine isRequestLine at hbad
  simp only [Bool.and_eq_true, Bool.not_eq_true', decide_eq_true_eq] at hbad
  obtain ⟨⟨h1, h2⟩, h3⟩ := hbad
  have hne : (trim bad).length > 0 := by
    cases ht : trim bad with
    | nil => rw [ht] at h2; revert h2; decide
    | cons x xs => simp
  unfold handleHeader
  simp only [h1, Bool.false_eq_true, if_false, if_pos hne, if_pos h2]
  rw [handleHeaderField_custom s client _ _ h3]
  unfold headerValueOfLine at hfail
  simp [hfail]

/-- A slot is CONNECTED after an empty line only if the flag `ok` was set. -/
theorem connected_after_end_ok (acceptKey : Str → Str) (s : Server) (client : WSclient_t)
    (e : Str) (he : trim e = [])
    (h : (handleHeader acceptKey s client e).1.status = .WSC_CONNECTED) :
    handshakeOk s client = true := by
  unfold handleHeader handleHeaderEnd at h
  simp only [he, List.length_nil, gt_iff_lt, lt_self_iff_false, if_false] at h
  split_ifs at h with h1 h2
  · simp [handleAuthorizationFailed, (clientDisconnect_status client).1] at h
  · exact h2
  · simp [handleNonWebsocketConnection, (clientDisconnect_status client).1] at h

/-- C12 (as stated, refuted): the validator rejects the `X-Token` header of the
request, which precedes the request line; the request line resets the validity
flag and the slot becomes CONNECTED. -/
theorem C12_failure_before_request_line_forgotten :
    isCustomHeaderLine "X-Token: bad\r".toList = true ∧
    execHttpHeaderValidation validatingServer "X-Token".toList "bad".toList = false ∧
    (handleHeaders sampleAcceptKey validatingServer sampleClient
      (tokenFirstRequest ++ ["\r".toList])).1.status = .WSC_CONNECTED := by
  refine ⟨by decide, by decide, by decide⟩

/-- C12 (amended): if a custom header line fails validation and no request
line follows it, then at the end of headers the connection is not accepted:
for every sequence of header lines in which such a header occurs after the
last request line, the slot is not CONNECTED after the final empty line,
whatever precedes the failing header. -/
theorem C12_failed_validation_rejects (acceptKey : Str → Str) (s : Server)
    (client : WSclient_t) (pre post : List Str) (bad e : Str)
    (hbad : isCustomHeaderLine bad = true)
    (hfail : execHttpHeaderValidation s (headerNameOf (trim bad)) (headerValueOfLine bad) = false)
    (hpost : ∀ m ∈ post, isRequestLine m = false) (he : trim e = []) :
    (handleHeaders acceptKey s client (pre ++ bad :: post ++ [e])).1.status
      ≠ .WSC_CONNECTED := by
  intro hconn
  rw [handleHeaders_append, handleHeaders_concat] at hconn
  have hok := connected_after_end_ok acceptKey s _ e he hconn
  have hvalid := ((handshakeOk_iff s _).mp hok).2.2.2.2.2.1
  have hinv : (handleHeaders acceptKey s (handleHeaders acceptKey s client pre).1
      (bad :: post)).1.cHttpHeadersValid = false := by
    show (handleHeaders acceptKey s
      (handleHeader acceptKey s (handleHeaders acceptKey s client pre).1 bad).1
      post).1.cHttpHeadersValid = false
    exact invalid_stays_list acceptKey s post _ hpost
      (custom_failure_invalidates acceptKey s _ bad hbad hfail)
  rw [hinv] at hvalid
  cases hvalid

/-- C12 (amended) at a concrete request: the rejected `X-Token` header follows
the request line and the request is refused. -/
theorem C12_failed_validation_rejects_witness :
    (handleHeaders sampleAcceptKey validatingServer sampleClient
      (["GET /chat HTTP/1.1\r".toList] ++ "X-Token: bad\r".toList ::
        ["Connection: Upgrade\r".toList, "Upgrade: websocket\r".toList,
         "Sec-WebSocket-Version: 13\r".toList, "Sec-WebSocket-Key: dGhlIHNhbXBsZQ==\r".toList]
        ++ ["\r".toList])).1.status ≠ .WSC_CONNECTED :=
  C12_failed_validation_rejects sampleAcceptKey validatingServer sampleClient
    ["GET /chat HTTP/1.1\r".toList]
    ["Connection: Upgrade\r".toList, "Upgrade: websocket\r".toList,
     "Sec-WebSocket-Version: 13\r".toList, "Sec-WebSocket-Key: dGhlIHNhbXBsZQ==\r".toList]
    "X-Token: bad\r".toList "\r".toList (by decide) (by decide) (by decide) (by decide)

/-- C13 (the code at the failing input): with the distinct mandatory headers
`X-A` and `X-B` configured, a request that sends `X-A` twice and `X-B` not at
all reaches a mandatory-header count of 2 and is accepted. -/
theorem C13_repeated_header_accepted :
    (∀ l ∈ repeatedHeaderRequest, isHeaderLine "X-B".toList l = false) ∧
    (handleHeaders sampleAcceptKey mandatoryServer sampleClient
      repeatedHeaderRequest).1.cMandatoryHeadersCount = 2 ∧
    (handleHeaders sampleAcceptKey mandatoryServer sampleClient
      (repeatedHeaderRequest ++ ["\r".toList])).1.status = .WSC_CONNECTED := by
  refine ⟨by decide, by decide, by decide⟩

/-! ## The request path -/

/-- A trimmed line `GET p rest` yields the path `p`. -/
theorem requestPath_split (p rest : Str) (hp : ' ' ∉ p) :
    substring ("GET ".toList ++ p ++ ' ' :: rest) 4
        (indexOfFrom ("GET ".toList ++ p ++ ' ' :: rest) ' ' 4) = p := by
  have hdrop : ("GET ".toList ++ p ++ ' ' :: rest).drop 4 = p ++ ' ' :: rest := by
    rw [List.append_assoc]
    exact List.drop_left' rfl
  unfold indexOfFrom
  rw [hdrop, findChar_append_found ' ' p rest hp 4]
  have := substring_mid "GET ".toList p (' ' :: rest)
  simpa using this

/-- A trimmed line `GET p` without a further space yields the path `p`. -/
theorem requestPath_to_end (p : Str) (hp : ' ' ∉ p) :
    substring ("GET ".toList ++ p) 4 (indexOfFrom ("GET ".toList ++ p) ' ' 4) = p := by
  have hdrop : ("GET ".toList ++ p).drop 4 = p := List.drop_left' rfl
  unfold indexOfFrom
  rw [hdrop, findChar_absent ' ' p hp 4]
  unfold substring
  have hlen : ("GET ".toList ++ p).length = 4 + p.length := by rw [List.length_append]; rfl
  simp only [show ((-1 : Int) < 0) from by decide, if_true, hlen,
    show ¬ (4 > 4 + p.length) from by omega, if_false, Nat.min_self]
  split_ifs with h
  · have : p.length = 0 := by omega
    exact (List.length_eq_zero.mp this).symm
  · rw [← hlen, List.take_length]
    exact List.drop_left' rfl

/-- A trimmed line that begins with `GET ` is a request line. -/
theorem startsWith_GET (x : Str) : startsWith ("GET ".toList ++ x) "GET ".toList = true := by
  show hasPrefixAt ['G', 'E', 'T', ' '] ('G' :: 'E' :: 'T' :: ' ' :: x) = true
  simp [hasPrefixAt]

/-- The request line sets the path and resets the validation state. -/
theorem handleHeader_requestLine (acceptKey : Str → Str) (s : Server) (client : WSclient_t)
    (l p rest : Str) (hp : ' ' ∉ p)
    (hform : trim l = "GET ".toList ++ p ++ ' ' :: rest ∨ trim l = "GET ".toList ++ p) :
    handleHeader acceptKey s client l =
      ({ client with cUrl := p, cHttpHeadersValid := true, cMandatoryHeadersCount := 0 }, []) := by
  unfold handleHeader
  simp only []
  rcases hform with h | h
  · have hlen : (trim l).length > 0 := by rw [h]; simp
    rw [if_pos hlen, h, List.append_assoc, startsWith_GET, if_pos rfl, ← List.append_assoc,
      requestPath_split p rest hp]
  · have hlen : (trim l).length > 0 := by rw [h]; simp
    rw [if_pos hlen, h, startsWith_GET, if_pos rfl, requestPath_to_end p hp]

/-- A line that is neither a request line nor empty leaves the path and the
slot number alone. -/
theorem path_kept (acceptKey : Str → Str) (s : Server) (client : WSclient_t) (m : Str)
    (hm : isRequestLine m = false) (hne : trim m ≠ []) :
    (handleHeader acceptKey s client m).1.cUrl = client.cUrl ∧
      (handleHeader acceptKey s client m).1.num = client.num := by
  unfold isRequestLine at hm
  have hlen : (trim m).length > 0 := List.length_pos.mpr hne
  unfold handleHeader
  simp only [hm, Bool.false_eq_true, if_false, if_pos hlen]
  split_ifs
  · unfold handleHeaderField
    split_ifs <;> exact ⟨rfl, rfl⟩
  · exact ⟨rfl, rfl⟩

/-- Lines that are neither request lines nor empty leave the path and the slot
number alone. -/
theorem path_kept_list (acceptKey : Str → Str) (s : Server) (ms : List Str) :
    ∀ client : WSclient_t, (∀ m ∈ ms, isRequestLine m = false ∧ trim m ≠ []) →
      (handleHeaders acceptKey s client ms).1.cUrl = client.cUrl ∧
        (handleHeaders acceptKey s client ms).1.num = client.num := by
  induction ms with
  | nil => intro client _; exact ⟨rfl, rfl⟩
  | cons m ms ih =>
    intro client hms
    have h1 := path_kept acceptKey s client m (hms m (List.mem_cons_self _ _)).1
      (hms m (List.mem_cons_self _ _)).2
    have h2 := ih (handleHeader acceptKey s client m).1
      (fun m' hm' => hms m' (List.mem_cons_of_mem _ hm'))
    exact ⟨h2.1.trans h1.1, h2.2.trans h1.2⟩

/-- C16 (as stated, refuted): the line `GET ` + p + ` ` + rest with the empty
path p and rest the carriage return is trimmed to `GET`, which is no request
line: the path of the slot is not set to p but keeps its earlier value. -/
theorem C16_blank_request_line_keeps_path :
    "GET  \r".toList = "GET ".toList ++ [] ++ ' ' :: "\r".toList ∧
    sampleReadyClient.cUrl = "/chat".toList ∧
    (handleHeader sampleAcceptKey sampleServer sampleReadyClient "GET  \r".toList).1.cUrl
      = "/chat".toList ∧
    (handleHeader sampleAcceptKey sampleServer sampleReadyClient "GET  \r".toList).1.cUrl
      ≠ [] := by
  refine ⟨by decide, by decide, by decide, by decide⟩

/-- C16 (amended): `handleHeader` trims the line first; when the trimmed line
is `GET ` + p + ` ` + rest, or `GET ` + p up to its end, with no space in p,
cUrl is set to exactly p (and the validation state is reset), also when p
contains a colon: the request-line branch comes first. If the lines that
follow are neither request lines nor empty and the handshake is then accepted,
the payload of the Connected event is p with its length. -/
theorem C16_request_path (acceptKey : Str → Str) (s : Server) (client : WSclient_t)
    (l p rest e : Str) (more : List Str) (hp : ' ' ∉ p)
    (hform : trim l = "GET ".toList ++ p ++ ' ' :: rest ∨ trim l = "GET ".toList ++ p)
    (hmore : ∀ m ∈ more, isRequestLine m = false ∧ trim m ≠ []) (he : trim e = [])
    (hauth : authorizationPasses s
      (handleHeaders acceptKey s (handleHeader acceptKey s client l).1 more).1)
    (hacc : acceptCondition s
      (handleHeaders acceptKey s (handleHeader acceptKey s client l).1 more).1) :
    handleHeader acceptKey s client l =
      ({ client with cUrl := p, cHttpHeadersValid := true, cMandatoryHeadersCount := 0 }, []) ∧
    (handleHeader acceptKey s
        (handleHeaders acceptKey s (handleHeader acceptKey s client l).1 more).1 e).2.filter
        Effect.isConnectedEvent
      = [.cbEvent client.num .WStype_CONNECTED (some p) p.length] := by
  have h1 := handleHeader_requestLine acceptKey s client l p rest hp hform
  have h2 := path_kept_list acceptKey s more (handleHeader acceptKey s client l).1 hmore
  have hurl : (handleHeader acceptKey s client l).1.cUrl = p := by rw [h1]
  have hnum : (handleHeader acceptKey s client l).1.num = client.num := by rw [h1]
  refine ⟨h1, ?_⟩
  rw [handleHeader_accepted acceptKey s _ e he hauth hacc, h2.1, h2.2, hurl, hnum]
  rfl

/-- C16 (amended) at the sample request: the path `/chat` of the request line
is the payload of the Connected event. -/
theorem C16_request_path_witness :
    (handleHeader sampleAcceptKey sampleServer
        (handleHeaders sampleAcceptKey sampleServer
          (handleHeader sampleAcceptKey sampleServer sampleClient
            "GET /chat HTTP/1.1\r".toList).1 sampleRequest.tail).1 "\r".toList).2.filter
        Effect.isConnectedEvent
      = [.cbEvent sampleClient.num .WStype_CONNECTED (some "/chat".toList) "/chat".toList.length] :=
  (C16_request_path sampleAcceptKey sampleServer sampleClient "GET /chat HTTP/1.1\r".toList
    "/chat".toList "HTTP/1.1".toList "\r".toList sampleRequest.tail (by decide)
    (Or.inl (by decide)) (by decide) (by decide) (by decide) (by decide)).2

/-! ## The Engine.IO / Socket.IO client layer -/

/-- C19: on an underlying Text event of length at least 1 whose byte 0 is the
Engine.IO ping type, `handleCbEvent` performs exactly one action, a text send
of the same length without header space in the payload, invokes no layer
callback, and the bytes sent are the inbound bytes with byte 0 replaced by the
pong type and every other byte unchanged. -/
theorem C19_ping_pong (payload : List Nat) (length : Nat) (hlen : length ≥ 1)
    (hbuf : length ≤ payload.length) (hping : payload.getD 0 0 = eIOtype_PING) :
    SocketIOclient.handleCbEvent .WStype_TEXT (some payload) length
      = [.sendTXT (payload.set 0 eIOtype_PONG) length false] ∧
    ((payload.set 0 eIOtype_PONG).take length).length = length ∧
    (payload.set 0 eIOtype_PONG).take length = (payload.take length).set 0 eIOtype_PONG ∧
    ((payload.set 0 eIOtype_PONG).take length)[0]? = some eIOtype_PONG ∧
    (∀ i, i ≠ 0 → ((payload.set 0 eIOtype_PONG).take length)[i]? = (payload.take length)[i]?) := by
  have h1 : ¬ (length < 1) := by omega
  have hset : (payload.set 0 eIOtype_PONG).take length = (payload.take length).set 0 eIOtype_PONG := by
    cases payload with
    | nil => simp
    | cons b bs =>
      cases length with
      | zero => omega
      | succ n => simp
  refine ⟨?_, ?_, hset, ?_, ?_⟩
  · unfold SocketIOclient.handleCbEvent
    simp only [if_neg h1, Option.getD_some, hping, if_true]
  · rw [List.length_take, List.length_set]
    omega
  · rw [hset, List.getElem?_set]
    simp only [if_true, List.length_take]
    rw [if_pos (by omega)]
  · intro i hi
    rw [hset, List.getElem?_set_ne (Ne.symm hi)]

/-- C19 at a concrete message: the ping `2probe` is answered by `3probe`. -/
theorem C19_ping_pong_witness :
    SocketIOclient.handleCbEvent .WStype_TEXT (some [2, 112, 114, 111, 98, 101]) 6
      = [.sendTXT ([2, 112, 114, 111, 98, 101].set 0 eIOtype_PONG) 6 false] :=
  (C19_ping_pong [2, 112, 114, 111, 98, 101] 6 (by decide) (by decide) (by decide)).1

/-- C20: for a connected client, `headerToPayload` false and a payload of
length n > 0, `send` first asks for a text frame header with fin set declaring
n + 2 payload bytes, then (only if that call succeeded) writes the two bytes
Engine.IO message type and Socket.IO type, then (only if that call succeeded)
writes the n payload bytes; it returns true exactly when all three calls
succeed, where the outcome of each call is its own (`tx 0`, `tx 1`, `tx 2`),
whatever bytes the calls carry. `sendEVENT` is `send` with the Socket.IO EVENT
type, so sending `hello` with every call succeeding puts message type, event
type and the five letters on the wire after the header. -/
theorem C20_send_frame (tx : Nat → Bool) (type : Nat) (payload : List Nat) (n : Nat)
    (hn : n > 0) (hbuf : payload.length = n) :
    SocketIOclient.send true tx type (some payload) n false =
      (tx 0 && tx 1 && tx 2,
       [.sendFrameHeader .WSop_text (n + 2) true] ++
        (if tx 0 = true then
          [.write [eIOtype_MESSAGE, type]] ++ (if tx 1 = true then [.write payload] else [])
         else [])) ∧
    ((SocketIOclient.send true tx type (some payload) n false).1 = true ↔
      (tx 0 = true ∧ tx 1 = true ∧ tx 2 = true)) ∧
    (∀ (connected : Bool) (p : Option (List Nat)) (k : Nat) (h : Bool),
      SocketIOclient.sendEVENT connected tx p k h
        = SocketIOclient.send connected tx sIOtype_EVENT p k h) ∧
    SocketIOclient.sendEVENT true (fun _ => true) (some [104, 101, 108, 108, 111]) 5 false =
      (true, [.sendFrameHeader .WSop_text 7 true, .write [eIOtype_MESSAGE, sIOtype_EVENT],
              .write [104, 101, 108, 108, 111]]) := by
  have hn0 : n ≠ 0 := by omega
  have htake : payload.take n = payload := by rw [← hbuf, List.take_length]
  have hsend : SocketIOclient.send true tx type (some payload) n false =
      (tx 0 && tx 1 && tx 2,
       [.sendFrameHeader .WSop_text (n + 2) true] ++
        (if tx 0 = true then
          [.write [eIOtype_MESSAGE, type]] ++ (if tx 1 = true then [.write payload] else [])
         else [])) := by
    unfold SocketIOclient.send
    simp only [if_neg hn0, if_true, Bool.not_false, Option.getD_some, htake, Option.isSome_some,
      Bool.and_true, hn, decide_True, List.length_singleton]
    cases h1 : tx 0 <;> cases h2 : tx 1 <;> cases h3 : tx 2 <;> simp [h2, h3]
  refine ⟨hsend, ?_, fun _ _ _ _ => rfl, by decide⟩
  rw [hsend]
  simp only [Bool.and_eq_true, and_assoc]

/-- C20 at a concrete message whose payload bytes equal the two header bytes:
the header bytes are written (call 1 succeeds), the same bytes as payload are
not (call 2 fails), and the result is false after all three calls. -/
theorem C20_send_frame_witness :
    SocketIOclient.send true (fun k => decide (k < 2)) sIOtype_EVENT
        (some [eIOtype_MESSAGE, sIOtype_EVENT]) 2 false =
      (false, [.sendFrameHeader .WSop_text 4 true, .write [eIOtype_MESSAGE, sIOtype_EVENT],
               .write [eIOtype_MESSAGE, sIOtype_EVENT]]) :=
  (C20_send_frame (fun k => decide (k < 2)) sIOtype_EVENT [eIOtype_MESSAGE, sIOtype_EVENT] 2
    (by decide) (by decide)).1

/-! ## Dispatch of the Engine.IO / Socket.IO client layer -/

/-- C21: on an underlying Text event whose byte 0 is the Engine.IO message
type, with length at least 2 `handleCbEvent` invokes the layer callback exactly
once, with kind byte 1 (whatever its value), the payload starting at byte 2
and length the total length less 2, and sends nothing; with length exactly 1,
and for an empty text, it does nothing at all. -/
theorem C21_message_dispatch (payload : List Nat) (length : Nat)
    (hbuf : length ≤ payload.length) (hmsg : payload.getD 0 0 = eIOtype_MESSAGE) :
    (length ≥ 2 →
      SocketIOclient.handleCbEvent .WStype_TEXT (some payload) length
        = [.runIOCbEvent (payload.getD 1 0) (some (payload.drop 2)) (length - 2)] ∧
      (payload.drop 2).take (length - 2) = (payload.take length).drop 2 ∧
      ((payload.drop 2).take (length - 2)).length = length - 2) ∧
    (length = 1 → SocketIOclient.handleCbEvent .WStype_TEXT (some payload) length = []) ∧
    (∀ p : Option (List Nat), SocketIOclient.handleCbEvent .WStype_TEXT p 0 = []) := by
  have hne1 : eIOtype_MESSAGE ≠ eIOtype_PING := by decide
  have hne2 : eIOtype_MESSAGE ≠ eIOtype_PONG := by decide
  refine ⟨?_, ?_, fun _ => rfl⟩
  · intro h2
    refine ⟨?_, ?_, ?_⟩
    · unfold SocketIOclient.handleCbEvent
      simp only [show ¬ (length < 1) from by omega, show ¬ (length < 2) from by omega,
        if_false, Option.getD_some, hmsg, if_neg hne1, if_neg hne2, if_true]
    · rw [List.drop_take]
    · rw [List.length_take, List.length_drop]
      omega
  · intro h1
    unfold SocketIOclient.handleCbEvent
    simp only [h1, show ¬ (1 < 1) from by omega, show (1 < 2) from by omega, if_false,
      Option.getD_some, hmsg, if_neg hne1, if_neg hne2, if_true]

/-- C21 at a concrete message: `42["hi"]` is dispatched with kind 2. -/
theorem C21_message_dispatch_witness :
    SocketIOclient.handleCbEvent .WStype_TEXT (some [4, 2, 91, 34, 104, 105, 34, 93]) 8
      = [.runIOCbEvent ([4, 2, 91, 34, 104, 105, 34, 93].getD 1 0)
          (some ([4, 2, 91, 34, 104, 105, 34, 93].drop 2)) (8 - 2)] :=
  ((C21_message_dispatch [4, 2, 91, 34, 104, 105, 34, 93] 8 (by decide) (by decide)).1
    (by decide)).1

/-- C22: on an underlying Connected event `handleCbEvent` first sends the
Engine.IO upgrade message as a text message and then invokes the layer
callback with kind CONNECT and the payload and length it received; on an
underlying Disconnected event it invokes the layer callback exactly once,
with kind DISCONNECT, a NULL payload and length 0, and sends nothing. -/
theorem C22_connect_disconnect (payload : Option (List Nat)) (length : Nat) :
    SocketIOclient.handleCbEvent .WStype_CONNECTED payload length
      = [.sendTXTchar eIOtype_UPGRADE, .runIOCbEvent sIOtype_CONNECT payload length] ∧
    SocketIOclient.handleCbEvent .WStype_DISCONNECTED payload length
      = [.runIOCbEvent sIOtype_DISCONNECT none 0] :=
  ⟨rfl, rfl⟩

/-- The unsigned difference of two wrapped clock values is the elapsed time,
as long as less than one full period has elapsed. -/
theorem wrapped_difference (m T L : Nat) (hTL : L ≤ T) (hlt : T - L < m) :
    ((((T % m : Nat) : Int) - ((L % m : Nat) : Int)) % (m : Int)).toNat = T - L := by
  have h1 : (((T % m : Nat) : Int) - ((L % m : Nat) : Int)) % (m : Int)
      = ((T : Int) - (L : Int)) % (m : Int) := by
    rw [Int.natCast_mod, Int.natCast_mod, ← Int.sub_emod]
  rw [h1]
  have h2 : ((T : Int) - (L : Int)) = ((T - L : Nat) : Int) := by omega
  rw [h2, ← Int.natCast_mod, Int.toNat_ofNat, Nat.mod_eq_of_lt hlt]

/-- C23: `loop` sends one Engine.IO ping text message and stores `t` as the
new timestamp exactly when `t - last`, computed modulo `2 ^ w`, is strictly
greater than the heartbeat interval; otherwise it sends nothing and keeps the
timestamp. Hence for true times `L ≤ T` less than one clock period apart, read
through the wrapping clock, the ping is sent exactly when `T - L` exceeds the
interval, also across a wrap of the clock. -/
theorem C23_heartbeat (w interval T L : Nat) (hTL : L ≤ T) (hlt : T - L < 2 ^ w) :
    (∀ t last : Nat,
      ((((t : Int) - (last : Int)) % (2 : Int) ^ w).toNat > interval →
        SocketIOclient.loop w interval t last = (t, [.sendTXTchar eIOtype_PING])) ∧
      (¬ (((t : Int) - (last : Int)) % (2 : Int) ^ w).toNat > interval →
        SocketIOclient.loop w interval t last = (last, []))) ∧
    (T - L > interval →
      SocketIOclient.loop w interval (T % 2 ^ w) (L % 2 ^ w)
        = (T % 2 ^ w, [.sendTXTchar eIOtype_PING])) ∧
    (¬ T - L > interval →
      SocketIOclient.loop w interval (T % 2 ^ w) (L % 2 ^ w) = (L % 2 ^ w, [])) := by
  have hd := wrapped_difference (2 ^ w) T L hTL hlt
  have hcast : ((2 ^ w : Nat) : Int) = (2 : Int) ^ w := by push_cast; rfl
  rw [hcast] at hd
  refine ⟨fun t last => ⟨fun h => ?_, fun h => ?_⟩, fun h => ?_, fun h => ?_⟩
  · unfold SocketIOclient.loop; rw [if_pos h]
  · unfold SocketIOclient.loop; rw [if_neg h]
  · unfold SocketIOclient.loop; rw [hd, if_pos h]
  · unfold SocketIOclient.loop; rw [hd, if_neg h]

/-- C23 at a concrete wrap of a 32-bit clock: the last ping was sent 1000 ms
before the wrap, the clock now reads 24000 ms after it, and with an interval
of 20000 ms the ping is sent. -/
theorem C23_heartbeat_witness :
    SocketIOclient.loop 32 20000 ((4294967296 + 24000) % 2 ^ 32) ((4294967296 - 1000) % 2 ^ 32)
      = ((4294967296 + 24000) % 2 ^ 32, [.sendTXTchar eIOtype_PING]) :=
  (C23_heartbeat 32 20000 (4294967296 + 24000) (4294967296 - 1000) (by decide)
    (by decide)).2.1 (by decide)

/-- C26: `handleCbEvent` does nothing - it sends nothing and invokes no layer
callback - on an underlying Text event of length at least 1 whose byte 0 is
neither the ping nor the message type (so for pong, open, close, upgrade, noop
and every unrecognised byte), on an empty Text event, and on every underlying
event of kind Error, Binary, FragmentStart (text or binary), Fragment,
FragmentEnd, Ping or Pong. -/
theorem C26_no_op (payload : Option (List Nat)) (length : Nat)
    (hping : (payload.getD []).getD 0 0 ≠ eIOtype_PING)
    (hmsg : (payload.getD []).getD 0 0 ≠ eIOtype_MESSAGE) :
    SocketIOclient.handleCbEvent .WStype_TEXT payload length = [] ∧
    (∀ (p : Option (List Nat)) (b : List Nat),
      (b.getD 0 0 = eIOtype_PONG ∨ b.getD 0 0 = eIOtype_OPEN ∨ b.getD 0 0 = eIOtype_CLOSE ∨
        b.getD 0 0 = eIOtype_UPGRADE ∨ b.getD 0 0 = eIOtype_NOOP) →
      SocketIOclient.handleCbEvent .WStype_TEXT (some b) length = [] ∧
      SocketIOclient.handleCbEvent .WStype_TEXT p 0 = []) ∧
    (∀ (p : Option (List Nat)) (n : Nat),
      SocketIOclient.handleCbEvent .WStype_ERROR p n = [] ∧
      SocketIOclient.handleCbEvent .WStype_BIN p n = [] ∧
      SocketIOclient.handleCbEvent .WStype_FRAGMENT_TEXT_START p n = [] ∧
      SocketIOclient.handleCbEvent .WStype_FRAGMENT_BIN_START p n = [] ∧
      SocketIOclient.handleCbEvent .WStype_FRAGMENT p n = [] ∧
      SocketIOclient.handleCbEvent .WStype_FRAGMENT_FIN p n = [] ∧
      SocketIOclient.handleCbEvent .WStype_PING p n = [] ∧
      SocketIOclient.handleCbEvent .WStype_PONG p n = []) := by
  have key : ∀ (q : Option (List Nat)), (q.getD []).getD 0 0 ≠ eIOtype_PING →
      (q.getD []).getD 0 0 ≠ eIOtype_MESSAGE →
      SocketIOclient.handleCbEvent .WStype_TEXT q length = [] := by
    intro q h1 h2
    unfold SocketIOclient.handleCbEvent
    simp only [if_neg h1, if_neg h2]
    split_ifs <;> rfl
  refine ⟨key payload hping hmsg, ?_, fun _ _ => ⟨rfl, rfl, rfl, rfl, rfl, rfl, rfl, rfl⟩⟩
  intro p b hb
  refine ⟨key (some b) ?_ ?_, rfl⟩
  · rcases hb with h | h | h | h | h <;> simp only [Option.getD_some, h] <;> decide
  · rcases hb with h | h | h | h | h <;> simp only [Option.getD_some, h] <;> decide

/-- C26 at a concrete message: a pong `3probe` is ignored. -/
theorem C26_no_op_witness :
    SocketIOclient.handleCbEvent .WStype_TEXT (some [3, 112, 114, 111, 98, 101]) 6 = [] :=
  (C26_no_op (some [3, 112, 114, 111, 98, 101]) 6 (by decide) (by decide)).1

/-- C28: `send` returns false and attempts no write whenever `headerToPayload`
is true, also for a connected client and a non-empty payload, and whenever the
client is not connected. -/
theorem C28_send_refused (connected : Bool) (tx : Nat → Bool) (type : Nat)
    (payload : Option (List Nat)) (length : Nat) (headerToPayload : Bool) :
    SocketIOclient.send connected tx type payload length true = (false, []) ∧
    SocketIOclient.send false tx type payload length headerToPayload = (false, []) := by
  constructor
  · unfold SocketIOclient.send
    cases connected <;> simp
  · unfold SocketIOclient.send
    simp

/-! ## The liveness check -/

/-- A slot is reported connected exactly when it is live. -/
theorem clientIsConnected_iff_live (client : WSclient_t) :
    (clientIsConnected client).1 = true ↔ isLive client = true := by
  constructor
  · intro h
    unfold isLive
    cases htcp : client.tcp with
    | none => rw [clientIsConnected_of_none client htcp] at h; cases h
    | some t =>
      by_cases hst : client.status = .WSC_NOT_CONNECTED
      · unfold clientIsConnected at h
        rw [htcp] at h
        simp [hst] at h
      · rw [clientIsConnected_of_session client t htcp hst] at h
        split_ifs at h with hc
        simp [hc, hst]
  · intro h
    rw [clientIsConnected_of_live client h]

/-- A slot reported not connected is NOT_CONNECTED afterwards, provided a slot
without a handle was NOT_CONNECTED before. -/
theorem clientIsConnected_false_status (client : WSclient_t)
    (hinv : client.tcp = none → client.status = .WSC_NOT_CONNECTED)
    (h : (clientIsConnected client).1 = false) :
    (clientIsConnected client).2.1.status = .WSC_NOT_CONNECTED := by
  cases htcp : client.tcp with
  | none => rw [clientIsConnected_of_none client htcp]; exact hinv htcp
  | some t =>
    by_cases hst : client.status = .WSC_NOT_CONNECTED
    · unfold clientIsConnected
      rw [htcp]
      simp [hst, htcp, (clientDisconnect_status client).1]
    · rw [clientIsConnected_of_session client t htcp hst] at h ⊢
      split_ifs at h ⊢
      exact (clientDisconnect_status client).1

/-- A slot whose transport is lost is reported not connected and torn down,
whatever its status. -/
theorem clientIsConnected_lost (client : WSclient_t) (t : Tcp) (htcp : client.tcp = some t)
    (hlost : t.connected = false) :
    (clientIsConnected client).1 = false ∧
    (clientIsConnected client).2.1.status = .WSC_NOT_CONNECTED ∧
    (clientIsConnected client).2.1.tcp = none := by
  have hf : (clientIsConnected client).1 = false := by
    cases h : (clientIsConnected client).1
    · rfl
    · have hl := (clientIsConnected_iff_live client).mp h
      unfold isLive at hl
      rw [htcp] at hl
      simp [hlost] at hl
  refine ⟨hf, ?_, clientIsConnected_false client hf⟩
  apply clientIsConnected_false_status client _ hf
  intro hn
  rw [htcp] at hn
  cases hn

/-- C24: `clientIsConnected` returns true exactly when the slot has a
transport handle, the transport reports connected and the status is not
NOT_CONNECTED, and then it changes nothing and does nothing. Whenever it
returns false for a slot that has a handle, the slot afterwards is
NOT_CONNECTED and has no handle - this covers a lost transport, whatever the
declared status, and a handle left on a slot whose status is NOT_CONNECTED.
For a slot without a handle it returns false and changes nothing, so the slot
is NOT_CONNECTED afterwards provided it was before, which is the case for
every slot of every state reachable from `begin()`. -/
theorem C24_liveness_check (client : WSclient_t) :
    ((clientIsConnected client).1 = true ↔
      ∃ t, client.tcp = some t ∧ t.connected = true ∧ client.status ≠ .WSC_NOT_CONNECTED) ∧
    ((clientIsConnected client).1 = true → clientIsConnected client = (true, client, [])) ∧
    (∀ t, client.tcp = some t → (clientIsConnected client).1 = false →
      (clientIsConnected client).2.1.status = .WSC_NOT_CONNECTED ∧
      (clientIsConnected client).2.1.tcp = none) ∧
    (client.tcp = none → clientIsConnected client = (false, client, [])) ∧
    ((client.tcp = none → client.status = .WSC_NOT_CONNECTED) →
      (clientIsConnected client).1 = false →
      (clientIsConnected client).2.1.status = .WSC_NOT_CONNECTED ∧
      (clientIsConnected client).2.1.tcp = none) ∧
    (∀ t, client.tcp = some t → t.connected = false →
      (clientIsConnected client).1 = false ∧
      (clientIsConnected client).2.1.status = .WSC_NOT_CONNECTED ∧
      (clientIsConnected client).2.1.tcp = none) ∧
    (∀ t, client.tcp = some t → client.status = .WSC_NOT_CONNECTED →
      (clientIsConnected client).1 = false ∧
      (clientIsConnected client).2.1.status = .WSC_NOT_CONNECTED ∧
      (clientIsConnected client).2.1.tcp = none) ∧
    (∀ (acceptKey : Str → Str) (s : Server), Reachable acceptKey s → client ∈ s.clients →
      (clientIsConnected client).1 = false →
      (clientIsConnected client).2.1.status = .WSC_NOT_CONNECTED ∧
      (clientIsConnected client).2.1.tcp = none) := by
  have hfalse : ∀ (hinv : client.tcp = none → client.status = .WSC_NOT_CONNECTED),
      (clientIsConnected client).1 = false →
      (clientIsConnected client).2.1.status = .WSC_NOT_CONNECTED ∧
      (clientIsConnected client).2.1.tcp = none :=
    fun hinv h => ⟨clientIsConnected_false_status client hinv h, clientIsConnected_false client h⟩
  have hiff : (clientIsConnected client).1 = true ↔
      ∃ t, client.tcp = some t ∧ t.connected = true ∧ client.status ≠ .WSC_NOT_CONNECTED := by
    rw [clientIsConnected_iff_live]
    unfold isLive
    cases htcp : client.tcp with
    | none => simp
    | some t => simp
  refine ⟨hiff, clientIsConnected_true_eq client, ?_, clientIsConnected_of_none client, hfalse,
    clientIsConnected_lost client, ?_, ?_⟩
  · intro t ht h
    exact hfalse (fun hn => by rw [ht] at hn; cases hn) h
  · intro t ht hst
    have h : (clientIsConnected client).1 = false := by
      cases hc : (clientIsConnected client).1 with
      | false => rfl
      | true =>
        obtain ⟨_, _, _, hne⟩ := hiff.mp hc
        exact absurd hst hne
    exact ⟨h, hfalse (fun hn => by rw [ht] at hn; cases hn) h⟩
  · intro acceptKey s hreach hmem h
    exact hfalse (slotInvariant_reachable acceptKey s hreach client hmem).1.mpr h

/-- C24 at concrete slots: a slot whose handle is still connected but whose
status is NOT_CONNECTED is reported not connected and loses the handle; a slot
in the handshake phase whose transport is lost is reported not connected and
reset. -/
theorem C24_liveness_check_witness :
    ((clientIsConnected sampleStaleClient).1 = false ∧
      (clientIsConnected sampleStaleClient).2.1.status = .WSC_NOT_CONNECTED ∧
      (clientIsConnected sampleStaleClient).2.1.tcp = none) ∧
    ((clientIsConnected sampleLostClient).1 = false ∧
      (clientIsConnected sampleLostClient).2.1.status = .WSC_NOT_CONNECTED ∧
      (clientIsConnected sampleLostClient).2.1.tcp = none) :=
  ⟨(C24_liveness_check sampleStaleClient).2.2.2.2.2.2.1 sampleTcp (by decide) (by decide),
   (C24_liveness_check sampleLostClient).2.2.2.2.2.1 { id := 1, connected := false }
     (by decide) (by decide)⟩

/-! ## Isolation of the slots -/

/-- A per-slot operation on slot `i` leaves every other slot as it is. -/
theorem onSlot_other (s : Server) (i j : Nat) (f : WSclient_t → WSclient_t × List Effect)
    (hj : j ≠ i) : (s.onSlot i f).clients[j]? = s.clients[j]? := by
  unfold Server.onSlot
  cases hc : s.clients[i]? with
  | none => rfl
  | some c => exact List.getElem?_set_ne (Ne.symm hj)

/-- The function `handleHeader` does not change the slot number. -/
theorem handleHeader_num (acceptKey : Str → Str) (s : Server) (client : WSclient_t) (l : Str) :
    (handleHeader acceptKey s client l).1.num = client.num := by
  unfold handleHeader
  simp only []
  split_ifs
  · rfl
  · unfold handleHeaderField
    split_ifs <;> rfl
  · rfl
  · unfold handleHeaderEnd
    simp only []
    split_ifs
    · exact clientDisconnect_num client
    · rfl
    · exact clientDisconnect_num client

/-- Two server objects with the same fields are the same. -/
theorem Server.eq_of_fields (a b : Server) (h1 : a.clients = b.clients) (h2 : a.origin = b.origin)
    (h3 : a.protocol = b.protocol) (h4 : a.base64Authorization = b.base64Authorization)
    (h5 : a.httpHeaderValidationFunc = b.httpHeaderValidationFunc)
    (h6 : a.mandatoryHttpHeaders = b.mandatoryHttpHeaders) (h7 : a.runnning = b.runnning)
    (h8 : a.log = b.log) : a = b := by
  cases a; cases b
  simp only [Server.mk.injEq]
  exact ⟨h1, h2, h3, h4, h5, h6, h7, h8⟩

/-- The lifting of a per-slot operation, written out for a slot of the table. -/
theorem onSlot_of_slot (s : Server) (i : Nat) (f : WSclient_t → WSclient_t × List Effect)
    (c : WSclient_t) (h : s.clients[i]? = some c) :
    s.onSlot i f = { s with clients := s.clients.set i (f c).1, log := s.log ++ (f c).2 } := by
  unfold Server.onSlot
  rw [h]

/-- An action followed by an assignment to slot `i` is the lifting of the
per-slot operation that does both. -/
theorem perform_assign (s : Server) (i : Nat) (es : List Effect) (g : WSclient_t → WSclient_t)
    (c : WSclient_t) (h : s.clients[i]? = some c) :
    (s.perform es).assign i g = s.onSlot i (fun c => (g c, es)) := by
  rw [onSlot_of_slot s i _ c h]
  unfold Server.assign Server.perform
  simp only [h]

/-- An assignment to slot `i` is the lifting of the per-slot operation. -/
theorem assign_eq_onSlot (s : Server) (i : Nat) (g : WSclient_t → WSclient_t) :
    s.assign i g = s.onSlot i (fun c => (g c, [])) := by
  unfold Server.assign Server.onSlot
  cases h : s.clients[i]? with
  | none => rfl
  | some c => simp

/-- An action performed when slot `i` exists. -/
theorem perform_eq_onSlot (s : Server) (i : Nat) (es : List Effect) (c : WSclient_t)
    (h : s.clients[i]? = some c) :
    s.perform es = s.onSlot i (fun c => (c, es)) := by
  rw [onSlot_of_slot s i _ c h]
  unfold Server.perform
  have : s.clients.set i c = s.clients := by
    apply List.ext_getElem?
    intro k
    by_cases hk : i = k
    · subst hk
      rw [List.getElem?_set_self (List.getElem?_eq_some.mp h).1, h]
    · rw [List.getElem?_set_ne hk]
  simp only [this]

/-- The record of slot `i` after a lifted operation. -/
theorem onSlot_slot (s : Server) (i : Nat) (f : WSclient_t → WSclient_t × List Effect) :
    (s.onSlot i f).clients[i]? = (s.clients[i]?).map (fun c => (f c).1) := by
  unfold Server.onSlot
  cases h : s.clients[i]? with
  | none => simp [h]
  | some c =>
    simp only [Option.map_some']
    rw [List.getElem?_set_self (List.getElem?_eq_some.mp h).1]

/-- Two lifted operations on the same slot, one after the other. -/
theorem onSlot_onSlot (s : Server) (i : Nat) (f g : WSclient_t → WSclient_t × List Effect) :
    (s.onSlot i f).onSlot i g =
      s.onSlot i (fun c => ((g (f c).1).1, (f c).2 ++ (g (f c).1).2)) := by
  cases h : s.clients[i]? with
  | none =>
    have e : ∀ f, s.onSlot i f = s := fun f => by unfold Server.onSlot; rw [h]
    rw [e f, e g, e]
  | some c =>
    have h2 : (s.onSlot i f).clients[i]? = some (f c).1 := by rw [onSlot_slot, h]; rfl
    rw [onSlot_of_slot _ i g _ h2, onSlot_of_slot s i f c h, onSlot_of_slot s i _ c h]
    simp only [List.set_set, List.append_assoc]

/-- Lifted operations that agree on the record of slot `i` give the same server. -/
theorem onSlot_congr (s : Server) (i : Nat) (f g : WSclient_t → WSclient_t × List Effect)
    (h : ∀ c, s.clients[i]? = some c → f c = g c) : s.onSlot i f = s.onSlot i g := by
  unfold Server.onSlot
  cases hc : s.clients[i]? with
  | none => rfl
  | some c => simp only [h c hc]

/-- The teardown on the server object is the per-slot teardown applied to slot `i`. -/
theorem clientDisconnectAt_eq (s : Server) (i : Nat) :
    clientDisconnectAt s i = s.onSlot i clientDisconnect := by
  cases h : s.clients[i]? with
  | none => unfold clientDisconnectAt Server.onSlot; rw [h]
  | some client =>
    have hlt := (List.getElem?_eq_some.mp h).1
    rw [onSlot_of_slot s i _ client h]
    unfold clientDisconnectAt clientDisconnect
    rw [h]
    rcases hssl : client.isSSL with _ | _ <;> rcases hs : client.ssl with _ | t <;>
      rcases ht : client.tcp with _ | u <;>
      simp [Server.assign, Server.perform, h, hlt, List.getElem?_set_self, hs, ht, hssl]

/-- The liveness check on the server object is the per-slot check applied to
slot `i`. -/
theorem clientIsConnectedAt_eq (s : Server) (i : Nat) :
    clientIsConnectedAt s i =
      ((match s.clients[i]? with
        | some c => (clientIsConnected c).1
        | none => false),
       s.onSlot i (fun c => (clientIsConnected c).2)) := by
  cases h : s.clients[i]? with
  | none =>
    unfold clientIsConnectedAt Server.onSlot
    simp only [h]
  | some client =>
    have hsame : ∀ c, s.clients[i]? = some c → c = client :=
      fun c hc => Option.some.inj (hc.symm.trans h)
    unfold clientIsConnectedAt
    simp only [h, clientDisconnectAt_eq, onSlot_slot, onSlot_onSlot]
    cases ht : client.tcp with
    | none =>
      simp only [clientIsConnected_of_none client ht]
      rw [onSlot_noop s i _ (fun c hc => by
        rw [hsame c hc]
        exact congrArg Prod.snd (clientIsConnected_of_none client ht))]
    | some t =>
      simp only []
      by_cases hlive : (t.connected && client.status != .WSC_NOT_CONNECTED) = true
      · have e : clientIsConnected client = (true, client, []) := by
          unfold clientIsConnected
          rw [ht]
          simp only [hlive, if_true]
        rw [if_pos hlive, e]
        rw [onSlot_noop s i _ (fun c hc => by
          rw [hsame c hc]
          exact congrArg Prod.snd e)]
      · rw [if_neg hlive]
        have e1 : (clientIsConnected client).1 = false := by
          unfold clientIsConnected
          rw [ht]
          simp only [hlive]
          rfl
        rw [e1]
        simp only [Prod.mk.injEq, true_and]
        by_cases hl : (!t.connected && client.status != .WSC_NOT_CONNECTED) = true
        · simp only [hl, if_true, onSlot_slot, h, Option.map_some', Option.some_bind,
            (clientDisconnect_status client).2, Option.isSome_none, Bool.false_eq_true, if_false]
          apply onSlot_congr
          intro c hc
          rw [hsame c hc]
          unfold clientIsConnected
          rw [ht]
          simp only [hlive, hl, if_true, (clientDisconnect_status client).2, Option.isSome_none,
            Bool.false_eq_true, if_false, List.append_nil]
        · simp only [hl, if_false, h, Option.some_bind, ht, Option.isSome_some, if_true,
            Bool.false_eq_true]
          apply onSlot_congr
          intro c hc
          rw [hsame c hc]
          unfold clientIsConnected
          rw [ht]
          simp only [hlive, hl, if_false, ht, Option.isSome_some, if_true, Bool.false_eq_true,
            List.nil_append]

/-- The dispatch on the header name on the server object is the per-slot
dispatch applied to slot `i`. -/
theorem handleHeaderFieldAt_eq (s : Server) (i : Nat) (headerName headerValue : Str)
    (client : WSclient_t) (h : s.clients[i]? = some client) :
    handleHeaderFieldAt s i headerName headerValue =
      s.onSlot i (fun c => handleHeaderField s c headerName headerValue) := by
  have hlt := (List.getElem?_eq_some.mp h).1
  rw [onSlot_of_slot s i _ client h]
  unfold handleHeaderFieldAt handleHeaderField
  split_ifs <;>
    simp [Server.assign, Server.perform, h, hlt, List.getElem?_set_self,
      set_same s.clients i client h]

/-- The end-of-headers branch on the server object is the per-slot branch
applied to slot `i`. -/
theorem handleHeaderEndAt_eq (acceptKey : Str → Str) (s : Server) (i : Nat) :
    handleHeaderEndAt acceptKey s i = s.onSlot i (fun c => handleHeaderEnd acceptKey s c) := by
  cases h : s.clients[i]? with
  | none => unfold handleHeaderEndAt Server.onSlot; rw [h]
  | some client =>
    have hlt := (List.getElem?_eq_some.mp h).1
    have hp : ∀ es, (s.perform es).clients[i]? = some client := fun es => h
    unfold handleHeaderEndAt handleHeaderEnd handleAuthorizationFailedAt
      handleNonWebsocketConnectionAt handleAuthorizationFailed handleNonWebsocketConnection
    simp only [h, clientDisconnectAt_eq]
    have hsame : ∀ c, s.clients[i]? = some c → c = client :=
      fun c hc => Option.some.inj (hc.symm.trans h)
    split_ifs with hauth hok
    · rw [perform_eq_onSlot s i _ client h, onSlot_onSlot]
      apply onSlot_congr
      intro c hc
      rw [hsame c hc]
      simp only [if_pos hauth]
    · rw [onSlot_of_slot s i _ client h]
      simp only [if_neg hauth, hok, if_true]
      simp [Server.assign, Server.perform, h, hlt, List.getElem?_set_self, headerDoneAt,
        headerDone]
    · rw [perform_eq_onSlot s i _ client h, onSlot_onSlot]
      apply onSlot_congr
      intro c hc
      rw [hsame c hc]
      simp only [if_neg hauth, hok, Bool.false_eq_true, if_false]

/-- The header handler on the server object is the per-slot handler applied
to slot `i`. -/
theorem handleHeaderAt_eq (acceptKey : Str → Str) (s : Server) (i : Nat) (headerLine : Str) :
    handleHeaderAt acceptKey s i headerLine =
      s.onSlot i (fun c => handleHeader acceptKey s c headerLine) := by
  cases h : s.clients[i]? with
  | none => unfold handleHeaderAt Server.onSlot; rw [h]
  | some client =>
    have hlt := (List.getElem?_eq_some.mp h).1
    unfold handleHeaderAt handleHeader
    simp only [h]
    split_ifs
    · rw [onSlot_of_slot s i _ client h]
      simp [Server.assign, h, hlt, List.getElem?_set_self]
    · exact handleHeaderFieldAt_eq s i _ _ client h
    · exact (onSlot_noop s i _ (fun c _ => rfl)).symm
    · exact handleHeaderEndAt_eq acceptKey s i

/-- C25: `clientDisconnect`, `clientIsConnected` and `handleHeader`, embedded
on the server object and called with the pointer to slot `i`, leave the whole
record of every other slot `j` as it was (status, handle, handshake fields,
reassembly size), and the slot number of slot `i` itself is afterwards what it
was before. -/
theorem C25_isolation (acceptKey : Str → Str) (s : Server) (i j : Nat) (headerLine : Str)
    (hj : j ≠ i) :
    (clientDisconnectAt s i).clients[j]? = s.clients[j]? ∧
    (clientIsConnectedAt s i).2.clients[j]? = s.clients[j]? ∧
    (handleHeaderAt acceptKey s i headerLine).clients[j]? = s.clients[j]? ∧
    ((clientDisconnectAt s i).clients[i]?).map (fun c => c.num)
      = (s.clients[i]?).map (fun c => c.num) ∧
    ((clientIsConnectedAt s i).2.clients[i]?).map (fun c => c.num)
      = (s.clients[i]?).map (fun c => c.num) ∧
    ((handleHeaderAt acceptKey s i headerLine).clients[i]?).map (fun c => c.num)
      = (s.clients[i]?).map (fun c => c.num) := by
  rw [clientDisconnectAt_eq, clientIsConnectedAt_eq, handleHeaderAt_eq]
  refine ⟨onSlot_other s i j _ hj, onSlot_other s i j _ hj, onSlot_other s i j _ hj, ?_, ?_, ?_⟩
  · rw [onSlot_slot]
    cases s.clients[i]? with
    | none => rfl
    | some c => simp only [Option.map_some', clientDisconnect_num]
  · rw [onSlot_slot]
    cases s.clients[i]? with
    | none => rfl
    | some c => simp only [Option.map_some', clientIsConnected_num]
  · rw [onSlot_slot]
    cases s.clients[i]? with
    | none => rfl
    | some c => simp only [Option.map_some', handleHeader_num]

/-- C25 at a concrete table, the sample server with both slots bound: tearing
down slot 0 leaves slot 1 as it is, and so does the end of the headers on
slot 0, which rejects the incomplete request and tears slot 0 down. -/
theorem C25_isolation_witness :
    (clientDisconnectAt sampleFullServer 0).clients[1]? = sampleFullServer.clients[1]? ∧
    (handleHeaderAt sampleAcceptKey sampleFullServer 0 "\r".toList).clients[1]?
      = sampleFullServer.clients[1]? ∧
    ((handleHeaderAt sampleAcceptKey sampleFullServer 0 "\r".toList).clients[0]?).map
      (fun c => (c.num, c.status)) = some (0, .WSC_NOT_CONNECTED) :=
  ⟨(C25_isolation sampleAcceptKey sampleFullServer 0 1 "\r".toList (by decide)).1,
   (C25_isolation sampleAcceptKey sampleFullServer 0 1 "\r".toList (by decide)).2.2.1,
   by decide⟩

/-! ## Monotone upgrade flags -/

/-- A non-empty header line does not clear an upgrade-intent flag. -/
theorem flags_kept (acceptKey : Str → Str) (s : Server) (client : WSclient_t) (l : Str)
    (hne : trim l ≠ []) :
    (client.cIsUpgrade = true → (handleHeader acceptKey s client l).1.cIsUpgrade = true) ∧
    (client.cIsWebsocket = true → (handleHeader acceptKey s client l).1.cIsWebsocket = true) := by
  have hlen : (trim l).length > 0 := List.length_pos.mpr hne
  unfold handleHeader
  simp only [if_pos hlen]
  split_ifs
  · exact ⟨fun h => h, fun h => h⟩
  · unfold handleHeaderField
    split_ifs <;> exact ⟨fun h => by first | exact h | rfl, fun h => by first | exact h | rfl⟩
  · exact ⟨fun h => h, fun h => h⟩

/-- Non-empty header lines do not clear an upgrade-intent flag. -/
theorem flags_kept_list (acceptKey : Str → Str) (s : Server) (ls : List Str) :
    ∀ client : WSclient_t, (∀ l ∈ ls, trim l ≠ []) →
      (client.cIsUpgrade = true → (handleHeaders acceptKey s client ls).1.cIsUpgrade = true) ∧
      (client.cIsWebsocket = true →
        (handleHeaders acceptKey s client ls).1.cIsWebsocket = true) := by
  induction ls with
  | nil => intro client _; exact ⟨fun h => h, fun h => h⟩
  | cons l ls ih =>
    intro client hls
    have h1 := flags_kept acceptKey s client l (hls l (List.mem_cons_self _ _))
    have h2 := ih (handleHeader acceptKey s client l).1
      (fun l' hl' => hls l' (List.mem_cons_of_mem _ hl'))
    exact ⟨fun h => h2.1 (h1.1 h), fun h => h2.2 (h1.2 h)⟩

/-- C27: within one session, once cIsUpgrade or cIsWebsocket is set, no later
header line (any non-empty line: another Connection or Upgrade header, a
second request line, any other header) clears it; so if after those lines the
other conditions hold and the credential check passes, the empty line still
leaves the slot CONNECTED. -/
theorem C27_flags_monotone (acceptKey : Str → Str) (s : Server) (client : WSclient_t)
    (later : List Str) (e : Str) (hlater : ∀ l ∈ later, trim l ≠ []) (he : trim e = []) :
    (client.cIsUpgrade = true →
      (handleHeaders acceptKey s client later).1.cIsUpgrade = true) ∧
    (client.cIsWebsocket = true →
      (handleHeaders acceptKey s client later).1.cIsWebsocket = true) ∧
    (client.cIsUpgrade = true → client.cIsWebsocket = true →
      (handleHeaders acceptKey s client later).1.cVersion = 13 →
      (handleHeaders acceptKey s client later).1.cUrl ≠ [] →
      (handleHeaders acceptKey s client later).1.cKey ≠ [] →
      (handleHeaders acceptKey s client later).1.cHttpHeadersValid = true →
      (handleHeaders acceptKey s client later).1.cMandatoryHeadersCount
        = s.mandatoryHttpHeaderCount →
      authorizationPasses s (handleHeaders acceptKey s client later).1 →
      (handleHeader acceptKey s (handleHeaders acceptKey s client later).1 e).1.status
        = .WSC_CONNECTED) := by
  have hk := flags_kept_list acceptKey s later client hlater
  refine ⟨hk.1, hk.2, ?_⟩
  intro h1 h2 h3 h4 h5 h6 h7 h8
  rw [handleHeader_accepted acceptKey s _ e he h8 ⟨hk.1 h1, hk.2 h2, h3, h4, h5, h6, h7⟩]

/-- C27 at a concrete request: after the sample request, a `Connection: close`
line, an `Upgrade: h2c` line and a second request line leave both flags set
and the request is accepted. -/
theorem C27_flags_monotone_witness :
    (handleHeaders sampleAcceptKey sampleServer sampleReadyClient
      ["Connection: close\r".toList, "Upgrade: h2c\r".toList,
       "GET /chat HTTP/1.1\r".toList]).1.cIsUpgrade = true ∧
    (handleHeader sampleAcceptKey sampleServer
      (handleHeaders sampleAcceptKey sampleServer sampleReadyClient
        ["Connection: close\r".toList, "Upgrade: h2c\r".toList,
         "GET /chat HTTP/1.1\r".toList]).1 "\r".toList).1.status = .WSC_CONNECTED :=
  ⟨(C27_flags_monotone sampleAcceptKey sampleServer sampleReadyClient
      ["Connection: close\r".toList, "Upgrade: h2c\r".toList, "GET /chat HTTP/1.1\r".toList]
      "\r".toList (by decide) (by decide)).1 (by decide),
   (C27_flags_monotone sampleAcceptKey sampleServer sampleReadyClient
      ["Connection: close\r".toList, "Upgrade: h2c\r".toList, "GET /chat HTTP/1.1\r".toList]
      "\r".toList (by decide) (by decide)).2.2 (by decide) (by decide) (by decide) (by decide)
      (by decide) (by decide) (by decide) (by decide)⟩

end WebSocketsServer
